import Mathlib

/-!
Frame derivative transformers of `pinocchio/algorithm/frames-derivatives.hxx`.

A shallow embedding of `getFrameVelocityDerivatives` and
`getFrameAccelerationDerivatives`.

* The template parameter `Scalar` is a type `α` carrying a commutative ring.
* A `Matrix6x` is the list of its columns, each column a `Motion`
  (rows 0..2 the linear part, rows 3..5 the angular part).
* Writing through the output references is explicit state passing: every
  function returns the buffers it leaves behind.
* The `for` loop over `parents_fromRow` need not terminate for an arbitrary
  table, so it is run with a bound on the number of iterations.
-/

namespace pinocchio

/-! ## Spatial algebra -/

/-- Three scalars: `Eigen::Matrix<Scalar,3,1>`. -/
structure Vector3 (α : Type) where
  x : α
  y : α
  z : α
deriving DecidableEq, Repr

namespace Vector3
variable {α : Type} [CommRing α]

/-- The zero vector. -/
def zero : Vector3 α := ⟨0, 0, 0⟩

/-- Componentwise sum. -/
def add (a b : Vector3 α) : Vector3 α := ⟨a.x + b.x, a.y + b.y, a.z + b.z⟩

/-- Componentwise difference, the effect of `-=` on a 3-segment. -/
def sub (a b : Vector3 α) : Vector3 α := ⟨a.x - b.x, a.y - b.y, a.z - b.z⟩

/-- Product with a scalar. -/
def smul (k : α) (a : Vector3 α) : Vector3 α := ⟨k * a.x, k * a.y, k * a.z⟩

/-- The cross product `a.cross(b)`. -/
def cross (a b : Vector3 α) : Vector3 α :=
  ⟨a.y * b.z - a.z * b.y, a.z * b.x - a.x * b.z, a.x * b.y - a.y * b.x⟩

end Vector3

/-- A 3x3 matrix given by its three rows. -/
structure Matrix3 (α : Type) where
  r0 : Vector3 α
  r1 : Vector3 α
  r2 : Vector3 α
deriving DecidableEq, Repr

namespace Matrix3
variable {α : Type} [CommRing α]

/-- The identity matrix. -/
def identity : Matrix3 α := ⟨⟨1, 0, 0⟩, ⟨0, 1, 0⟩, ⟨0, 0, 1⟩⟩

/-- The transposed matrix. -/
def transpose (R : Matrix3 α) : Matrix3 α :=
  ⟨⟨R.r0.x, R.r1.x, R.r2.x⟩, ⟨R.r0.y, R.r1.y, R.r2.y⟩, ⟨R.r0.z, R.r1.z, R.r2.z⟩⟩

/-- Matrix times vector. -/
def mulVec (R : Matrix3 α) (v : Vector3 α) : Vector3 α :=
  ⟨R.r0.x * v.x + R.r0.y * v.y + R.r0.z * v.z,
   R.r1.x * v.x + R.r1.y * v.y + R.r1.z * v.z,
   R.r2.x * v.x + R.r2.y * v.y + R.r2.z * v.z⟩

/-- Matrix times matrix. -/
def mul (A B : Matrix3 α) : Matrix3 α :=
  ⟨⟨A.r0.x * B.r0.x + A.r0.y * B.r1.x + A.r0.z * B.r2.x,
    A.r0.x * B.r0.y + A.r0.y * B.r1.y + A.r0.z * B.r2.y,
    A.r0.x * B.r0.z + A.r0.y * B.r1.z + A.r0.z * B.r2.z⟩,
   ⟨A.r1.x * B.r0.x + A.r1.y * B.r1.x + A.r1.z * B.r2.x,
    A.r1.x * B.r0.y + A.r1.y * B.r1.y + A.r1.z * B.r2.y,
    A.r1.x * B.r0.z + A.r1.y * B.r1.z + A.r1.z * B.r2.z⟩,
   ⟨A.r2.x * B.r0.x + A.r2.y * B.r1.x + A.r2.z * B.r2.x,
    A.r2.x * B.r0.y + A.r2.y * B.r1.y + A.r2.z * B.r2.y,
    A.r2.x * B.r0.z + A.r2.y * B.r1.z + A.r2.z * B.r2.z⟩⟩

end Matrix3

/-- A spatial motion: `linear()` is the head 3-segment of the column,
`angular()` the tail 3-segment. -/
structure Motion (α : Type) where
  linear : Vector3 α
  angular : Vector3 α
deriving DecidableEq, Repr

/-- A rigid placement `SE3Tpl`: a rotation and a translation. -/
structure SE3 (α : Type) where
  rotation : Matrix3 α
  translation : Vector3 α
deriving DecidableEq, Repr

namespace SE3
variable {α : Type} [CommRing α]

/-- The identity placement. -/
def identity : SE3 α := ⟨Matrix3.identity, Vector3.zero⟩

/-- Modelled from the spec: `SE3::actInv` on a motion is defined in the
spatial headers, not in this file. It is the inverse adjoint action of the
placement `(R, p)`: the linear part becomes `Rᵀ (v - p × w)` and the angular
part `Rᵀ w`. -/
def actInv (M : SE3 α) (m : Motion α) : Motion α :=
  ⟨M.rotation.transpose.mulVec (m.linear.sub (M.translation.cross m.angular)),
   M.rotation.transpose.mulVec m.angular⟩

end SE3

/-! ## Model, data and buffers -/

/-- Modelled from the spec: the enum `ReferenceFrame` is declared outside this
file with the enumerators `WORLD`, `LOCAL` and `LOCAL_WORLD_ALIGNED`.
`other raw` stands for a value of the enum type that is none of the three. -/
inductive ReferenceFrame where
  | WORLD
  | LOCAL
  | LOCAL_WORLD_ALIGNED
  | other (raw : Int)
deriving DecidableEq, Repr

/-- What the transformers read of a joint model: `nv(joint)` and
`idx_v(joint)`. -/
structure JointModel where
  nv : Int
  idx_v : Int
deriving DecidableEq, Repr

/-- What the transformers read of `ModelTpl`: `model.nv` and `model.joints`. -/
structure Model where
  nv : Int
  joints : List JointModel
deriving DecidableEq, Repr

/-- What the transformers read of `DataTpl`: `data.oMi` and
`data.parents_fromRow`. -/
structure Data (α : Type) where
  oMi : List (SE3 α)
  parents_fromRow : List Int
deriving DecidableEq, Repr

/-- A matrix with six rows, stored as the list of its columns. -/
abbrev Matrix6x (α : Type) := List (Motion α)

/-- The number of columns, `cols()`. -/
def Matrix6x.cols {α : Type} (M : Matrix6x α) : Int := (M.length : Int)

/-- How a call ends, together with the output buffers where they are still
observable. -/
inductive Outcome (σ : Type) where
  /-- Normal return; the buffers hold `out`. -/
  | returned (out : σ)
  /-- An argument check threw; the buffers hold `out`. -/
  | invalidArgument (out : σ)
  /-- The `assert` on `model.check(data)` failed. -/
  | assertionFailed
  /-- An index was outside its container: undefined behaviour. -/
  | outOfRange
  /-- The loop had not finished within the allowed number of iterations. -/
  | outOfFuel
deriving DecidableEq, Repr

/-- Modelled from the spec: the macro `PINOCCHIO_CHECK_ARGUMENT_SIZE` comes
from a header outside this file; it fails fast when the two sizes differ. The
value is `true` when the check passes. -/
def checkArgumentSize (size expected_size : Int) : Bool :=
  decide (size = expected_size)

/-- The external `getJointVelocityDerivatives`, a collaborator that fills the
two buffers. -/
abbrev JointVelocityAlgorithm (α : Type) :=
  Model → Data α → Nat → ReferenceFrame →
    Matrix6x α × Matrix6x α → Outcome (Matrix6x α × Matrix6x α)

/-- The external `getJointAccelerationDerivatives`, a collaborator that fills
the four buffers. -/
abbrev JointAccelerationAlgorithm (α : Type) :=
  Model → Data α → Nat → ReferenceFrame →
    Matrix6x α × Matrix6x α × Matrix6x α × Matrix6x α →
    Outcome (Matrix6x α × Matrix6x α × Matrix6x α × Matrix6x α)

/-! ## The loop over the ancestor columns -/

/-- The loop
`for (col_id = colRef; col_id >= 0; col_id = parents_fromRow[(size_t)col_id]) body`
run for at most `fuel` iterations. `body` gets the column index and the
buffers; it yields `none` when it indexes outside a buffer. -/
def forAncestors {σ : Type} (parents_fromRow : List Int) (body : Nat → σ → Option σ) :
    Nat → Int → σ → Outcome σ
  | fuel, col_id, s =>
    if col_id < 0 then .returned s
    else
      match fuel with
      | 0 => .outOfFuel
      | fuel + 1 =>
        match body col_id.toNat s with
        | none => .outOfRange
        | some s1 =>
          match parents_fromRow[col_id.toNat]? with
          | none => .outOfRange
          | some parent => forAncestors parents_fromRow body fuel parent s1

section Transformers
variable {α : Type} [CommRing α]

/-- Body of the `LOCAL_WORLD_ALIGNED` loop of `getFrameVelocityDerivatives`. -/
def velocityBodyLWA (trans : Vector3 α) (col_id : Nat) :
    Matrix6x α × Matrix6x α → Option (Matrix6x α × Matrix6x α)
  | (v_partial_dq_, v_partial_dv_) => do
    let m1 ← v_partial_dq_[col_id]?
    let v_partial_dq_ := v_partial_dq_.set col_id ⟨m1.linear.sub (trans.cross m1.angular), m1.angular⟩
    let m2 ← v_partial_dv_[col_id]?
    let v_partial_dv_ := v_partial_dv_.set col_id ⟨m2.linear.sub (trans.cross m2.angular), m2.angular⟩
    pure (v_partial_dq_, v_partial_dv_)

/-- Body of the `LOCAL` loop of `getFrameVelocityDerivatives`. -/
def velocityBodyLOCAL (placement : SE3 α) (col_id : Nat) :
    Matrix6x α × Matrix6x α → Option (Matrix6x α × Matrix6x α)
  | (v_partial_dq_, v_partial_dv_) => do
    let v_tmp ← v_partial_dq_[col_id]?
    let v_partial_dq_ := v_partial_dq_.set col_id (placement.actInv v_tmp)
    let v_tmp ← v_partial_dv_[col_id]?
    let v_partial_dv_ := v_partial_dv_.set col_id (placement.actInv v_tmp)
    pure (v_partial_dq_, v_partial_dv_)

/-- The function `getFrameVelocityDerivatives`. The two
`EIGEN_STATIC_ASSERT_SAME_MATRIX_SIZE` lines are conditions on the matrix
types at compile time: a `Matrix6x` has six rows by construction and any
number of columns. The function has no run-time check of its own. -/
def getFrameVelocityDerivatives (getJointVelocityDerivatives : JointVelocityAlgorithm α)
    (fuel : Nat) (model : Model) (data : Data α) (joint_id : Nat) (placement : SE3 α)
    (rf : ReferenceFrame) (v_partial_dq v_partial_dv : Matrix6x α) :
    Outcome (Matrix6x α × Matrix6x α) :=
  match getJointVelocityDerivatives model data joint_id rf (v_partial_dq, v_partial_dv) with
  | .returned (v_partial_dq_, v_partial_dv_) =>
    match data.oMi[joint_id]?, model.joints[joint_id]? with
    | some oMi, some joint =>
      let trans := oMi.rotation.mulVec placement.translation
      let colRef : Int := joint.nv + joint.idx_v - 1
      match rf with
      | .WORLD => .returned (v_partial_dq_, v_partial_dv_)
      | .LOCAL_WORLD_ALIGNED =>
        forAncestors data.parents_fromRow (velocityBodyLWA trans) fuel colRef
          (v_partial_dq_, v_partial_dv_)
      | .LOCAL =>
        forAncestors data.parents_fromRow (velocityBodyLOCAL placement) fuel colRef
          (v_partial_dq_, v_partial_dv_)
      | .other _ => .returned (v_partial_dq_, v_partial_dv_)
    | _, _ => .outOfRange
  | failure => failure

/-- Body of the `LOCAL_WORLD_ALIGNED` loop of `getFrameAccelerationDerivatives`. -/
def accelerationBodyLWA (trans : Vector3 α) (col_id : Nat) :
    Matrix6x α × Matrix6x α × Matrix6x α × Matrix6x α →
      Option (Matrix6x α × Matrix6x α × Matrix6x α × Matrix6x α)
  | (v_partial_dq_, a_partial_dq_, a_partial_dv_, a_partial_da_) => do
    let m1 ← v_partial_dq_[col_id]?
    let v_partial_dq_ := v_partial_dq_.set col_id ⟨m1.linear.sub (trans.cross m1.angular), m1.angular⟩
    let m2 ← a_partial_dq_[col_id]?
    let a_partial_dq_ := a_partial_dq_.set col_id ⟨m2.linear.sub (trans.cross m2.angular), m2.angular⟩
    let m3 ← a_partial_dv_[col_id]?
    let a_partial_dv_ := a_partial_dv_.set col_id ⟨m3.linear.sub (trans.cross m3.angular), m3.angular⟩
    let m4 ← a_partial_da_[col_id]?
    let a_partial_da_ := a_partial_da_.set col_id ⟨m4.linear.sub (trans.cross m4.angular), m4.angular⟩
    pure (v_partial_dq_, a_partial_dq_, a_partial_dv_, a_partial_da_)

/-- Body of the `LOCAL` loop of `getFrameAccelerationDerivatives`. -/
def accelerationBodyLOCAL (placement : SE3 α) (col_id : Nat) :
    Matrix6x α × Matrix6x α × Matrix6x α × Matrix6x α →
      Option (Matrix6x α × Matrix6x α × Matrix6x α × Matrix6x α)
  | (v_partial_dq_, a_partial_dq_, a_partial_dv_, a_partial_da_) => do
    let v_tmp ← v_partial_dq_[col_id]?
    let v_partial_dq_ := v_partial_dq_.set col_id (placement.actInv v_tmp)
    let v_tmp ← a_partial_dq_[col_id]?
    let a_partial_dq_ := a_partial_dq_.set col_id (placement.actInv v_tmp)
    let v_tmp ← a_partial_dv_[col_id]?
    let a_partial_dv_ := a_partial_dv_.set col_id (placement.actInv v_tmp)
    let v_tmp ← a_partial_da_[col_id]?
    let a_partial_da_ := a_partial_da_.set col_id (placement.actInv v_tmp)
    pure (v_partial_dq_, a_partial_dq_, a_partial_dv_, a_partial_da_)

/-- The function `getFrameAccelerationDerivatives`. The four
`PINOCCHIO_CHECK_ARGUMENT_SIZE` lines come first, then the `assert`. `check` is
`model.check(data)` as the `assert` sees it; a build without assertions is
`check := fun _ _ => true`. -/
def getFrameAccelerationDerivatives
    (getJointAccelerationDerivatives : JointAccelerationAlgorithm α)
    (check : Model → Data α → Bool)
    (fuel : Nat) (model : Model) (data : Data α) (joint_id : Nat) (placement : SE3 α)
    (rf : ReferenceFrame) (v_partial_dq a_partial_dq a_partial_dv a_partial_da : Matrix6x α) :
    Outcome (Matrix6x α × Matrix6x α × Matrix6x α × Matrix6x α) :=
  if !checkArgumentSize v_partial_dq.cols model.nv then
    .invalidArgument (v_partial_dq, a_partial_dq, a_partial_dv, a_partial_da)
  else if !checkArgumentSize a_partial_dq.cols model.nv then
    .invalidArgument (v_partial_dq, a_partial_dq, a_partial_dv, a_partial_da)
  else if !checkArgumentSize a_partial_dv.cols model.nv then
    .invalidArgument (v_partial_dq, a_partial_dq, a_partial_dv, a_partial_da)
  else if !checkArgumentSize a_partial_da.cols model.nv then
    .invalidArgument (v_partial_dq, a_partial_dq, a_partial_dv, a_partial_da)
  else if !check model data then .assertionFailed
  else
    match getJointAccelerationDerivatives model data joint_id rf
        (v_partial_dq, a_partial_dq, a_partial_dv, a_partial_da) with
    | .returned (v_partial_dq_, a_partial_dq_, a_partial_dv_, a_partial_da_) =>
      match model.joints[joint_id]? with
      | none => .outOfRange
      | some joint =>
        let colRef : Int := joint.nv + joint.idx_v - 1
        match rf with
        | .WORLD => .returned (v_partial_dq_, a_partial_dq_, a_partial_dv_, a_partial_da_)
        | .LOCAL_WORLD_ALIGNED =>
          match data.oMi[joint_id]? with
          | none => .outOfRange
          | some oMi =>
            let trans := oMi.rotation.mulVec placement.translation
            forAncestors data.parents_fromRow (accelerationBodyLWA trans) fuel colRef
              (v_partial_dq_, a_partial_dq_, a_partial_dv_, a_partial_da_)
        | .LOCAL =>
          forAncestors data.parents_fromRow (accelerationBodyLOCAL placement) fuel colRef
            (v_partial_dq_, a_partial_dq_, a_partial_dv_, a_partial_da_)
        | .other _ => .returned (v_partial_dq_, a_partial_dq_, a_partial_dv_, a_partial_da_)
    | failure => failure

end Transformers

/-! ## Reference definitions used to state the properties -/

/-- The columns `colRef, parents_fromRow[colRef], ...` met by following the
table from `col_id` for at most `fuel` steps, up to the first negative value. -/
def ancestorChain (parents_fromRow : List Int) : Nat → Int → List Nat
  | 0, _ => []
  | fuel + 1, col_id =>
    if col_id < 0 then []
    else
      col_id.toNat ::
        (match parents_fromRow[col_id.toNat]? with
          | none => []
          | some parent => ancestorChain parents_fromRow fuel parent)

/-- The table is strictly decreasing: every entry is smaller than its index. -/
def Descending (parents_fromRow : List Int) : Prop :=
  ∀ i : Fin parents_fromRow.length, parents_fromRow.get i < (i.val : Int)

instance (parents_fromRow : List Int) : Decidable (Descending parents_fromRow) := by
  unfold Descending
  infer_instance

/-- Apply `f` to the columns whose index is in `chain`; columns are numbered
from `start`. -/
def correctColumnsFrom {α : Type} (f : Motion α → Motion α) (chain : List Nat) :
    Nat → Matrix6x α → Matrix6x α
  | _, [] => []
  | start, m :: ms =>
    (if start ∈ chain then f m else m) :: correctColumnsFrom f chain (start + 1) ms

/-- Apply `f` to exactly the columns of `chain`, once each, and keep the
others. -/
def correctColumns {α : Type} (f : Motion α → Motion α) (chain : List Nat)
    (raw : Matrix6x α) : Matrix6x α :=
  correctColumnsFrom f chain 0 raw

/-- The `LOCAL_WORLD_ALIGNED` correction of one column: subtract
`trans × angular` from the linear part. -/
def shiftLinear {α : Type} [CommRing α] (trans : Vector3 α) (m : Motion α) : Motion α :=
  ⟨m.linear.sub (trans.cross m.angular), m.angular⟩

/-- One matrix, one column: read the column, write `f` of it back. -/
def columnBody {α : Type} (f : Motion α → Motion α) (col_id : Nat) (M : Matrix6x α) :
    Option (Matrix6x α) :=
  match M[col_id]? with
  | none => none
  | some m => some (M.set col_id (f m))

/-- Two loop bodies run side by side on a pair of buffers. -/
def parBody {σ τ : Type} (b1 : Nat → σ → Option σ) (b2 : Nat → τ → Option τ)
    (col_id : Nat) : σ × τ → Option (σ × τ)
  | (s, t) =>
    match b1 col_id s, b2 col_id t with
    | some s1, some t1 => some (s1, t1)
    | _, _ => none

/-- The correction the switch applies to one column on the chain: nothing for
`WORLD` and for an unknown value, the linear shift by
`trans = rotation(oMi) * placement.translation()` for `LOCAL_WORLD_ALIGNED`,
and `placement.actInv` for `LOCAL`. -/
def columnCorrection {α : Type} [CommRing α] (rf : ReferenceFrame) (placement oMi : SE3 α) :
    Motion α → Motion α :=
  match rf with
  | .LOCAL_WORLD_ALIGNED => shiftLinear (oMi.rotation.mulVec placement.translation)
  | .LOCAL => placement.actInv
  | .WORLD => id
  | .other _ => id

/-- The correction pass on a single matrix: `columnCorrection` on the columns
of the ancestor chain of `colRef`, every other column kept. -/
def correctionPass {α : Type} [CommRing α] (rf : ReferenceFrame) (placement oMi : SE3 α)
    (parents_fromRow : List Int) (fuel : Nat) (colRef : Int) (raw : Matrix6x α) : Matrix6x α :=
  correctColumns (columnCorrection rf placement oMi)
    (ancestorChain parents_fromRow fuel colRef) raw

/-- Column `c` of `out` is column `c` of `raw` with `trans × angular`
subtracted from the linear part and the angular part kept. -/
def ShiftedColumn {α : Type} [CommRing α] (trans : Vector3 α) (raw out : Matrix6x α)
    (c : Nat) : Prop :=
  ∃ m o, raw[c]? = some m ∧ out[c]? = some o ∧
    o.linear = m.linear.sub (trans.cross m.angular) ∧ o.angular = m.angular

/-- Column `c` of `out` is `placement.actInv` of column `c` of `raw`: with
`placement = (R, p)` and the raw column `(v, w)`, the angular part is `Rᵀ w`
and the linear part `Rᵀ (v - p × w)`. -/
def ActInvColumn {α : Type} [CommRing α] (placement : SE3 α) (raw out : Matrix6x α)
    (c : Nat) : Prop :=
  ∃ m o, raw[c]? = some m ∧ out[c]? = some o ∧ o = placement.actInv m ∧
    o.angular = placement.rotation.transpose.mulVec m.angular ∧
    o.linear = placement.rotation.transpose.mulVec
      (m.linear.sub (placement.translation.cross m.angular))

/-- Modelled from the spec: `getJointVelocityDerivatives` is declared in
`pinocchio/algorithm/kinematics-derivatives.hpp` and its code is not in this
file. The spec makes "both outputs sized 6×nv" a precondition of the velocity
transformer and has a mismatch "signaled by a fail-fast assertion/contract
violation at the call boundary"; the transformer has no run-time check of its
own and this call is its first run-time statement, so the check is the
collaborator's: it compares the column count of each buffer with `model.nv`
before it writes anything, and then "fills output buffers with joint-space
derivative matrices". `fill` stands for that second part. -/
def getJointVelocityDerivatives {α : Type} (fill : JointVelocityAlgorithm α) :
    JointVelocityAlgorithm α :=
  fun model data joint_id rf buffers =>
    if !checkArgumentSize buffers.1.cols model.nv then .invalidArgument buffers
    else if !checkArgumentSize buffers.2.cols model.nv then .invalidArgument buffers
    else fill model data joint_id rf buffers

/-! ## Concrete inputs used to exercise the theorems -/

/-- A stand-in for the joint algorithm: it writes `rq` and `rv` into the two
buffers. -/
def fillVelocity {α : Type} (rq rv : Matrix6x α) : JointVelocityAlgorithm α :=
  fun _ _ _ _ _ => .returned (rq, rv)

/-- A stand-in for the joint algorithm: it writes the four given matrices
into the four buffers. -/
def fillAcceleration {α : Type} (r1 r2 r3 r4 : Matrix6x α) : JointAccelerationAlgorithm α :=
  fun _ _ _ _ _ => .returned (r1, r2, r3, r4)

/-- The check of a build without assertions. -/
def noCheck {α : Type} : Model → Data α → Bool := fun _ _ => true

/-- The model of the two-joint chain: the universe, joint `A` owning column 0
and joint `B` owning column 1, followed by any further joints; `nv` is the
total number of columns. -/
def chainModel (nv : Int) (more : List JointModel) : Model :=
  ⟨nv, ⟨0, 0⟩ :: ⟨1, 0⟩ :: ⟨1, 1⟩ :: more⟩

/-- The data of the two-joint chain: `A` at the origin with rotation `R_A`,
`B` at `(1,0,0)` with rotation `R_B`; column 0 has no parent and column 1 has
parent 0. Further joints and columns are appended. -/
def chainData {α : Type} [CommRing α] (R_A R_B : Matrix3 α) (moreOMi : List (SE3 α))
    (moreParents : List Int) : Data α :=
  ⟨SE3.identity :: ⟨R_A, Vector3.zero⟩ :: ⟨R_B, ⟨1, 0, 0⟩⟩ :: moreOMi,
   (-1) :: 0 :: moreParents⟩

/-- The frame `F`, offset by `(0,0,1)` from joint `B`. -/
def framePlacement {α : Type} [CommRing α] (R_F : Matrix3 α) : SE3 α :=
  ⟨R_F, ⟨0, 0, 1⟩⟩

/-- The lever arm from joint `A` to the frame `F` of the two-joint chain in
the world frame: the offset `(1,0,0)` of `B` plus `R_B * (0,0,1)`. -/
def leverArmAF {α : Type} [CommRing α] (R_B : Matrix3 α) : Vector3 α :=
  Vector3.add ⟨1, 0, 0⟩ (R_B.mulVec ⟨0, 0, 1⟩)

/-- A sample column. -/
def sampleColumn (k : Int) : Motion Int := ⟨⟨k, 2, 3⟩, ⟨1, k, 2⟩⟩

/-- A sample raw matrix with three columns. -/
def sampleRaw (k : Int) : Matrix6x Int :=
  [sampleColumn k, sampleColumn (k + 1), sampleColumn (k + 2)]

/-- A quarter turn about the z axis. -/
def quarterTurn : Matrix3 Int := ⟨⟨0, -1, 0⟩, ⟨1, 0, 0⟩, ⟨0, 0, 1⟩⟩

/-- A quarter turn about the x axis. -/
def quarterTurnX : Matrix3 Int := ⟨⟨1, 0, 0⟩, ⟨0, 0, -1⟩, ⟨0, 1, 0⟩⟩

/-- The two-joint chain with a third joint `C` hanging off `B`: three columns. -/
def sampleModel : Model := chainModel 3 [⟨1, 2⟩]

/-- Data for `sampleModel`; `A` is turned about z and `B` about x. -/
def sampleData : Data Int :=
  chainData quarterTurn quarterTurnX [⟨Matrix3.identity, ⟨1, 1, 0⟩⟩] [1]

/-- A frame on joint `B`, turned by a quarter turn and offset by `(0,0,1)`. -/
def samplePlacement : SE3 Int := framePlacement quarterTurn

/-- The planar two-joint chain at its zero configuration: both joints turn
about the z axis and are not rotated. -/
def planarData : Data Int := chainData Matrix3.identity Matrix3.identity [] []

/-- Raw `v_partial_dq` of joint `B` for the planar chain at zero velocity:
all zero. -/
def planarRawDq : Matrix6x Int := [⟨⟨0, 0, 0⟩, ⟨0, 0, 0⟩⟩, ⟨⟨0, 0, 0⟩, ⟨0, 0, 0⟩⟩]

/-- Raw `v_partial_dv` of joint `B` for the planar chain, world aligned at the
origin of `B`: the column of `A` is `(z × (1,0,0), z) = ((0,1,0), (0,0,1))`,
the column of `B` is `((0,0,0), (0,0,1))`. -/
def planarRawDv : Matrix6x Int := [⟨⟨0, 1, 0⟩, ⟨0, 0, 1⟩⟩, ⟨⟨0, 0, 0⟩, ⟨0, 0, 1⟩⟩]

/-! ## Reference definitions for the walk -/

/-- A ghost loop body: it appends the column it is run on to a log of the
visited columns and touches nothing else. -/
def recordVisit (col_id : Nat) (visited : List Nat) : Option (List Nat) :=
  some (visited ++ [col_id])

/-- The sequence `col, parents_fromRow[col], parents_fromRow[parents_fromRow[col]], ...`
up to, and excluding, the first negative value. -/
inductive IsAncestorSequence (parents_fromRow : List Int) : Int → List Nat → Prop where
  | stop (col : Int) : col < 0 → IsAncestorSequence parents_fromRow col []
  | step (col parent : Int) (rest : List Nat) :
      0 ≤ col → parents_fromRow[col.toNat]? = some parent →
      IsAncestorSequence parents_fromRow parent rest →
      IsAncestorSequence parents_fromRow col (col.toNat :: rest)

/-- Column `c` is one of the velocity-space columns owned by the joint, the
range `[idx_v, idx_v + nv)`. -/
def OwnsColumn (joint : JointModel) (c : Int) : Prop :=
  joint.idx_v ≤ c ∧ c < joint.idx_v + joint.nv

/-- The correction pass as one loop on one matrix, given the convention, the
frame placement, the rotation of `oMi[joint_id]`, the table and the start
column: the shift loop for `LOCAL_WORLD_ALIGNED`, the `actInv` loop for
`LOCAL`, nothing otherwise. -/
def singleMatrixPass {α : Type} [CommRing α] (rf : ReferenceFrame) (placement : SE3 α)
    (oMiRotation : Matrix3 α) (parents_fromRow : List Int) (fuel : Nat) (colRef : Int)
    (raw : Matrix6x α) : Outcome (Matrix6x α) :=
  match rf with
  | .LOCAL_WORLD_ALIGNED =>
    forAncestors parents_fromRow
      (columnBody (fun m => ⟨m.linear.sub ((oMiRotation.mulVec placement.translation).cross
        m.angular), m.angular⟩)) fuel colRef raw
  | .LOCAL => forAncestors parents_fromRow (columnBody (fun m => placement.actInv m)) fuel colRef raw
  | .WORLD => .returned raw
  | .other _ => .returned raw

/-! ## Reference definitions for the algebra of the correction -/

/-- The opposite vector. -/
def Vector3.neg {α : Type} [CommRing α] (a : Vector3 α) : Vector3 α := ⟨-a.x, -a.y, -a.z⟩

/-- The determinant of a 3x3 matrix. -/
def Matrix3.det {α : Type} [CommRing α] (R : Matrix3 α) : α :=
  R.r0.x * (R.r1.y * R.r2.z - R.r1.z * R.r2.y)
    - R.r0.y * (R.r1.x * R.r2.z - R.r1.z * R.r2.x)
    + R.r0.z * (R.r1.x * R.r2.y - R.r1.y * R.r2.x)

/-- An orthonormal rotation: `R Rᵀ = 1` and `det R = 1`. -/
def IsRotation {α : Type} [CommRing α] (R : Matrix3 α) : Prop :=
  R.mul R.transpose = Matrix3.identity ∧ R.det = 1

/-- The composed placement `M1 * M2 = (R1 R2, p1 + R1 p2)`. -/
def SE3.mul {α : Type} [CommRing α] (M1 M2 : SE3 α) : SE3 α :=
  ⟨M1.rotation.mul M2.rotation, M1.translation.add (M1.rotation.mulVec M2.translation)⟩

/-- The inverse placement `(Rᵀ, -Rᵀ p)`. -/
def SE3.inverse {α : Type} [CommRing α] (M : SE3 α) : SE3 α :=
  ⟨M.rotation.transpose, (M.rotation.transpose.mulVec M.translation).neg⟩

/-- The zero column. -/
def Motion.zero {α : Type} [CommRing α] : Motion α := ⟨Vector3.zero, Vector3.zero⟩

/-- Entry by entry sum of two columns. -/
def Motion.add {α : Type} [CommRing α] (m n : Motion α) : Motion α :=
  ⟨m.linear.add n.linear, m.angular.add n.angular⟩

/-- A column times a scalar. -/
def Motion.smul {α : Type} [CommRing α] (k : α) (m : Motion α) : Motion α :=
  ⟨Vector3.smul k m.linear, Vector3.smul k m.angular⟩

/-- The matrix `a * X + b * Y`, column by column. -/
def Matrix6x.combine {α : Type} [CommRing α] (a : α) (X : Matrix6x α) (b : α)
    (Y : Matrix6x α) : Matrix6x α :=
  List.zipWith (fun x y => (Motion.smul a x).add (Motion.smul b y)) X Y

/-! ## Lemmas on the loop -/

theorem forAncestors_neg {σ : Type} (parents_fromRow : List Int) (body : Nat → σ → Option σ)
    (fuel : Nat) (col_id : Int) (s : σ) (h : col_id < 0) :
    forAncestors parents_fromRow body fuel col_id s = .returned s := by
  cases fuel <;> simp [forAncestors, h]

theorem forAncestors_succ {σ : Type} (parents_fromRow : List Int) (body : Nat → σ → Option σ)
    (fuel : Nat) (col_id : Int) (s s1 : σ) (parent : Int) (h : 0 ≤ col_id)
    (hb : body col_id.toNat s = some s1)
    (hp : parents_fromRow[col_id.toNat]? = some parent) :
    forAncestors parents_fromRow body (fuel + 1) col_id s
      = forAncestors parents_fromRow body fuel parent s1 := by
  have h1 : ¬ col_id < 0 := by omega
  simp [forAncestors, h1, hb, hp]

theorem ancestorChain_neg (parents_fromRow : List Int) (fuel : Nat) (col_id : Int)
    (h : col_id < 0) : ancestorChain parents_fromRow fuel col_id = [] := by
  cases fuel <;> simp [ancestorChain, h]

theorem Descending.lt {parents_fromRow : List Int} (hd : Descending parents_fromRow)
    {i : Nat} {p : Int} (h : parents_fromRow[i]? = some p) : p < (i : Int) := by
  obtain ⟨hi, rfl⟩ := List.getElem?_eq_some.mp h
  exact hd ⟨i, hi⟩

theorem ancestorChain_le {parents_fromRow : List Int} (hd : Descending parents_fromRow) :
    ∀ (fuel : Nat) (col_id : Int) (c : Nat),
      c ∈ ancestorChain parents_fromRow fuel col_id → (c : Int) ≤ col_id := by
  intro fuel
  induction fuel with
  | zero => intro col_id c hc; simp [ancestorChain] at hc
  | succ fuel ih =>
    intro col_id c hc
    by_cases hneg : col_id < 0
    · simp [ancestorChain, hneg] at hc
    · simp only [ancestorChain, hneg, if_false, List.mem_cons] at hc
      rcases hc with rfl | hc
      · omega
      · cases hp : parents_fromRow[col_id.toNat]? with
        | none => simp [hp] at hc
        | some p =>
          simp only [hp] at hc
          have h1 := ih p c hc
          have h2 := hd.lt hp
          omega

theorem getElem?_correctColumnsFrom {α : Type} (f : Motion α → Motion α) (chain : List Nat) :
    ∀ (raw : Matrix6x α) (start c : Nat),
      (correctColumnsFrom f chain start raw)[c]?
        = (raw[c]?).map (fun m => if start + c ∈ chain then f m else m) := by
  intro raw
  induction raw with
  | nil => intro start c; simp [correctColumnsFrom]
  | cons m ms ih =>
    intro start c
    cases c with
    | zero => simp [correctColumnsFrom]
    | succ c =>
      simp only [correctColumnsFrom, List.getElem?_cons_succ, ih]
      have : start + 1 + c = start + (c + 1) := by omega
      rw [this]

theorem getElem?_correctColumns {α : Type} (f : Motion α → Motion α) (chain : List Nat)
    (raw : Matrix6x α) (c : Nat) :
    (correctColumns f chain raw)[c]?
      = (raw[c]?).map (fun m => if c ∈ chain then f m else m) := by
  simp [correctColumns, getElem?_correctColumnsFrom]

theorem length_correctColumns {α : Type} (f : Motion α → Motion α) (chain : List Nat)
    (raw : Matrix6x α) : (correctColumns f chain raw).length = raw.length := by
  unfold correctColumns
  generalize 0 = start
  induction raw generalizing start with
  | nil => rfl
  | cons m ms ih => simp [correctColumnsFrom, ih]

theorem correctColumns_nil {α : Type} (f : Motion α → Motion α) (raw : Matrix6x α) :
    correctColumns f [] raw = raw := by
  apply List.ext_getElem?
  intro c
  rw [getElem?_correctColumns]
  cases raw[c]? <;> simp

/-- The loop on one matrix: with a strictly decreasing table, a start column
inside the matrix and the table, and enough iterations, it returns the matrix
with `f` applied once to every column of the chain. -/
theorem forAncestors_columnBody {α : Type} (f : Motion α → Motion α)
    {parents_fromRow : List Int} (hd : Descending parents_fromRow) :
    ∀ (fuel : Nat) (col_id : Int) (M : Matrix6x α),
      col_id < (fuel : Int) → col_id < (M.length : Int) →
      col_id < (parents_fromRow.length : Int) →
      forAncestors parents_fromRow (columnBody f) fuel col_id M
        = .returned (correctColumns f (ancestorChain parents_fromRow fuel col_id) M) := by
  intro fuel
  induction fuel with
  | zero =>
    intro col_id M hf _ _
    have hneg : col_id < 0 := by simpa using hf
    rw [forAncestors_neg _ _ _ _ _ hneg, ancestorChain_neg _ _ _ hneg, correctColumns_nil]
  | succ fuel ih =>
    intro col_id M hf hM hP
    by_cases hneg : col_id < 0
    · rw [forAncestors_neg _ _ _ _ _ hneg, ancestorChain_neg _ _ _ hneg, correctColumns_nil]
    · have h0 : 0 ≤ col_id := by omega
      have hiM : col_id.toNat < M.length := by omega
      have hiP : col_id.toNat < parents_fromRow.length := by omega
      have hb : columnBody f col_id.toNat M
          = some (M.set col_id.toNat (f M[col_id.toNat])) := by
        simp [columnBody, List.getElem?_eq_getElem hiM]
      have hp : parents_fromRow[col_id.toNat]?
          = some parents_fromRow[col_id.toNat] := by
        simp [List.getElem?_eq_getElem hiP]
      have hlt := hd.lt hp
      rw [forAncestors_succ _ _ _ _ _ _ _ h0 hb hp,
        ih _ _ (by omega) (by simp; omega) (by omega)]
      congr 1
      apply List.ext_getElem?
      intro c
      have hchain : ancestorChain parents_fromRow (fuel + 1) col_id
          = col_id.toNat :: ancestorChain parents_fromRow fuel
              parents_fromRow[col_id.toNat] := by
        simp [ancestorChain, hneg, hp]
      rw [getElem?_correctColumns, getElem?_correctColumns, hchain]
      by_cases hc : col_id.toNat = c
      · subst hc
        have hnot : col_id.toNat ∉ ancestorChain parents_fromRow fuel
            parents_fromRow[col_id.toNat] := by
          intro hmem
          have := ancestorChain_le hd _ _ _ hmem
          omega
        simp [hnot, List.getElem?_eq_getElem hiM, hiM]
      · have hc2 : ¬ c = col_id.toNat := fun h => hc h.symm
        simp [List.getElem?_set_ne hc, hc2]

/-- Two bodies side by side return exactly when each returns on its own
buffer, with the same results. -/
theorem forAncestors_parBody {σ τ : Type} (parents_fromRow : List Int)
    (b1 : Nat → σ → Option σ) (b2 : Nat → τ → Option τ) :
    ∀ (fuel : Nat) (col_id : Int) (s : σ) (t : τ) (s1 : σ) (t1 : τ),
      forAncestors parents_fromRow (parBody b1 b2) fuel col_id (s, t) = .returned (s1, t1) ↔
      (forAncestors parents_fromRow b1 fuel col_id s = .returned s1 ∧
        forAncestors parents_fromRow b2 fuel col_id t = .returned t1) := by
  intro fuel
  induction fuel with
  | zero =>
    intro col_id s t s1 t1
    by_cases hneg : col_id < 0 <;> simp [forAncestors, hneg]
  | succ fuel ih =>
    intro col_id s t s1 t1
    by_cases hneg : col_id < 0
    · simp [forAncestors, hneg]
    · simp only [forAncestors, hneg, if_false]
      cases hb1 : b1 col_id.toNat s with
      | none => simp [parBody, hb1]
      | some s2 =>
        cases hb2 : b2 col_id.toNat t with
        | none => simp [parBody, hb1, hb2]
        | some t2 =>
          cases hp : parents_fromRow[col_id.toNat]? with
          | none => simp [parBody, hb1, hb2]
          | some p =>
            simp only [parBody, hb1, hb2]
            exact ih p s2 t2 s1 t1

/-- Columns outside the visited chain are never written: whenever the loop on
one matrix returns, such a column is what it was. -/
theorem forAncestors_columnBody_off {α : Type} (f : Motion α → Motion α)
    (parents_fromRow : List Int) :
    ∀ (fuel : Nat) (col_id : Int) (M out : Matrix6x α) (c : Nat),
      forAncestors parents_fromRow (columnBody f) fuel col_id M = .returned out →
      c ∉ ancestorChain parents_fromRow fuel col_id → out[c]? = M[c]? := by
  intro fuel
  induction fuel with
  | zero =>
    intro col_id M out c h _
    by_cases hneg : col_id < 0
    · simp [forAncestors, hneg] at h
      rw [h]
    · simp [forAncestors, hneg] at h
  | succ fuel ih =>
    intro col_id M out c h hc
    by_cases hneg : col_id < 0
    · simp [forAncestors, hneg] at h
      rw [h]
    · simp only [forAncestors, hneg, if_false] at h
      simp only [ancestorChain, hneg, if_false, List.mem_cons, not_or] at hc
      cases hm : M[col_id.toNat]? with
      | none => simp [columnBody, hm] at h
      | some m =>
        cases hp : parents_fromRow[col_id.toNat]? with
        | none => simp [columnBody, hm, hp] at h
        | some p =>
          simp only [columnBody, hm, hp] at h
          simp only [hp] at hc
          rw [ih p _ out c h hc.2]
          exact List.getElem?_set_ne (fun e => hc.1 e.symm)

theorem velocityBodyLWA_eq {α : Type} [CommRing α] (trans : Vector3 α) :
    velocityBodyLWA trans
      = parBody (columnBody (shiftLinear trans)) (columnBody (shiftLinear trans)) := by
  funext col_id ⟨xa, xb⟩
  simp only [velocityBodyLWA, parBody, columnBody, shiftLinear]
  cases xa[col_id]? <;> cases xb[col_id]? <;> rfl

theorem velocityBodyLOCAL_eq {α : Type} [CommRing α] (placement : SE3 α) :
    velocityBodyLOCAL placement
      = parBody (columnBody placement.actInv) (columnBody placement.actInv) := by
  funext col_id ⟨xa, xb⟩
  simp only [velocityBodyLOCAL, parBody, columnBody]
  cases xa[col_id]? <;> cases xb[col_id]? <;> rfl

theorem accelerationBodyLWA_eq {α : Type} [CommRing α] (trans : Vector3 α) :
    accelerationBodyLWA trans
      = parBody (columnBody (shiftLinear trans)) (parBody (columnBody (shiftLinear trans))
          (parBody (columnBody (shiftLinear trans)) (columnBody (shiftLinear trans)))) := by
  funext col_id ⟨xa, xb, xc, xd⟩
  simp only [accelerationBodyLWA, parBody, columnBody, shiftLinear]
  cases xa[col_id]? <;> cases xb[col_id]? <;> cases xc[col_id]? <;> cases xd[col_id]? <;> rfl

theorem accelerationBodyLOCAL_eq {α : Type} [CommRing α] (placement : SE3 α) :
    accelerationBodyLOCAL placement
      = parBody (columnBody placement.actInv) (parBody (columnBody placement.actInv)
          (parBody (columnBody placement.actInv) (columnBody placement.actInv))) := by
  funext col_id ⟨xa, xb, xc, xd⟩
  simp only [accelerationBodyLOCAL, parBody, columnBody]
  cases xa[col_id]? <;> cases xb[col_id]? <;> cases xc[col_id]? <;> cases xd[col_id]? <;> rfl

/-- The loop on two matrices returns exactly when the loop on each returns. -/
theorem forAncestors_two {α : Type} (f : Motion α → Motion α) (parents_fromRow : List Int)
    (fuel : Nat) (col_id : Int) (a b oa ob : Matrix6x α) :
    forAncestors parents_fromRow (parBody (columnBody f) (columnBody f)) fuel col_id (a, b)
        = .returned (oa, ob) ↔
      (forAncestors parents_fromRow (columnBody f) fuel col_id a = .returned oa ∧
        forAncestors parents_fromRow (columnBody f) fuel col_id b = .returned ob) :=
  forAncestors_parBody parents_fromRow _ _ fuel col_id a b oa ob

/-- The loop on four matrices returns exactly when the loop on each returns. -/
theorem forAncestors_four {α : Type} (f : Motion α → Motion α) (parents_fromRow : List Int)
    (fuel : Nat) (col_id : Int) (a b c d oa ob oc od : Matrix6x α) :
    forAncestors parents_fromRow
        (parBody (columnBody f) (parBody (columnBody f)
          (parBody (columnBody f) (columnBody f)))) fuel col_id (a, b, c, d)
        = .returned (oa, ob, oc, od) ↔
      (forAncestors parents_fromRow (columnBody f) fuel col_id a = .returned oa ∧
        forAncestors parents_fromRow (columnBody f) fuel col_id b = .returned ob ∧
        forAncestors parents_fromRow (columnBody f) fuel col_id c = .returned oc ∧
        forAncestors parents_fromRow (columnBody f) fuel col_id d = .returned od) := by
  rw [forAncestors_parBody, forAncestors_parBody, forAncestors_parBody]

theorem getElem?_correctColumns_mem {α : Type} (f : Motion α → Motion α) {chain : List Nat}
    (raw : Matrix6x α) {c : Nat} (h : c ∈ chain) :
    (correctColumns f chain raw)[c]? = (raw[c]?).map f := by
  rw [getElem?_correctColumns]
  cases raw[c]? <;> simp [h]

theorem getElem?_correctColumns_not_mem {α : Type} (f : Motion α → Motion α) {chain : List Nat}
    (raw : Matrix6x α) {c : Nat} (h : c ∉ chain) :
    (correctColumns f chain raw)[c]? = raw[c]? := by
  rw [getElem?_correctColumns]
  cases raw[c]? <;> simp [h]

theorem correctColumns_id {α : Type} (f : Motion α → Motion α) (hf : ∀ m, f m = m)
    (chain : List Nat) (raw : Matrix6x α) : correctColumns f chain raw = raw := by
  apply List.ext_getElem?
  intro c
  rw [getElem?_correctColumns]
  cases raw[c]? <;> simp [hf]

/-- Under the conditions of `forAncestors_columnBody` the loop on two matrices
returns both corrected matrices. -/
theorem forAncestors_two_returned {α : Type} (f : Motion α → Motion α)
    {parents_fromRow : List Int} (hd : Descending parents_fromRow)
    (fuel : Nat) (col_id : Int) (a b : Matrix6x α)
    (hf : col_id < (fuel : Int)) (hp : col_id < (parents_fromRow.length : Int))
    (ha : col_id < (a.length : Int)) (hb : col_id < (b.length : Int)) :
    forAncestors parents_fromRow (parBody (columnBody f) (columnBody f)) fuel col_id (a, b)
      = .returned (correctColumns f (ancestorChain parents_fromRow fuel col_id) a,
          correctColumns f (ancestorChain parents_fromRow fuel col_id) b) :=
  (forAncestors_two f parents_fromRow fuel col_id a b _ _).mpr
    ⟨forAncestors_columnBody f hd fuel col_id a hf ha hp,
     forAncestors_columnBody f hd fuel col_id b hf hb hp⟩

/-- Under the conditions of `forAncestors_columnBody` the loop on four
matrices returns the four corrected matrices. -/
theorem forAncestors_four_returned {α : Type} (f : Motion α → Motion α)
    {parents_fromRow : List Int} (hd : Descending parents_fromRow)
    (fuel : Nat) (col_id : Int) (a b c d : Matrix6x α)
    (hf : col_id < (fuel : Int)) (hp : col_id < (parents_fromRow.length : Int))
    (ha : col_id < (a.length : Int)) (hb : col_id < (b.length : Int))
    (hc : col_id < (c.length : Int)) (hd4 : col_id < (d.length : Int)) :
    forAncestors parents_fromRow
        (parBody (columnBody f) (parBody (columnBody f)
          (parBody (columnBody f) (columnBody f)))) fuel col_id (a, b, c, d)
      = .returned (correctColumns f (ancestorChain parents_fromRow fuel col_id) a,
          correctColumns f (ancestorChain parents_fromRow fuel col_id) b,
          correctColumns f (ancestorChain parents_fromRow fuel col_id) c,
          correctColumns f (ancestorChain parents_fromRow fuel col_id) d) :=
  (forAncestors_four f parents_fromRow fuel col_id a b c d _ _ _ _).mpr
    ⟨forAncestors_columnBody f hd fuel col_id a hf ha hp,
     forAncestors_columnBody f hd fuel col_id b hf hb hp,
     forAncestors_columnBody f hd fuel col_id c hf hc hp,
     forAncestors_columnBody f hd fuel col_id d hf hd4 hp⟩

/-- A column of the chain lies inside every matrix that contains the start
column. -/
theorem ancestorChain_getElem? {α : Type} {parents_fromRow : List Int}
    (hd : Descending parents_fromRow) (fuel : Nat) (col_id : Int) (raw : Matrix6x α)
    (hr : col_id < (raw.length : Int)) {c : Nat}
    (hc : c ∈ ancestorChain parents_fromRow fuel col_id) :
    ∃ m, raw[c]? = some m := by
  have hle := ancestorChain_le hd fuel col_id c hc
  have hlt : c < raw.length := by omega
  exact ⟨raw[c], List.getElem?_eq_getElem hlt⟩

/-- Writing back what was read leaves the matrix as it was. -/
theorem set_of_getElem? {α : Type} (M : Matrix6x α) (i : Nat) (m : Motion α)
    (h : M[i]? = some m) : M.set i m = M := by
  apply List.ext_getElem?
  intro c
  rw [List.getElem?_set]
  by_cases hic : i = c
  · subst hic
    obtain ⟨hi, _⟩ := List.getElem?_eq_some.mp h
    simp [hi, h]
  · simp [hic]

/-- A loop whose column function changes nothing returns the matrix it got. -/
theorem forAncestors_columnBody_id {α : Type} (f : Motion α → Motion α) (hf : ∀ m, f m = m)
    (parents_fromRow : List Int) :
    ∀ (fuel : Nat) (col_id : Int) (M out : Matrix6x α),
      forAncestors parents_fromRow (columnBody f) fuel col_id M = .returned out → out = M := by
  intro fuel
  induction fuel with
  | zero =>
    intro col_id M out h
    by_cases hneg : col_id < 0
    · simp [forAncestors, hneg] at h
      exact h.symm
    · simp [forAncestors, hneg] at h
  | succ fuel ih =>
    intro col_id M out h
    by_cases hneg : col_id < 0
    · simp [forAncestors, hneg] at h
      exact h.symm
    · simp only [forAncestors, hneg, if_false] at h
      cases hm : M[col_id.toNat]? with
      | none => simp [columnBody, hm] at h
      | some m =>
        cases hp : parents_fromRow[col_id.toNat]? with
        | none => simp [columnBody, hm, hp] at h
        | some p =>
          simp only [columnBody, hm, hp, hf, set_of_getElem? M _ m hm] at h
          exact ih p M out h

/-- The identity placement acts trivially. -/
theorem actInv_identity {α : Type} [CommRing α] (m : Motion α) :
    (SE3.identity : SE3 α).actInv m = m := by
  obtain ⟨⟨vx, vy, vz⟩, ⟨wx, wy, wz⟩⟩ := m
  simp [SE3.actInv, SE3.identity, Matrix3.identity, Matrix3.transpose, Matrix3.mulVec,
    Vector3.sub, Vector3.cross, Vector3.zero]

/-! ## The two transformers, case by case -/

section Unfold
variable {α : Type} [CommRing α]

/-- After the joint algorithm has returned and the two table lookups are in
range, `getFrameVelocityDerivatives` is the switch on `rf`. -/
theorem getFrameVelocityDerivatives_eq (jv : JointVelocityAlgorithm α) (fuel : Nat)
    (model : Model) (data : Data α) (joint_id : Nat) (placement : SE3 α) (rf : ReferenceFrame)
    (dq dv rq rv : Matrix6x α) (joint : JointModel) (oMi : SE3 α)
    (hj : jv model data joint_id rf (dq, dv) = .returned (rq, rv))
    (hjoint : model.joints[joint_id]? = some joint)
    (hoMi : data.oMi[joint_id]? = some oMi) :
    getFrameVelocityDerivatives jv fuel model data joint_id placement rf dq dv =
      match rf with
      | .WORLD => .returned (rq, rv)
      | .LOCAL_WORLD_ALIGNED =>
        forAncestors data.parents_fromRow
          (parBody (columnBody (shiftLinear (oMi.rotation.mulVec placement.translation)))
            (columnBody (shiftLinear (oMi.rotation.mulVec placement.translation))))
          fuel (joint.nv + joint.idx_v - 1) (rq, rv)
      | .LOCAL =>
        forAncestors data.parents_fromRow
          (parBody (columnBody placement.actInv) (columnBody placement.actInv))
          fuel (joint.nv + joint.idx_v - 1) (rq, rv)
      | .other _ => .returned (rq, rv) := by
  unfold getFrameVelocityDerivatives
  rw [hj]
  simp only [hjoint, hoMi]
  cases rf <;> simp only [velocityBodyLWA_eq, velocityBodyLOCAL_eq]

/-- After the size checks, the assertion and the joint algorithm have passed
and the joint lookup is in range, `getFrameAccelerationDerivatives` is the
switch on `rf`. -/
theorem getFrameAccelerationDerivatives_eq (ja : JointAccelerationAlgorithm α)
    (check : Model → Data α → Bool) (fuel : Nat)
    (model : Model) (data : Data α) (joint_id : Nat) (placement : SE3 α) (rf : ReferenceFrame)
    (b1 b2 b3 b4 r1 r2 r3 r4 : Matrix6x α) (joint : JointModel)
    (h1 : b1.cols = model.nv) (h2 : b2.cols = model.nv) (h3 : b3.cols = model.nv)
    (h4 : b4.cols = model.nv) (hcheck : check model data = true)
    (hj : ja model data joint_id rf (b1, b2, b3, b4) = .returned (r1, r2, r3, r4))
    (hjoint : model.joints[joint_id]? = some joint) :
    getFrameAccelerationDerivatives ja check fuel model data joint_id placement rf b1 b2 b3 b4 =
      match rf with
      | .WORLD => .returned (r1, r2, r3, r4)
      | .LOCAL_WORLD_ALIGNED =>
        match data.oMi[joint_id]? with
        | none => .outOfRange
        | some oMi =>
          forAncestors data.parents_fromRow
            (parBody (columnBody (shiftLinear (oMi.rotation.mulVec placement.translation)))
              (parBody (columnBody (shiftLinear (oMi.rotation.mulVec placement.translation)))
                (parBody (columnBody (shiftLinear (oMi.rotation.mulVec placement.translation)))
                  (columnBody (shiftLinear (oMi.rotation.mulVec placement.translation))))))
            fuel (joint.nv + joint.idx_v - 1) (r1, r2, r3, r4)
      | .LOCAL =>
        forAncestors data.parents_fromRow
          (parBody (columnBody placement.actInv) (parBody (columnBody placement.actInv)
            (parBody (columnBody placement.actInv) (columnBody placement.actInv))))
          fuel (joint.nv + joint.idx_v - 1) (r1, r2, r3, r4)
      | .other _ => .returned (r1, r2, r3, r4) := by
  unfold getFrameAccelerationDerivatives
  simp only [checkArgumentSize, h1, h2, h3, h4, hcheck, decide_True, Bool.not_true,
    Bool.false_eq_true, if_false]
  rw [hj]
  simp only [hjoint]
  cases rf <;> simp only [accelerationBodyLWA_eq, accelerationBodyLOCAL_eq]

/-- With a strictly decreasing table, a start column inside the table and
the raw matrices, and enough iterations, `getFrameVelocityDerivatives` returns
the correction pass of each raw matrix. -/
theorem getFrameVelocityDerivatives_returned (jv : JointVelocityAlgorithm α) (fuel : Nat)
    (model : Model) (data : Data α) (joint_id : Nat) (placement : SE3 α) (rf : ReferenceFrame)
    (dq dv rq rv : Matrix6x α) (joint : JointModel) (oMi : SE3 α)
    (hj : jv model data joint_id rf (dq, dv) = .returned (rq, rv))
    (hjoint : model.joints[joint_id]? = some joint)
    (hoMi : data.oMi[joint_id]? = some oMi)
    (hd : Descending data.parents_fromRow)
    (hfuel : joint.nv + joint.idx_v - 1 < (fuel : Int))
    (hparents : joint.nv + joint.idx_v - 1 < (data.parents_fromRow.length : Int))
    (hrq : joint.nv + joint.idx_v - 1 < (rq.length : Int))
    (hrv : joint.nv + joint.idx_v - 1 < (rv.length : Int)) :
    getFrameVelocityDerivatives jv fuel model data joint_id placement rf dq dv =
      .returned
        (correctionPass rf placement oMi data.parents_fromRow fuel
          (joint.nv + joint.idx_v - 1) rq,
         correctionPass rf placement oMi data.parents_fromRow fuel
          (joint.nv + joint.idx_v - 1) rv) := by
  rw [getFrameVelocityDerivatives_eq jv fuel model data joint_id placement rf dq dv rq rv
    joint oMi hj hjoint hoMi]
  cases rf with
  | WORLD => simp [correctionPass, columnCorrection, correctColumns_id]
  | other raw => simp [correctionPass, columnCorrection, correctColumns_id]
  | LOCAL_WORLD_ALIGNED =>
    simp only [correctionPass, columnCorrection]
    exact forAncestors_two_returned _ hd fuel _ rq rv hfuel hparents hrq hrv
  | LOCAL =>
    simp only [correctionPass, columnCorrection]
    exact forAncestors_two_returned _ hd fuel _ rq rv hfuel hparents hrq hrv

/-- With the checks passed, a strictly decreasing table, a start column
inside the table and the raw matrices, and enough iterations,
`getFrameAccelerationDerivatives` returns the correction pass of each raw
matrix. -/
theorem getFrameAccelerationDerivatives_returned (ja : JointAccelerationAlgorithm α)
    (check : Model → Data α → Bool) (fuel : Nat)
    (model : Model) (data : Data α) (joint_id : Nat) (placement : SE3 α) (rf : ReferenceFrame)
    (b1 b2 b3 b4 r1 r2 r3 r4 : Matrix6x α) (joint : JointModel) (oMi : SE3 α)
    (h1 : b1.cols = model.nv) (h2 : b2.cols = model.nv) (h3 : b3.cols = model.nv)
    (h4 : b4.cols = model.nv) (hcheck : check model data = true)
    (hj : ja model data joint_id rf (b1, b2, b3, b4) = .returned (r1, r2, r3, r4))
    (hjoint : model.joints[joint_id]? = some joint)
    (hoMi : data.oMi[joint_id]? = some oMi)
    (hd : Descending data.parents_fromRow)
    (hfuel : joint.nv + joint.idx_v - 1 < (fuel : Int))
    (hparents : joint.nv + joint.idx_v - 1 < (data.parents_fromRow.length : Int))
    (hr1 : joint.nv + joint.idx_v - 1 < (r1.length : Int))
    (hr2 : joint.nv + joint.idx_v - 1 < (r2.length : Int))
    (hr3 : joint.nv + joint.idx_v - 1 < (r3.length : Int))
    (hr4 : joint.nv + joint.idx_v - 1 < (r4.length : Int)) :
    getFrameAccelerationDerivatives ja check fuel model data joint_id placement rf b1 b2 b3 b4 =
      .returned
        (correctionPass rf placement oMi data.parents_fromRow fuel
          (joint.nv + joint.idx_v - 1) r1,
         correctionPass rf placement oMi data.parents_fromRow fuel
          (joint.nv + joint.idx_v - 1) r2,
         correctionPass rf placement oMi data.parents_fromRow fuel
          (joint.nv + joint.idx_v - 1) r3,
         correctionPass rf placement oMi data.parents_fromRow fuel
          (joint.nv + joint.idx_v - 1) r4) := by
  rw [getFrameAccelerationDerivatives_eq ja check fuel model data joint_id placement rf
    b1 b2 b3 b4 r1 r2 r3 r4 joint h1 h2 h3 h4 hcheck hj hjoint]
  cases rf with
  | WORLD => simp [correctionPass, columnCorrection, correctColumns_id]
  | other raw => simp [correctionPass, columnCorrection, correctColumns_id]
  | LOCAL_WORLD_ALIGNED =>
    simp only [correctionPass, columnCorrection, hoMi]
    exact forAncestors_four_returned _ hd fuel _ r1 r2 r3 r4 hfuel hparents hr1 hr2 hr3 hr4
  | LOCAL =>
    simp only [correctionPass, columnCorrection]
    exact forAncestors_four_returned _ hd fuel _ r1 r2 r3 r4 hfuel hparents hr1 hr2 hr3 hr4

/-- A returning call of `getFrameVelocityDerivatives` has found
`data.oMi[joint_id]`. -/
theorem getFrameVelocityDerivatives_oMi (jv : JointVelocityAlgorithm α) (fuel : Nat)
    (model : Model) (data : Data α) (joint_id : Nat) (placement : SE3 α) (rf : ReferenceFrame)
    (dq dv rq rv : Matrix6x α) (out : Matrix6x α × Matrix6x α)
    (hj : jv model data joint_id rf (dq, dv) = .returned (rq, rv))
    (h : getFrameVelocityDerivatives jv fuel model data joint_id placement rf dq dv
      = .returned out) :
    ∃ oMi, data.oMi[joint_id]? = some oMi := by
  cases hoMi : data.oMi[joint_id]? with
  | some oMi => exact ⟨oMi, rfl⟩
  | none =>
    unfold getFrameVelocityDerivatives at h
    rw [hj] at h
    simp [hoMi] at h

/-- A returning call of `getFrameAccelerationDerivatives` has passed the four
size checks and the assertion. -/
theorem getFrameAccelerationDerivatives_checks (ja : JointAccelerationAlgorithm α)
    (check : Model → Data α → Bool) (fuel : Nat)
    (model : Model) (data : Data α) (joint_id : Nat) (placement : SE3 α) (rf : ReferenceFrame)
    (b1 b2 b3 b4 : Matrix6x α) (out : Matrix6x α × Matrix6x α × Matrix6x α × Matrix6x α)
    (h : getFrameAccelerationDerivatives ja check fuel model data joint_id placement rf
      b1 b2 b3 b4 = .returned out) :
    b1.cols = model.nv ∧ b2.cols = model.nv ∧ b3.cols = model.nv ∧ b4.cols = model.nv ∧
      check model data = true := by
  unfold getFrameAccelerationDerivatives at h
  by_cases h1 : b1.cols = model.nv
  · by_cases h2 : b2.cols = model.nv
    · by_cases h3 : b3.cols = model.nv
      · by_cases h4 : b4.cols = model.nv
        · by_cases hc : check model data = true
          · exact ⟨h1, h2, h3, h4, hc⟩
          · simp [checkArgumentSize, h1, h2, h3, h4, hc] at h
        · simp [checkArgumentSize, h1, h2, h3, h4] at h
      · simp [checkArgumentSize, h1, h2, h3] at h
    · simp [checkArgumentSize, h1, h2] at h
  · simp [checkArgumentSize, h1] at h

/-- Whenever `getFrameVelocityDerivatives` returns, the columns outside the
visited chain are those of the raw matrices. -/
theorem getFrameVelocityDerivatives_off (jv : JointVelocityAlgorithm α) (fuel : Nat)
    (model : Model) (data : Data α) (joint_id : Nat) (placement : SE3 α) (rf : ReferenceFrame)
    (dq dv rq rv oq ov : Matrix6x α) (joint : JointModel)
    (hj : jv model data joint_id rf (dq, dv) = .returned (rq, rv))
    (hjoint : model.joints[joint_id]? = some joint)
    (h : getFrameVelocityDerivatives jv fuel model data joint_id placement rf dq dv
      = .returned (oq, ov))
    (c : Nat) (hc : c ∉ ancestorChain data.parents_fromRow fuel (joint.nv + joint.idx_v - 1)) :
    oq[c]? = rq[c]? ∧ ov[c]? = rv[c]? := by
  obtain ⟨oMi, hoMi⟩ := getFrameVelocityDerivatives_oMi jv fuel model data joint_id placement
    rf dq dv rq rv _ hj h
  rw [getFrameVelocityDerivatives_eq jv fuel model data joint_id placement rf dq dv rq rv
    joint oMi hj hjoint hoMi] at h
  cases rf with
  | WORLD => simp only [Outcome.returned.injEq, Prod.mk.injEq] at h; simp [h.1, h.2]
  | other raw => simp only [Outcome.returned.injEq, Prod.mk.injEq] at h; simp [h.1, h.2]
  | LOCAL_WORLD_ALIGNED =>
    obtain ⟨ha, hb⟩ := (forAncestors_two _ _ _ _ _ _ _ _).mp h
    exact ⟨forAncestors_columnBody_off _ _ _ _ _ _ c ha hc,
      forAncestors_columnBody_off _ _ _ _ _ _ c hb hc⟩
  | LOCAL =>
    obtain ⟨ha, hb⟩ := (forAncestors_two _ _ _ _ _ _ _ _).mp h
    exact ⟨forAncestors_columnBody_off _ _ _ _ _ _ c ha hc,
      forAncestors_columnBody_off _ _ _ _ _ _ c hb hc⟩

/-- Whenever `getFrameAccelerationDerivatives` returns, the columns outside
the visited chain are those of the raw matrices. -/
theorem getFrameAccelerationDerivatives_off (ja : JointAccelerationAlgorithm α)
    (check : Model → Data α → Bool) (fuel : Nat)
    (model : Model) (data : Data α) (joint_id : Nat) (placement : SE3 α) (rf : ReferenceFrame)
    (b1 b2 b3 b4 r1 r2 r3 r4 o1 o2 o3 o4 : Matrix6x α) (joint : JointModel)
    (hj : ja model data joint_id rf (b1, b2, b3, b4) = .returned (r1, r2, r3, r4))
    (hjoint : model.joints[joint_id]? = some joint)
    (h : getFrameAccelerationDerivatives ja check fuel model data joint_id placement rf
      b1 b2 b3 b4 = .returned (o1, o2, o3, o4))
    (c : Nat) (hc : c ∉ ancestorChain data.parents_fromRow fuel (joint.nv + joint.idx_v - 1)) :
    o1[c]? = r1[c]? ∧ o2[c]? = r2[c]? ∧ o3[c]? = r3[c]? ∧ o4[c]? = r4[c]? := by
  obtain ⟨h1, h2, h3, h4, hcheck⟩ := getFrameAccelerationDerivatives_checks ja check fuel
    model data joint_id placement rf b1 b2 b3 b4 _ h
  rw [getFrameAccelerationDerivatives_eq ja check fuel model data joint_id placement rf
    b1 b2 b3 b4 r1 r2 r3 r4 joint h1 h2 h3 h4 hcheck hj hjoint] at h
  cases rf with
  | WORLD =>
    simp only [Outcome.returned.injEq, Prod.mk.injEq] at h
    simp [h.1, h.2.1, h.2.2.1, h.2.2.2]
  | other raw =>
    simp only [Outcome.returned.injEq, Prod.mk.injEq] at h
    simp [h.1, h.2.1, h.2.2.1, h.2.2.2]
  | LOCAL_WORLD_ALIGNED =>
    cases hoMi : data.oMi[joint_id]? with
    | none => simp [hoMi] at h
    | some oMi =>
      simp only [hoMi] at h
      obtain ⟨ha, hb, hc3, hd4⟩ := (forAncestors_four _ _ _ _ _ _ _ _ _ _ _ _).mp h
      exact ⟨forAncestors_columnBody_off _ _ _ _ _ _ c ha hc,
        forAncestors_columnBody_off _ _ _ _ _ _ c hb hc,
        forAncestors_columnBody_off _ _ _ _ _ _ c hc3 hc,
        forAncestors_columnBody_off _ _ _ _ _ _ c hd4 hc⟩
  | LOCAL =>
    obtain ⟨ha, hb, hc3, hd4⟩ := (forAncestors_four _ _ _ _ _ _ _ _ _ _ _ _).mp h
    exact ⟨forAncestors_columnBody_off _ _ _ _ _ _ c ha hc,
      forAncestors_columnBody_off _ _ _ _ _ _ c hb hc,
      forAncestors_columnBody_off _ _ _ _ _ _ c hc3 hc,
      forAncestors_columnBody_off _ _ _ _ _ _ c hd4 hc⟩

/-- On a column of the chain the `LOCAL_WORLD_ALIGNED` pass is the shift. -/
theorem shiftedColumn_correctionPass {parents_fromRow : List Int}
    (hd : Descending parents_fromRow) (placement oMi : SE3 α) (fuel : Nat) (colRef : Int)
    (raw : Matrix6x α) (hr : colRef < (raw.length : Int)) {c : Nat}
    (hc : c ∈ ancestorChain parents_fromRow fuel colRef) :
    ShiftedColumn (oMi.rotation.mulVec placement.translation) raw
      (correctionPass .LOCAL_WORLD_ALIGNED placement oMi parents_fromRow fuel colRef raw) c := by
  obtain ⟨m, hm⟩ := ancestorChain_getElem? hd fuel colRef raw hr hc
  refine ⟨m, shiftLinear (oMi.rotation.mulVec placement.translation) m, hm, ?_, rfl, rfl⟩
  simp only [correctionPass, columnCorrection]
  rw [getElem?_correctColumns_mem _ raw hc, hm]
  rfl

/-- On a column of the chain the `LOCAL` pass is `placement.actInv`. -/
theorem actInvColumn_correctionPass {parents_fromRow : List Int}
    (hd : Descending parents_fromRow) (placement oMi : SE3 α) (fuel : Nat) (colRef : Int)
    (raw : Matrix6x α) (hr : colRef < (raw.length : Int)) {c : Nat}
    (hc : c ∈ ancestorChain parents_fromRow fuel colRef) :
    ActInvColumn placement raw
      (correctionPass .LOCAL placement oMi parents_fromRow fuel colRef raw) c := by
  obtain ⟨m, hm⟩ := ancestorChain_getElem? hd fuel colRef raw hr hc
  refine ⟨m, placement.actInv m, hm, ?_, rfl, rfl, rfl⟩
  simp only [correctionPass, columnCorrection]
  rw [getElem?_correctColumns_mem _ raw hc, hm]
  rfl

end Unfold

/-! ## Lemmas on the walk: termination, visited columns, index range -/

/-- With a strictly decreasing table the loop needs no more than
`col_id + 1` iterations, whatever its body does. -/
theorem forAncestors_ne_outOfFuel {σ : Type} {parents_fromRow : List Int}
    (hd : Descending parents_fromRow) (body : Nat → σ → Option σ) :
    ∀ (fuel : Nat) (col_id : Int) (s : σ), col_id < (fuel : Int) →
      forAncestors parents_fromRow body fuel col_id s ≠ .outOfFuel := by
  intro fuel
  induction fuel with
  | zero =>
    intro col_id s hf
    have hneg : col_id < 0 := by simpa using hf
    simp [forAncestors, hneg]
  | succ fuel ih =>
    intro col_id s hf
    by_cases hneg : col_id < 0
    · simp [forAncestors, hneg]
    · simp only [forAncestors, hneg, if_false]
      cases hb : body col_id.toNat s with
      | none => simp
      | some s1 =>
        cases hp : parents_fromRow[col_id.toNat]? with
        | none => simp
        | some p =>
          have hlt := hd.lt hp
          exact ih p s1 (by omega)

/-- With a strictly decreasing table the chain from `col_id` has at most
`col_id + 1` columns. -/
theorem ancestorChain_length_le {parents_fromRow : List Int}
    (hd : Descending parents_fromRow) :
    ∀ (fuel : Nat) (col_id : Int),
      (ancestorChain parents_fromRow fuel col_id).length ≤ (col_id + 1).toNat := by
  intro fuel
  induction fuel with
  | zero => intro col_id; simp [ancestorChain]
  | succ fuel ih =>
    intro col_id
    by_cases hneg : col_id < 0
    · simp [ancestorChain, hneg]
    · simp only [ancestorChain, hneg, if_false, List.length_cons]
      cases hp : parents_fromRow[col_id.toNat]? with
      | none => simp only [List.length_nil]; omega
      | some p =>
        have hlt := hd.lt hp
        have := ih p
        simp only
        omega

/-- The log written by the ghost body is the chain, and the chain is the
sequence that follows the table down to the first negative value. -/
theorem forAncestors_recordVisit (parents_fromRow : List Int) :
    ∀ (fuel : Nat) (col_id : Int) (log out : List Nat),
      forAncestors parents_fromRow recordVisit fuel col_id log = .returned out →
      out = log ++ ancestorChain parents_fromRow fuel col_id ∧
        IsAncestorSequence parents_fromRow col_id
          (ancestorChain parents_fromRow fuel col_id) := by
  intro fuel
  induction fuel with
  | zero =>
    intro col_id log out h
    by_cases hneg : col_id < 0
    · simp [forAncestors, hneg] at h
      simp only [ancestorChain, List.append_nil]
      exact ⟨h.symm, .stop col_id hneg⟩
    · simp [forAncestors, hneg] at h
  | succ fuel ih =>
    intro col_id log out h
    by_cases hneg : col_id < 0
    · simp [forAncestors, hneg] at h
      simp only [ancestorChain, hneg, if_true, List.append_nil]
      exact ⟨h.symm, .stop col_id hneg⟩
    · simp only [forAncestors, hneg, if_false, recordVisit] at h
      cases hp : parents_fromRow[col_id.toNat]? with
      | none => simp [hp] at h
      | some p =>
        simp only [hp] at h
        obtain ⟨h1, h2⟩ := ih p _ out h
        simp only [ancestorChain, hneg, if_false, hp]
        refine ⟨?_, .step col_id p _ (by omega) hp h2⟩
        rw [h1]
        simp

/-- With a strictly decreasing table, a start column inside the table and
enough iterations, the ghost body logs the whole chain. -/
theorem forAncestors_recordVisit_returned {parents_fromRow : List Int}
    (hd : Descending parents_fromRow) :
    ∀ (fuel : Nat) (col_id : Int) (log : List Nat),
      col_id < (fuel : Int) → col_id < (parents_fromRow.length : Int) →
      forAncestors parents_fromRow recordVisit fuel col_id log
        = .returned (log ++ ancestorChain parents_fromRow fuel col_id) := by
  intro fuel
  induction fuel with
  | zero =>
    intro col_id log hf _
    have hneg : col_id < 0 := by simpa using hf
    simp [forAncestors, hneg, ancestorChain]
  | succ fuel ih =>
    intro col_id log hf hP
    by_cases hneg : col_id < 0
    · simp [forAncestors, hneg, ancestorChain]
    · have hiP : col_id.toNat < parents_fromRow.length := by omega
      have hp : parents_fromRow[col_id.toNat]? = some parents_fromRow[col_id.toNat] :=
        List.getElem?_eq_getElem hiP
      have hlt := hd.lt hp
      simp only [forAncestors, hneg, if_false, recordVisit, hp, ancestorChain]
      rw [ih _ _ (by omega) (by omega)]
      simp

/-- With a strictly decreasing table the chain is strictly decreasing. -/
theorem ancestorChain_pairwise {parents_fromRow : List Int}
    (hd : Descending parents_fromRow) :
    ∀ (fuel : Nat) (col_id : Int),
      List.Pairwise (fun a b => b < a) (ancestorChain parents_fromRow fuel col_id) := by
  intro fuel
  induction fuel with
  | zero => intro col_id; simp [ancestorChain]
  | succ fuel ih =>
    intro col_id
    by_cases hneg : col_id < 0
    · simp [ancestorChain, hneg]
    · simp only [ancestorChain, hneg, if_false]
      cases hp : parents_fromRow[col_id.toNat]? with
      | none => simp
      | some p =>
        simp only [List.pairwise_cons]
        refine ⟨?_, ih p⟩
        intro c hc
        have h1 := ancestorChain_le hd fuel p c hc
        have h2 := hd.lt hp
        omega

/-- A strictly decreasing list of numbers has no repetition. -/
theorem nodup_of_pairwise_gt {l : List Nat} (h : List.Pairwise (fun a b => b < a) l) :
    l.Nodup := by
  unfold List.Nodup
  exact h.imp (fun hab => by omega)

/-- More iterations do not change an outcome that was reached. -/
theorem forAncestors_mono {σ : Type} (parents_fromRow : List Int) (body : Nat → σ → Option σ) :
    ∀ (fuel more : Nat) (col_id : Int) (s : σ),
      forAncestors parents_fromRow body fuel col_id s ≠ .outOfFuel →
      forAncestors parents_fromRow body (fuel + more) col_id s
        = forAncestors parents_fromRow body fuel col_id s := by
  intro fuel
  induction fuel with
  | zero =>
    intro more col_id s h
    by_cases hneg : col_id < 0
    · rw [forAncestors_neg _ _ _ _ _ hneg, forAncestors_neg _ _ _ _ _ hneg]
    · simp [forAncestors, hneg] at h
  | succ fuel ih =>
    intro more col_id s h
    by_cases hneg : col_id < 0
    · rw [forAncestors_neg _ _ _ _ _ hneg, forAncestors_neg _ _ _ _ _ hneg]
    · have e : fuel + 1 + more = (fuel + more) + 1 := by omega
      rw [e]
      simp only [forAncestors, hneg, if_false] at h ⊢
      cases hb : body col_id.toNat s with
      | none => rfl
      | some s1 =>
        cases hp : parents_fromRow[col_id.toNat]? with
        | none => rfl
        | some p =>
          simp only [hb, hp] at h
          exact ih more p s1 h

/-- The loop on one matrix never leaves the matrix or the table when the
table is strictly decreasing and the start column lies inside both. -/
theorem forAncestors_columnBody_inRange {α : Type} (f : Motion α → Motion α)
    {parents_fromRow : List Int} (hd : Descending parents_fromRow)
    (fuel : Nat) (col_id : Int) (M : Matrix6x α)
    (hM : col_id < (M.length : Int)) (hP : col_id < (parents_fromRow.length : Int)) :
    forAncestors parents_fromRow (columnBody f) fuel col_id M ≠ .outOfRange := by
  intro h
  have hne : forAncestors parents_fromRow (columnBody f) fuel col_id M ≠ .outOfFuel := by
    rw [h]; simp
  have hmono := forAncestors_mono parents_fromRow (columnBody f) fuel (col_id + 1).toNat
    col_id M hne
  rw [forAncestors_columnBody f hd _ col_id M (by omega) hM hP, h] at hmono
  simp at hmono

/-- The loop on a pair of buffers leaves a container exactly when one of the
two loops does, as long as neither runs out of iterations. -/
theorem forAncestors_parBody_inRange {σ τ : Type} (parents_fromRow : List Int)
    (b1 : Nat → σ → Option σ) (b2 : Nat → τ → Option τ) :
    ∀ (fuel : Nat) (col_id : Int) (s : σ) (t : τ),
      forAncestors parents_fromRow b1 fuel col_id s ≠ .outOfRange →
      forAncestors parents_fromRow b2 fuel col_id t ≠ .outOfRange →
      forAncestors parents_fromRow (parBody b1 b2) fuel col_id (s, t) ≠ .outOfRange := by
  intro fuel
  induction fuel with
  | zero =>
    intro col_id s t _ _
    by_cases hneg : col_id < 0 <;> simp [forAncestors, hneg]
  | succ fuel ih =>
    intro col_id s t h1 h2
    by_cases hneg : col_id < 0
    · simp [forAncestors, hneg]
    · simp only [forAncestors, hneg, if_false] at h1 h2 ⊢
      cases hb1 : b1 col_id.toNat s with
      | none => simp [hb1] at h1
      | some s2 =>
        cases hb2 : b2 col_id.toNat t with
        | none => simp [hb2] at h2
        | some t2 =>
          cases hp : parents_fromRow[col_id.toNat]? with
          | none => simp [hb1, hp] at h1
          | some p =>
            simp only [hb1, hp] at h1
            simp only [hb2, hp] at h2
            simp only [parBody, hb1, hb2]
            exact ih p s2 t2 h1 h2

/-- Every column of the chain lies below the length of the table when the
start column does. -/
theorem ancestorChain_lt {parents_fromRow : List Int} (hd : Descending parents_fromRow)
    (fuel : Nat) (col_id : Int) (n : Nat) (hcol : col_id < (n : Int)) {c : Nat}
    (hc : c ∈ ancestorChain parents_fromRow fuel col_id) : c < n := by
  have := ancestorChain_le hd fuel col_id c hc
  omega

/-! ## Lemmas on the algebra of the column corrections -/

section Algebra
variable {α : Type} [CommRing α]

theorem mulVec_identity (p : Vector3 α) : (Matrix3.identity : Matrix3 α).mulVec p = p := by
  obtain ⟨px, py, pz⟩ := p
  simp [Matrix3.identity, Matrix3.mulVec]

theorem mulVec_mulVec (A B : Matrix3 α) (p : Vector3 α) :
    A.mulVec (B.mulVec p) = (A.mul B).mulVec p := by
  simp only [Matrix3.mulVec, Matrix3.mul, Vector3.mk.injEq]
  refine ⟨by ring, by ring, by ring⟩

theorem transpose_mul (A B : Matrix3 α) :
    (A.mul B).transpose = B.transpose.mul A.transpose := by
  simp only [Matrix3.transpose, Matrix3.mul, Matrix3.mk.injEq, Vector3.mk.injEq]
  refine ⟨⟨by ring, by ring, by ring⟩, ⟨by ring, by ring, by ring⟩, ⟨by ring, by ring, by ring⟩⟩

/-- For every matrix, `Rᵀ ((R a) × (R b)) = det R • (a × b)`. -/
theorem transpose_mulVec_cross (R : Matrix3 α) (a b : Vector3 α) :
    R.transpose.mulVec ((R.mulVec a).cross (R.mulVec b)) = Vector3.smul R.det (a.cross b) := by
  simp only [Matrix3.transpose, Matrix3.mulVec, Vector3.cross, Vector3.smul, Matrix3.det,
    Vector3.mk.injEq]
  refine ⟨by ring, by ring, by ring⟩

theorem one_smul_vector (a : Vector3 α) : Vector3.smul 1 a = a := by
  obtain ⟨x, y, z⟩ := a
  simp [Vector3.smul]

/-- For a rotation, `Rᵀ ((R a) × w) = a × (Rᵀ w)`. -/
theorem rotation_transpose_cross {R : Matrix3 α} (h : IsRotation R) (a w : Vector3 α) :
    R.transpose.mulVec ((R.mulVec a).cross w) = a.cross (R.transpose.mulVec w) := by
  have hw : R.mulVec (R.transpose.mulVec w) = w := by
    rw [mulVec_mulVec, h.1, mulVec_identity]
  have key := transpose_mulVec_cross R a (R.transpose.mulVec w)
  rw [hw, h.2, one_smul_vector] at key
  exact key

/-- The shift by `t` is `actInv` of the placement `(1, t)`. -/
theorem shiftLinear_eq_actInv (t : Vector3 α) (m : Motion α) :
    shiftLinear t m = (⟨Matrix3.identity, t⟩ : SE3 α).actInv m := by
  obtain ⟨⟨vx, vy, vz⟩, ⟨wx, wy, wz⟩⟩ := m
  simp [shiftLinear, SE3.actInv, Matrix3.identity, Matrix3.transpose, Matrix3.mulVec,
    Vector3.sub, Vector3.cross]

/-- The shift by `R * 0` changes nothing. -/
theorem shiftLinear_mulVec_zero (R : Matrix3 α) (m : Motion α) :
    shiftLinear (R.mulVec Vector3.zero) m = m := by
  obtain ⟨⟨vx, vy, vz⟩, ⟨wx, wy, wz⟩⟩ := m
  simp [shiftLinear, Matrix3.mulVec, Vector3.sub, Vector3.cross, Vector3.zero]

/-- Acting with `M1` and then with `M2` is acting with `M1 * M2`, when the
rotation of `M1` is a rotation. -/
theorem actInv_actInv (M1 M2 : SE3 α) (h : IsRotation M1.rotation) (m : Motion α) :
    M2.actInv (M1.actInv m) = (M1.mul M2).actInv m := by
  simp only [SE3.actInv, SE3.mul, transpose_mul, Motion.mk.injEq]
  constructor
  · rw [← rotation_transpose_cross h M2.translation m.angular, ← mulVec_mulVec]
    congr 1
    simp only [Matrix3.transpose, Matrix3.mulVec, Vector3.cross, Vector3.sub, Vector3.add,
      Vector3.mk.injEq]
    refine ⟨by ring, by ring, by ring⟩
  · rw [mulVec_mulVec]

/-- A placement with a rotation, times its inverse, is the identity. -/
theorem mul_inverse (M : SE3 α) (h : IsRotation M.rotation) :
    M.mul M.inverse = SE3.identity := by
  have hp : M.rotation.mulVec (M.rotation.transpose.mulVec M.translation) = M.translation := by
    rw [mulVec_mulVec, h.1, mulVec_identity]
  have hneg : M.rotation.mulVec (M.rotation.transpose.mulVec M.translation).neg
      = (M.rotation.mulVec (M.rotation.transpose.mulVec M.translation)).neg := by
    simp only [Matrix3.mulVec, Vector3.neg, Vector3.mk.injEq]
    refine ⟨by ring, by ring, by ring⟩
  simp only [SE3.mul, SE3.inverse, SE3.identity, h.1, hneg, hp, SE3.mk.injEq, true_and]
  simp [Vector3.add, Vector3.neg, Vector3.zero]

/-- The shift is linear. -/
theorem shiftLinear_combine (t : Vector3 α) (a b : α) (x y : Motion α) :
    shiftLinear t ((Motion.smul a x).add (Motion.smul b y))
      = (Motion.smul a (shiftLinear t x)).add (Motion.smul b (shiftLinear t y)) := by
  simp only [shiftLinear, Motion.add, Motion.smul, Vector3.add, Vector3.smul, Vector3.sub,
    Vector3.cross, Motion.mk.injEq, Vector3.mk.injEq]
  exact ⟨⟨by ring, by ring, by ring⟩, trivial⟩

/-- The action `actInv` is linear. -/
theorem actInv_combine (M : SE3 α) (a b : α) (x y : Motion α) :
    M.actInv ((Motion.smul a x).add (Motion.smul b y))
      = (Motion.smul a (M.actInv x)).add (Motion.smul b (M.actInv y)) := by
  simp only [SE3.actInv, Motion.add, Motion.smul, Vector3.add, Vector3.smul, Vector3.sub,
    Vector3.cross, Matrix3.mulVec, Matrix3.transpose, Motion.mk.injEq, Vector3.mk.injEq]
  refine ⟨⟨by ring, by ring, by ring⟩, ⟨by ring, by ring, by ring⟩⟩

/-- Every column correction of the switch is linear. -/
theorem columnCorrection_combine (rf : ReferenceFrame) (placement oMi : SE3 α) (a b : α)
    (x y : Motion α) :
    columnCorrection rf placement oMi ((Motion.smul a x).add (Motion.smul b y))
      = (Motion.smul a (columnCorrection rf placement oMi x)).add
          (Motion.smul b (columnCorrection rf placement oMi y)) := by
  cases rf with
  | WORLD => rfl
  | other raw => rfl
  | LOCAL_WORLD_ALIGNED => exact shiftLinear_combine _ a b x y
  | LOCAL => exact actInv_combine _ a b x y

/-- Every column correction of the switch keeps the zero column. -/
theorem columnCorrection_zero (rf : ReferenceFrame) (placement oMi : SE3 α) :
    columnCorrection rf placement oMi Motion.zero = Motion.zero := by
  cases rf with
  | WORLD => rfl
  | other raw => rfl
  | LOCAL_WORLD_ALIGNED =>
    simp [columnCorrection, shiftLinear, Motion.zero, Vector3.zero, Vector3.sub, Vector3.cross]
  | LOCAL =>
    simp [columnCorrection, SE3.actInv, Motion.zero, Vector3.zero, Vector3.sub, Vector3.cross,
      Matrix3.mulVec]

/-- Correcting the columns of a chain commutes with linear combinations when
the column function is linear. -/
theorem correctColumns_combine (f : Motion α → Motion α) (a b : α)
    (hf : ∀ x y, f ((Motion.smul a x).add (Motion.smul b y))
      = (Motion.smul a (f x)).add (Motion.smul b (f y)))
    (chain : List Nat) (X Y : Matrix6x α) :
    correctColumns f chain (Matrix6x.combine a X b Y)
      = Matrix6x.combine a (correctColumns f chain X) b (correctColumns f chain Y) := by
  apply List.ext_getElem?
  intro c
  simp only [Matrix6x.combine, getElem?_correctColumns, List.getElem?_zipWith]
  cases X[c]? <;> cases Y[c]? <;> simp
  by_cases hc : c ∈ chain <;> simp [hc, hf]

/-- Correcting a chain twice is correcting it once with the composed column
function. -/
theorem correctColumns_correctColumns {β : Type} (f g h : Motion β → Motion β)
    (hfg : ∀ m, g (f m) = h m) (chain : List Nat) (X : Matrix6x β) :
    correctColumns g chain (correctColumns f chain X) = correctColumns h chain X := by
  apply List.ext_getElem?
  intro c
  simp only [getElem?_correctColumns]
  cases X[c]? <;> simp
  by_cases hc : c ∈ chain <;> simp [hc, hfg]

/-- The combination of two matrices is as long as the shorter one. -/
theorem length_combine (a b : α) (X Y : Matrix6x α) :
    (Matrix6x.combine a X b Y).length = min X.length Y.length := by
  simp [Matrix6x.combine]

/-- The determinant matters: with the reflection `diag(1,1,-1)`, which is
orthonormal with determinant `-1`, acting twice is not acting with the
composed placement. -/
theorem actInv_actInv_reflection :
    (⟨⟨1, 0, 0⟩, ⟨0, 1, 0⟩, ⟨0, 0, -1⟩⟩ : Matrix3 Int).mul
        (⟨⟨1, 0, 0⟩, ⟨0, 1, 0⟩, ⟨0, 0, -1⟩⟩ : Matrix3 Int).transpose = Matrix3.identity ∧
    (⟨Matrix3.identity, ⟨1, 0, 0⟩⟩ : SE3 Int).actInv
        ((⟨⟨⟨1, 0, 0⟩, ⟨0, 1, 0⟩, ⟨0, 0, -1⟩⟩, Vector3.zero⟩ : SE3 Int).actInv
          ⟨Vector3.zero, ⟨0, 1, 0⟩⟩)
      ≠ ((⟨⟨⟨1, 0, 0⟩, ⟨0, 1, 0⟩, ⟨0, 0, -1⟩⟩, Vector3.zero⟩ : SE3 Int).mul
          ⟨Matrix3.identity, ⟨1, 0, 0⟩⟩).actInv ⟨Vector3.zero, ⟨0, 1, 0⟩⟩ := by
  decide

/-- Acting with a placement and then with its inverse gives the column back,
when the rotation is a rotation. -/
theorem actInv_inverse (M : SE3 α) (h : IsRotation M.rotation) (m : Motion α) :
    M.inverse.actInv (M.actInv m) = m := by
  rw [actInv_actInv M M.inverse h m, mul_inverse M h, actInv_identity]

end Algebra

section Linearity
variable {α : Type} [CommRing α]

/-- The correction pass of one matrix commutes with linear combinations. -/
theorem correctionPass_combine (rf : ReferenceFrame) (placement oMi : SE3 α)
    (parents_fromRow : List Int) (fuel : Nat) (colRef : Int) (a b : α) (X Y : Matrix6x α) :
    correctionPass rf placement oMi parents_fromRow fuel colRef (Matrix6x.combine a X b Y)
      = Matrix6x.combine a (correctionPass rf placement oMi parents_fromRow fuel colRef X)
          b (correctionPass rf placement oMi parents_fromRow fuel colRef Y) :=
  correctColumns_combine _ a b (columnCorrection_combine rf placement oMi a b) _ X Y

/-- The correction pass of one matrix keeps a zero column zero. -/
theorem correctionPass_zero (rf : ReferenceFrame) (placement oMi : SE3 α)
    (parents_fromRow : List Int) (fuel : Nat) (colRef : Int) (raw : Matrix6x α) (c : Nat)
    (h : raw[c]? = some Motion.zero) :
    (correctionPass rf placement oMi parents_fromRow fuel colRef raw)[c]?
      = some Motion.zero := by
  simp only [correctionPass, getElem?_correctColumns, h, Option.map_some']
  by_cases hc : c ∈ ancestorChain parents_fromRow fuel colRef
  · simp [hc, columnCorrection_zero]
  · simp [hc]

/-- A column index below both lengths is below the length of the
combination. -/
theorem lt_length_combine (a b : α) (X Y : Matrix6x α) (colRef : Int)
    (hX : colRef < (X.length : Int)) (hY : colRef < (Y.length : Int)) :
    colRef < ((Matrix6x.combine a X b Y).length : Int) := by
  rw [length_combine]
  omega

end Linearity

section Properties
variable {α : Type} [CommRing α]

/-- C1: with `rf = WORLD` the correction pass is the identity. Once the joint
algorithm has filled the buffers, `getFrameVelocityDerivatives` returns its two
matrices and `getFrameAccelerationDerivatives` returns its four matrices
exactly as the joint algorithm left them. -/
theorem world_leaves_raw_matrices
    (jv : JointVelocityAlgorithm α) (ja : JointAccelerationAlgorithm α)
    (check : Model → Data α → Bool) (fuel : Nat)
    (model : Model) (data : Data α) (joint_id : Nat) (placement : SE3 α)
    (joint : JointModel) (hjoint : model.joints[joint_id]? = some joint) :
    (∀ (oMi : SE3 α) (dq dv rq rv : Matrix6x α),
      data.oMi[joint_id]? = some oMi →
      jv model data joint_id .WORLD (dq, dv) = .returned (rq, rv) →
      getFrameVelocityDerivatives jv fuel model data joint_id placement .WORLD dq dv
        = .returned (rq, rv)) ∧
    (∀ (b1 b2 b3 b4 r1 r2 r3 r4 : Matrix6x α),
      b1.cols = model.nv → b2.cols = model.nv → b3.cols = model.nv → b4.cols = model.nv →
      check model data = true →
      ja model data joint_id .WORLD (b1, b2, b3, b4) = .returned (r1, r2, r3, r4) →
      getFrameAccelerationDerivatives ja check fuel model data joint_id placement .WORLD
        b1 b2 b3 b4 = .returned (r1, r2, r3, r4)) := by
  constructor
  · intro oMi dq dv rq rv hoMi hj
    rw [getFrameVelocityDerivatives_eq jv fuel model data joint_id placement _ dq dv rq rv
      joint oMi hj hjoint hoMi]
  · intro b1 b2 b3 b4 r1 r2 r3 r4 h1 h2 h3 h4 hcheck hj
    rw [getFrameAccelerationDerivatives_eq ja check fuel model data joint_id placement _
      b1 b2 b3 b4 r1 r2 r3 r4 joint h1 h2 h3 h4 hcheck hj hjoint]

/-- Witness for C1 on the sample chain, target joint `B`. -/
theorem world_leaves_raw_matrices_witness :
    getFrameVelocityDerivatives (fillVelocity (sampleRaw 1) (sampleRaw 4)) 0
        sampleModel sampleData 2 samplePlacement .WORLD (sampleRaw 0) (sampleRaw 0)
      = .returned (sampleRaw 1, sampleRaw 4) ∧
    getFrameAccelerationDerivatives
        (fillAcceleration (sampleRaw 1) (sampleRaw 4) (sampleRaw 7) (sampleRaw 10)) noCheck 0
        sampleModel sampleData 2 samplePlacement .WORLD
        (sampleRaw 0) (sampleRaw 0) (sampleRaw 0) (sampleRaw 0)
      = .returned (sampleRaw 1, sampleRaw 4, sampleRaw 7, sampleRaw 10) :=
  ⟨(world_leaves_raw_matrices (fillVelocity (sampleRaw 1) (sampleRaw 4))
      (fillAcceleration (sampleRaw 1) (sampleRaw 4) (sampleRaw 7) (sampleRaw 10)) noCheck 0
      sampleModel sampleData 2 samplePlacement ⟨1, 1⟩ rfl).1
      ⟨quarterTurnX, ⟨1, 0, 0⟩⟩ (sampleRaw 0) (sampleRaw 0) _ _ rfl rfl,
   (world_leaves_raw_matrices (fillVelocity (sampleRaw 1) (sampleRaw 4))
      (fillAcceleration (sampleRaw 1) (sampleRaw 4) (sampleRaw 7) (sampleRaw 10)) noCheck 0
      sampleModel sampleData 2 samplePlacement ⟨1, 1⟩ rfl).2
      (sampleRaw 0) (sampleRaw 0) (sampleRaw 0) (sampleRaw 0) _ _ _ _
      rfl rfl rfl rfl rfl rfl⟩

/-- C2: in the `LOCAL_WORLD_ALIGNED` convention, with a strictly decreasing
`parents_fromRow`, both transformers return, and every column `c` on the
ancestor chain of `colRef` has, in each output matrix, the raw linear part
minus `trans × raw angular part` and the raw angular part, where
`trans = rotation(data.oMi[joint_id]) * placement.translation()` is one vector
for all columns and all matrices. -/
theorem local_world_aligned_shifts_chain_columns
    (jv : JointVelocityAlgorithm α) (ja : JointAccelerationAlgorithm α)
    (check : Model → Data α → Bool) (fuel : Nat)
    (model : Model) (data : Data α) (joint_id : Nat) (placement : SE3 α)
    (joint : JointModel) (oMi : SE3 α)
    (hjoint : model.joints[joint_id]? = some joint)
    (hoMi : data.oMi[joint_id]? = some oMi)
    (hd : Descending data.parents_fromRow)
    (hfuel : joint.nv + joint.idx_v - 1 < (fuel : Int))
    (hparents : joint.nv + joint.idx_v - 1 < (data.parents_fromRow.length : Int)) :
    (∀ (dq dv rq rv : Matrix6x α),
      jv model data joint_id .LOCAL_WORLD_ALIGNED (dq, dv) = .returned (rq, rv) →
      joint.nv + joint.idx_v - 1 < (rq.length : Int) →
      joint.nv + joint.idx_v - 1 < (rv.length : Int) →
      ∃ oq ov,
        getFrameVelocityDerivatives jv fuel model data joint_id placement
          .LOCAL_WORLD_ALIGNED dq dv = .returned (oq, ov) ∧
        ∀ c ∈ ancestorChain data.parents_fromRow fuel (joint.nv + joint.idx_v - 1),
          ShiftedColumn (oMi.rotation.mulVec placement.translation) rq oq c ∧
          ShiftedColumn (oMi.rotation.mulVec placement.translation) rv ov c) ∧
    (∀ (b1 b2 b3 b4 r1 r2 r3 r4 : Matrix6x α),
      b1.cols = model.nv → b2.cols = model.nv → b3.cols = model.nv → b4.cols = model.nv →
      check model data = true →
      ja model data joint_id .LOCAL_WORLD_ALIGNED (b1, b2, b3, b4)
        = .returned (r1, r2, r3, r4) →
      joint.nv + joint.idx_v - 1 < (r1.length : Int) →
      joint.nv + joint.idx_v - 1 < (r2.length : Int) →
      joint.nv + joint.idx_v - 1 < (r3.length : Int) →
      joint.nv + joint.idx_v - 1 < (r4.length : Int) →
      ∃ o1 o2 o3 o4,
        getFrameAccelerationDerivatives ja check fuel model data joint_id placement
          .LOCAL_WORLD_ALIGNED b1 b2 b3 b4 = .returned (o1, o2, o3, o4) ∧
        ∀ c ∈ ancestorChain data.parents_fromRow fuel (joint.nv + joint.idx_v - 1),
          ShiftedColumn (oMi.rotation.mulVec placement.translation) r1 o1 c ∧
          ShiftedColumn (oMi.rotation.mulVec placement.translation) r2 o2 c ∧
          ShiftedColumn (oMi.rotation.mulVec placement.translation) r3 o3 c ∧
          ShiftedColumn (oMi.rotation.mulVec placement.translation) r4 o4 c) := by
  constructor
  · intro dq dv rq rv hj hrq hrv
    refine ⟨_, _, getFrameVelocityDerivatives_returned jv fuel model data joint_id placement
      _ dq dv rq rv joint oMi hj hjoint hoMi hd hfuel hparents hrq hrv, ?_⟩
    intro c hc
    exact ⟨shiftedColumn_correctionPass hd placement oMi fuel _ rq hrq hc,
      shiftedColumn_correctionPass hd placement oMi fuel _ rv hrv hc⟩
  · intro b1 b2 b3 b4 r1 r2 r3 r4 h1 h2 h3 h4 hcheck hj hr1 hr2 hr3 hr4
    refine ⟨_, _, _, _, getFrameAccelerationDerivatives_returned ja check fuel model data
      joint_id placement _ b1 b2 b3 b4 r1 r2 r3 r4 joint oMi h1 h2 h3 h4 hcheck hj hjoint hoMi
      hd hfuel hparents hr1 hr2 hr3 hr4, ?_⟩
    intro c hc
    exact ⟨shiftedColumn_correctionPass hd placement oMi fuel _ r1 hr1 hc,
      shiftedColumn_correctionPass hd placement oMi fuel _ r2 hr2 hc,
      shiftedColumn_correctionPass hd placement oMi fuel _ r3 hr3 hc,
      shiftedColumn_correctionPass hd placement oMi fuel _ r4 hr4 hc⟩

/-- Witness for C2 on the sample chain, target joint `B`: here
`trans = (0,-1,0)`. -/
theorem local_world_aligned_shifts_chain_columns_witness :
    (∃ oq ov,
      getFrameVelocityDerivatives (fillVelocity (sampleRaw 1) (sampleRaw 4)) 2
        sampleModel sampleData 2 samplePlacement .LOCAL_WORLD_ALIGNED (sampleRaw 0) (sampleRaw 0)
        = .returned (oq, ov) ∧
      ∀ c ∈ ancestorChain sampleData.parents_fromRow 2 1,
        ShiftedColumn ⟨0, -1, 0⟩ (sampleRaw 1) oq c ∧
        ShiftedColumn ⟨0, -1, 0⟩ (sampleRaw 4) ov c) ∧
    (∃ o1 o2 o3 o4,
      getFrameAccelerationDerivatives
        (fillAcceleration (sampleRaw 1) (sampleRaw 4) (sampleRaw 7) (sampleRaw 10)) noCheck 2
        sampleModel sampleData 2 samplePlacement .LOCAL_WORLD_ALIGNED
        (sampleRaw 0) (sampleRaw 0) (sampleRaw 0) (sampleRaw 0) = .returned (o1, o2, o3, o4) ∧
      ∀ c ∈ ancestorChain sampleData.parents_fromRow 2 1,
        ShiftedColumn ⟨0, -1, 0⟩ (sampleRaw 1) o1 c ∧
        ShiftedColumn ⟨0, -1, 0⟩ (sampleRaw 4) o2 c ∧
        ShiftedColumn ⟨0, -1, 0⟩ (sampleRaw 7) o3 c ∧
        ShiftedColumn ⟨0, -1, 0⟩ (sampleRaw 10) o4 c) :=
  ⟨(local_world_aligned_shifts_chain_columns (fillVelocity (sampleRaw 1) (sampleRaw 4))
      (fillAcceleration (sampleRaw 1) (sampleRaw 4) (sampleRaw 7) (sampleRaw 10)) noCheck 2
      sampleModel sampleData 2 samplePlacement ⟨1, 1⟩ ⟨quarterTurnX, ⟨1, 0, 0⟩⟩ rfl rfl
      (by decide) (by decide) (by decide)).1
      (sampleRaw 0) (sampleRaw 0) _ _ rfl (by decide) (by decide),
   (local_world_aligned_shifts_chain_columns (fillVelocity (sampleRaw 1) (sampleRaw 4))
      (fillAcceleration (sampleRaw 1) (sampleRaw 4) (sampleRaw 7) (sampleRaw 10)) noCheck 2
      sampleModel sampleData 2 samplePlacement ⟨1, 1⟩ ⟨quarterTurnX, ⟨1, 0, 0⟩⟩ rfl rfl
      (by decide) (by decide) (by decide)).2
      (sampleRaw 0) (sampleRaw 0) (sampleRaw 0) (sampleRaw 0) _ _ _ _
      rfl rfl rfl rfl rfl rfl (by decide) (by decide) (by decide) (by decide)⟩

/-- C3: in the `LOCAL` convention, with a strictly decreasing
`parents_fromRow`, both transformers return, and every column `c` on the
ancestor chain of `colRef` is, in each output matrix, `placement.actInv` of
the raw column: angular part `Rᵀ w`, linear part `Rᵀ (v - p × w)`, applied
once. -/
theorem local_applies_actInv_to_chain_columns
    (jv : JointVelocityAlgorithm α) (ja : JointAccelerationAlgorithm α)
    (check : Model → Data α → Bool) (fuel : Nat)
    (model : Model) (data : Data α) (joint_id : Nat) (placement : SE3 α)
    (joint : JointModel) (oMi : SE3 α)
    (hjoint : model.joints[joint_id]? = some joint)
    (hoMi : data.oMi[joint_id]? = some oMi)
    (hd : Descending data.parents_fromRow)
    (hfuel : joint.nv + joint.idx_v - 1 < (fuel : Int))
    (hparents : joint.nv + joint.idx_v - 1 < (data.parents_fromRow.length : Int)) :
    (∀ (dq dv rq rv : Matrix6x α),
      jv model data joint_id .LOCAL (dq, dv) = .returned (rq, rv) →
      joint.nv + joint.idx_v - 1 < (rq.length : Int) →
      joint.nv + joint.idx_v - 1 < (rv.length : Int) →
      ∃ oq ov,
        getFrameVelocityDerivatives jv fuel model data joint_id placement .LOCAL dq dv
          = .returned (oq, ov) ∧
        ∀ c ∈ ancestorChain data.parents_fromRow fuel (joint.nv + joint.idx_v - 1),
          ActInvColumn placement rq oq c ∧ ActInvColumn placement rv ov c) ∧
    (∀ (b1 b2 b3 b4 r1 r2 r3 r4 : Matrix6x α),
      b1.cols = model.nv → b2.cols = model.nv → b3.cols = model.nv → b4.cols = model.nv →
      check model data = true →
      ja model data joint_id .LOCAL (b1, b2, b3, b4) = .returned (r1, r2, r3, r4) →
      joint.nv + joint.idx_v - 1 < (r1.length : Int) →
      joint.nv + joint.idx_v - 1 < (r2.length : Int) →
      joint.nv + joint.idx_v - 1 < (r3.length : Int) →
      joint.nv + joint.idx_v - 1 < (r4.length : Int) →
      ∃ o1 o2 o3 o4,
        getFrameAccelerationDerivatives ja check fuel model data joint_id placement .LOCAL
          b1 b2 b3 b4 = .returned (o1, o2, o3, o4) ∧
        ∀ c ∈ ancestorChain data.parents_fromRow fuel (joint.nv + joint.idx_v - 1),
          ActInvColumn placement r1 o1 c ∧ ActInvColumn placement r2 o2 c ∧
          ActInvColumn placement r3 o3 c ∧ ActInvColumn placement r4 o4 c) := by
  constructor
  · intro dq dv rq rv hj hrq hrv
    refine ⟨_, _, getFrameVelocityDerivatives_returned jv fuel model data joint_id placement
      _ dq dv rq rv joint oMi hj hjoint hoMi hd hfuel hparents hrq hrv, ?_⟩
    intro c hc
    exact ⟨actInvColumn_correctionPass hd placement oMi fuel _ rq hrq hc,
      actInvColumn_correctionPass hd placement oMi fuel _ rv hrv hc⟩
  · intro b1 b2 b3 b4 r1 r2 r3 r4 h1 h2 h3 h4 hcheck hj hr1 hr2 hr3 hr4
    refine ⟨_, _, _, _, getFrameAccelerationDerivatives_returned ja check fuel model data
      joint_id placement _ b1 b2 b3 b4 r1 r2 r3 r4 joint oMi h1 h2 h3 h4 hcheck hj hjoint hoMi
      hd hfuel hparents hr1 hr2 hr3 hr4, ?_⟩
    intro c hc
    exact ⟨actInvColumn_correctionPass hd placement oMi fuel _ r1 hr1 hc,
      actInvColumn_correctionPass hd placement oMi fuel _ r2 hr2 hc,
      actInvColumn_correctionPass hd placement oMi fuel _ r3 hr3 hc,
      actInvColumn_correctionPass hd placement oMi fuel _ r4 hr4 hc⟩

/-- Witness for C3 on the sample chain, target joint `B`. -/
theorem local_applies_actInv_to_chain_columns_witness :
    (∃ oq ov,
      getFrameVelocityDerivatives (fillVelocity (sampleRaw 1) (sampleRaw 4)) 2
        sampleModel sampleData 2 samplePlacement .LOCAL (sampleRaw 0) (sampleRaw 0)
        = .returned (oq, ov) ∧
      ∀ c ∈ ancestorChain sampleData.parents_fromRow 2 1,
        ActInvColumn samplePlacement (sampleRaw 1) oq c ∧
        ActInvColumn samplePlacement (sampleRaw 4) ov c) ∧
    (∃ o1 o2 o3 o4,
      getFrameAccelerationDerivatives
        (fillAcceleration (sampleRaw 1) (sampleRaw 4) (sampleRaw 7) (sampleRaw 10)) noCheck 2
        sampleModel sampleData 2 samplePlacement .LOCAL
        (sampleRaw 0) (sampleRaw 0) (sampleRaw 0) (sampleRaw 0) = .returned (o1, o2, o3, o4) ∧
      ∀ c ∈ ancestorChain sampleData.parents_fromRow 2 1,
        ActInvColumn samplePlacement (sampleRaw 1) o1 c ∧
        ActInvColumn samplePlacement (sampleRaw 4) o2 c ∧
        ActInvColumn samplePlacement (sampleRaw 7) o3 c ∧
        ActInvColumn samplePlacement (sampleRaw 10) o4 c) :=
  ⟨(local_applies_actInv_to_chain_columns (fillVelocity (sampleRaw 1) (sampleRaw 4))
      (fillAcceleration (sampleRaw 1) (sampleRaw 4) (sampleRaw 7) (sampleRaw 10)) noCheck 2
      sampleModel sampleData 2 samplePlacement ⟨1, 1⟩ ⟨quarterTurnX, ⟨1, 0, 0⟩⟩ rfl rfl
      (by decide) (by decide) (by decide)).1
      (sampleRaw 0) (sampleRaw 0) _ _ rfl (by decide) (by decide),
   (local_applies_actInv_to_chain_columns (fillVelocity (sampleRaw 1) (sampleRaw 4))
      (fillAcceleration (sampleRaw 1) (sampleRaw 4) (sampleRaw 7) (sampleRaw 10)) noCheck 2
      sampleModel sampleData 2 samplePlacement ⟨1, 1⟩ ⟨quarterTurnX, ⟨1, 0, 0⟩⟩ rfl rfl
      (by decide) (by decide) (by decide)).2
      (sampleRaw 0) (sampleRaw 0) (sampleRaw 0) (sampleRaw 0) _ _ _ _
      rfl rfl rfl rfl rfl rfl (by decide) (by decide) (by decide) (by decide)⟩

/-- C4: sparsity preservation. For every reference convention and every frame
placement, whenever a transformer returns, each column that is not on the
ancestor chain of `colRef` is, in every output matrix, exactly the column of
the corresponding raw matrix; and with a strictly decreasing table, the start
column inside the table and the matrices, and enough iterations, the
transformers do return. -/
theorem off_chain_columns_unchanged
    (jv : JointVelocityAlgorithm α) (ja : JointAccelerationAlgorithm α)
    (check : Model → Data α → Bool) (fuel : Nat)
    (model : Model) (data : Data α) (joint_id : Nat) (placement : SE3 α) (rf : ReferenceFrame)
    (joint : JointModel) (hjoint : model.joints[joint_id]? = some joint) :
    (∀ (dq dv rq rv oq ov : Matrix6x α),
      jv model data joint_id rf (dq, dv) = .returned (rq, rv) →
      getFrameVelocityDerivatives jv fuel model data joint_id placement rf dq dv
        = .returned (oq, ov) →
      ∀ c, c ∉ ancestorChain data.parents_fromRow fuel (joint.nv + joint.idx_v - 1) →
        oq[c]? = rq[c]? ∧ ov[c]? = rv[c]?) ∧
    (∀ (b1 b2 b3 b4 r1 r2 r3 r4 o1 o2 o3 o4 : Matrix6x α),
      ja model data joint_id rf (b1, b2, b3, b4) = .returned (r1, r2, r3, r4) →
      getFrameAccelerationDerivatives ja check fuel model data joint_id placement rf
        b1 b2 b3 b4 = .returned (o1, o2, o3, o4) →
      ∀ c, c ∉ ancestorChain data.parents_fromRow fuel (joint.nv + joint.idx_v - 1) →
        o1[c]? = r1[c]? ∧ o2[c]? = r2[c]? ∧ o3[c]? = r3[c]? ∧ o4[c]? = r4[c]?) ∧
    (∀ (oMi : SE3 α) (dq dv rq rv : Matrix6x α),
      data.oMi[joint_id]? = some oMi → Descending data.parents_fromRow →
      joint.nv + joint.idx_v - 1 < (fuel : Int) →
      joint.nv + joint.idx_v - 1 < (data.parents_fromRow.length : Int) →
      jv model data joint_id rf (dq, dv) = .returned (rq, rv) →
      joint.nv + joint.idx_v - 1 < (rq.length : Int) →
      joint.nv + joint.idx_v - 1 < (rv.length : Int) →
      ∃ oq ov, getFrameVelocityDerivatives jv fuel model data joint_id placement rf dq dv
        = .returned (oq, ov)) ∧
    (∀ (oMi : SE3 α) (b1 b2 b3 b4 r1 r2 r3 r4 : Matrix6x α),
      data.oMi[joint_id]? = some oMi → Descending data.parents_fromRow →
      joint.nv + joint.idx_v - 1 < (fuel : Int) →
      joint.nv + joint.idx_v - 1 < (data.parents_fromRow.length : Int) →
      b1.cols = model.nv → b2.cols = model.nv → b3.cols = model.nv → b4.cols = model.nv →
      check model data = true →
      ja model data joint_id rf (b1, b2, b3, b4) = .returned (r1, r2, r3, r4) →
      joint.nv + joint.idx_v - 1 < (r1.length : Int) →
      joint.nv + joint.idx_v - 1 < (r2.length : Int) →
      joint.nv + joint.idx_v - 1 < (r3.length : Int) →
      joint.nv + joint.idx_v - 1 < (r4.length : Int) →
      ∃ o1 o2 o3 o4, getFrameAccelerationDerivatives ja check fuel model data joint_id
        placement rf b1 b2 b3 b4 = .returned (o1, o2, o3, o4)) := by
  refine ⟨?_, ?_, ?_, ?_⟩
  · intro dq dv rq rv oq ov hj h c hc
    exact getFrameVelocityDerivatives_off jv fuel model data joint_id placement rf
      dq dv rq rv oq ov joint hj hjoint h c hc
  · intro b1 b2 b3 b4 r1 r2 r3 r4 o1 o2 o3 o4 hj h c hc
    exact getFrameAccelerationDerivatives_off ja check fuel model data joint_id placement rf
      b1 b2 b3 b4 r1 r2 r3 r4 o1 o2 o3 o4 joint hj hjoint h c hc
  · intro oMi dq dv rq rv hoMi hd hfuel hparents hj hrq hrv
    exact ⟨_, _, getFrameVelocityDerivatives_returned jv fuel model data joint_id placement
      rf dq dv rq rv joint oMi hj hjoint hoMi hd hfuel hparents hrq hrv⟩
  · intro oMi b1 b2 b3 b4 r1 r2 r3 r4 hoMi hd hfuel hparents h1 h2 h3 h4 hcheck hj
      hr1 hr2 hr3 hr4
    exact ⟨_, _, _, _, getFrameAccelerationDerivatives_returned ja check fuel model data
      joint_id placement rf b1 b2 b3 b4 r1 r2 r3 r4 joint oMi h1 h2 h3 h4 hcheck hj hjoint
      hoMi hd hfuel hparents hr1 hr2 hr3 hr4⟩

/-- Witness for C4 on the sample chain in the `LOCAL` convention: column 2,
which belongs to joint `C`, is off the chain of joint `B`. -/
theorem off_chain_columns_unchanged_witness :
    (2 ∉ ancestorChain sampleData.parents_fromRow 2 1) ∧
    (∃ oq ov,
      getFrameVelocityDerivatives (fillVelocity (sampleRaw 1) (sampleRaw 4)) 2
        sampleModel sampleData 2 samplePlacement .LOCAL (sampleRaw 0) (sampleRaw 0)
        = .returned (oq, ov) ∧
      oq[2]? = some (sampleColumn 3) ∧ ov[2]? = some (sampleColumn 6)) ∧
    (∃ o1 o2 o3 o4,
      getFrameAccelerationDerivatives
        (fillAcceleration (sampleRaw 1) (sampleRaw 4) (sampleRaw 7) (sampleRaw 10)) noCheck 2
        sampleModel sampleData 2 samplePlacement .LOCAL
        (sampleRaw 0) (sampleRaw 0) (sampleRaw 0) (sampleRaw 0) = .returned (o1, o2, o3, o4) ∧
      o1[2]? = some (sampleColumn 3) ∧ o2[2]? = some (sampleColumn 6) ∧
      o3[2]? = some (sampleColumn 9) ∧ o4[2]? = some (sampleColumn 12)) := by
  have off : 2 ∉ ancestorChain sampleData.parents_fromRow 2 1 := by decide
  have T := off_chain_columns_unchanged (fillVelocity (sampleRaw 1) (sampleRaw 4))
    (fillAcceleration (sampleRaw 1) (sampleRaw 4) (sampleRaw 7) (sampleRaw 10)) noCheck 2
    sampleModel sampleData 2 samplePlacement .LOCAL ⟨1, 1⟩ rfl
  refine ⟨off, ?_, ?_⟩
  · obtain ⟨oq, ov, h⟩ := T.2.2.1 ⟨quarterTurnX, ⟨1, 0, 0⟩⟩ (sampleRaw 0) (sampleRaw 0) _ _
      rfl (by decide) (by decide) (by decide) rfl (by decide) (by decide)
    exact ⟨oq, ov, h, T.1 _ _ _ _ oq ov rfl h 2 off⟩
  · obtain ⟨o1, o2, o3, o4, h⟩ := T.2.2.2 ⟨quarterTurnX, ⟨1, 0, 0⟩⟩
      (sampleRaw 0) (sampleRaw 0) (sampleRaw 0) (sampleRaw 0) _ _ _ _
      rfl (by decide) (by decide) (by decide) rfl rfl rfl rfl rfl rfl
      (by decide) (by decide) (by decide) (by decide)
    exact ⟨o1, o2, o3, o4, h, T.2.1 _ _ _ _ _ _ _ _ o1 o2 o3 o4 rfl h 2 off⟩

/-- C5: the `LOCAL` correction with the identity placement (identity rotation,
zero translation) is the identity transform. Whenever a transformer returns,
every output matrix is the raw matrix the pass received; and with a strictly
decreasing table, the start column inside the table and the matrices, and
enough iterations, the transformers return exactly the raw matrices. -/
theorem local_identity_placement_is_identity
    (jv : JointVelocityAlgorithm α) (ja : JointAccelerationAlgorithm α)
    (check : Model → Data α → Bool) (fuel : Nat)
    (model : Model) (data : Data α) (joint_id : Nat)
    (joint : JointModel) (hjoint : model.joints[joint_id]? = some joint) :
    (∀ (dq dv rq rv oq ov : Matrix6x α),
      jv model data joint_id .LOCAL (dq, dv) = .returned (rq, rv) →
      getFrameVelocityDerivatives jv fuel model data joint_id SE3.identity .LOCAL dq dv
        = .returned (oq, ov) →
      oq = rq ∧ ov = rv) ∧
    (∀ (b1 b2 b3 b4 r1 r2 r3 r4 o1 o2 o3 o4 : Matrix6x α),
      ja model data joint_id .LOCAL (b1, b2, b3, b4) = .returned (r1, r2, r3, r4) →
      getFrameAccelerationDerivatives ja check fuel model data joint_id SE3.identity .LOCAL
        b1 b2 b3 b4 = .returned (o1, o2, o3, o4) →
      o1 = r1 ∧ o2 = r2 ∧ o3 = r3 ∧ o4 = r4) ∧
    (∀ (oMi : SE3 α) (dq dv rq rv : Matrix6x α),
      data.oMi[joint_id]? = some oMi → Descending data.parents_fromRow →
      joint.nv + joint.idx_v - 1 < (fuel : Int) →
      joint.nv + joint.idx_v - 1 < (data.parents_fromRow.length : Int) →
      jv model data joint_id .LOCAL (dq, dv) = .returned (rq, rv) →
      joint.nv + joint.idx_v - 1 < (rq.length : Int) →
      joint.nv + joint.idx_v - 1 < (rv.length : Int) →
      getFrameVelocityDerivatives jv fuel model data joint_id SE3.identity .LOCAL dq dv
        = .returned (rq, rv)) ∧
    (∀ (oMi : SE3 α) (b1 b2 b3 b4 r1 r2 r3 r4 : Matrix6x α),
      data.oMi[joint_id]? = some oMi → Descending data.parents_fromRow →
      joint.nv + joint.idx_v - 1 < (fuel : Int) →
      joint.nv + joint.idx_v - 1 < (data.parents_fromRow.length : Int) →
      b1.cols = model.nv → b2.cols = model.nv → b3.cols = model.nv → b4.cols = model.nv →
      check model data = true →
      ja model data joint_id .LOCAL (b1, b2, b3, b4) = .returned (r1, r2, r3, r4) →
      joint.nv + joint.idx_v - 1 < (r1.length : Int) →
      joint.nv + joint.idx_v - 1 < (r2.length : Int) →
      joint.nv + joint.idx_v - 1 < (r3.length : Int) →
      joint.nv + joint.idx_v - 1 < (r4.length : Int) →
      getFrameAccelerationDerivatives ja check fuel model data joint_id SE3.identity .LOCAL
        b1 b2 b3 b4 = .returned (r1, r2, r3, r4)) := by
  refine ⟨?_, ?_, ?_, ?_⟩
  · intro dq dv rq rv oq ov hj h
    obtain ⟨oMi, hoMi⟩ := getFrameVelocityDerivatives_oMi jv fuel model data joint_id _
      _ dq dv rq rv _ hj h
    rw [getFrameVelocityDerivatives_eq jv fuel model data joint_id _ _ dq dv rq rv
      joint oMi hj hjoint hoMi] at h
    obtain ⟨ha, hb⟩ := (forAncestors_two _ _ _ _ _ _ _ _).mp h
    exact ⟨forAncestors_columnBody_id _ actInv_identity _ _ _ _ _ ha,
      forAncestors_columnBody_id _ actInv_identity _ _ _ _ _ hb⟩
  · intro b1 b2 b3 b4 r1 r2 r3 r4 o1 o2 o3 o4 hj h
    obtain ⟨h1, h2, h3, h4, hcheck⟩ := getFrameAccelerationDerivatives_checks ja check fuel
      model data joint_id _ _ b1 b2 b3 b4 _ h
    rw [getFrameAccelerationDerivatives_eq ja check fuel model data joint_id _ _
      b1 b2 b3 b4 r1 r2 r3 r4 joint h1 h2 h3 h4 hcheck hj hjoint] at h
    obtain ⟨ha, hb, hc, hd4⟩ := (forAncestors_four _ _ _ _ _ _ _ _ _ _ _ _).mp h
    exact ⟨forAncestors_columnBody_id _ actInv_identity _ _ _ _ _ ha,
      forAncestors_columnBody_id _ actInv_identity _ _ _ _ _ hb,
      forAncestors_columnBody_id _ actInv_identity _ _ _ _ _ hc,
      forAncestors_columnBody_id _ actInv_identity _ _ _ _ _ hd4⟩
  · intro oMi dq dv rq rv hoMi hd hfuel hparents hj hrq hrv
    rw [getFrameVelocityDerivatives_returned jv fuel model data joint_id _
      _ dq dv rq rv joint oMi hj hjoint hoMi hd hfuel hparents hrq hrv]
    simp only [correctionPass, columnCorrection, correctColumns_id _ actInv_identity]
  · intro oMi b1 b2 b3 b4 r1 r2 r3 r4 hoMi hd hfuel hparents h1 h2 h3 h4 hcheck hj
      hr1 hr2 hr3 hr4
    rw [getFrameAccelerationDerivatives_returned ja check fuel model data
      joint_id _ _ b1 b2 b3 b4 r1 r2 r3 r4 joint oMi h1 h2 h3 h4 hcheck hj hjoint
      hoMi hd hfuel hparents hr1 hr2 hr3 hr4]
    simp only [correctionPass, columnCorrection, correctColumns_id _ actInv_identity]

/-- Witness for C5 on the sample chain, target joint `B`. -/
theorem local_identity_placement_is_identity_witness :
    getFrameVelocityDerivatives (fillVelocity (sampleRaw 1) (sampleRaw 4)) 2
        sampleModel sampleData 2 SE3.identity .LOCAL (sampleRaw 0) (sampleRaw 0)
      = .returned (sampleRaw 1, sampleRaw 4) ∧
    getFrameAccelerationDerivatives
        (fillAcceleration (sampleRaw 1) (sampleRaw 4) (sampleRaw 7) (sampleRaw 10)) noCheck 2
        sampleModel sampleData 2 SE3.identity .LOCAL
        (sampleRaw 0) (sampleRaw 0) (sampleRaw 0) (sampleRaw 0)
      = .returned (sampleRaw 1, sampleRaw 4, sampleRaw 7, sampleRaw 10) :=
  ⟨(local_identity_placement_is_identity (fillVelocity (sampleRaw 1) (sampleRaw 4))
      (fillAcceleration (sampleRaw 1) (sampleRaw 4) (sampleRaw 7) (sampleRaw 10)) noCheck 2
      sampleModel sampleData 2 ⟨1, 1⟩ rfl).2.2.1 ⟨quarterTurnX, ⟨1, 0, 0⟩⟩
      (sampleRaw 0) (sampleRaw 0) _ _ rfl (by decide) (by decide) (by decide) rfl
      (by decide) (by decide),
   (local_identity_placement_is_identity (fillVelocity (sampleRaw 1) (sampleRaw 4))
      (fillAcceleration (sampleRaw 1) (sampleRaw 4) (sampleRaw 7) (sampleRaw 10)) noCheck 2
      sampleModel sampleData 2 ⟨1, 1⟩ rfl).2.2.2 ⟨quarterTurnX, ⟨1, 0, 0⟩⟩
      (sampleRaw 0) (sampleRaw 0) (sampleRaw 0) (sampleRaw 0) _ _ _ _
      rfl (by decide) (by decide) (by decide) rfl rfl rfl rfl rfl rfl
      (by decide) (by decide) (by decide) (by decide)⟩

/-- C6: for the same model, data, joint, placement and reference convention,
when both joint algorithms fill the same raw `v_partial_dq`, the
`v_partial_dq` output of `getFrameAccelerationDerivatives` equals the one of
`getFrameVelocityDerivatives`: whenever both return, and both do return with
a strictly decreasing table, the start column inside the table and the
matrices, and enough iterations. -/
theorem acceleration_v_partial_dq_matches_velocity
    (jv : JointVelocityAlgorithm α) (ja : JointAccelerationAlgorithm α)
    (check : Model → Data α → Bool) (fuel : Nat)
    (model : Model) (data : Data α) (joint_id : Nat) (placement : SE3 α) (rf : ReferenceFrame)
    (joint : JointModel) (hjoint : model.joints[joint_id]? = some joint) :
    (∀ (dq dv b1 b2 b3 b4 rq rv r2 r3 r4 oq ov o1 o2 o3 o4 : Matrix6x α),
      jv model data joint_id rf (dq, dv) = .returned (rq, rv) →
      ja model data joint_id rf (b1, b2, b3, b4) = .returned (rq, r2, r3, r4) →
      getFrameVelocityDerivatives jv fuel model data joint_id placement rf dq dv
        = .returned (oq, ov) →
      getFrameAccelerationDerivatives ja check fuel model data joint_id placement rf
        b1 b2 b3 b4 = .returned (o1, o2, o3, o4) →
      o1 = oq) ∧
    (∀ (oMi : SE3 α) (dq dv b1 b2 b3 b4 rq rv r2 r3 r4 : Matrix6x α),
      data.oMi[joint_id]? = some oMi → Descending data.parents_fromRow →
      joint.nv + joint.idx_v - 1 < (fuel : Int) →
      joint.nv + joint.idx_v - 1 < (data.parents_fromRow.length : Int) →
      b1.cols = model.nv → b2.cols = model.nv → b3.cols = model.nv → b4.cols = model.nv →
      check model data = true →
      jv model data joint_id rf (dq, dv) = .returned (rq, rv) →
      ja model data joint_id rf (b1, b2, b3, b4) = .returned (rq, r2, r3, r4) →
      joint.nv + joint.idx_v - 1 < (rq.length : Int) →
      joint.nv + joint.idx_v - 1 < (rv.length : Int) →
      joint.nv + joint.idx_v - 1 < (r2.length : Int) →
      joint.nv + joint.idx_v - 1 < (r3.length : Int) →
      joint.nv + joint.idx_v - 1 < (r4.length : Int) →
      ∃ oq ov o2 o3 o4,
        getFrameVelocityDerivatives jv fuel model data joint_id placement rf dq dv
          = .returned (oq, ov) ∧
        getFrameAccelerationDerivatives ja check fuel model data joint_id placement rf
          b1 b2 b3 b4 = .returned (oq, o2, o3, o4)) := by
  constructor
  · intro dq dv b1 b2 b3 b4 rq rv r2 r3 r4 oq ov o1 o2 o3 o4 hjv hja hv ha
    obtain ⟨oMi, hoMi⟩ := getFrameVelocityDerivatives_oMi jv fuel model data joint_id
      placement rf dq dv rq rv _ hjv hv
    obtain ⟨h1, h2, h3, h4, hcheck⟩ := getFrameAccelerationDerivatives_checks ja check fuel
      model data joint_id placement rf b1 b2 b3 b4 _ ha
    rw [getFrameVelocityDerivatives_eq jv fuel model data joint_id placement rf dq dv rq rv
      joint oMi hjv hjoint hoMi] at hv
    rw [getFrameAccelerationDerivatives_eq ja check fuel model data joint_id placement rf
      b1 b2 b3 b4 rq r2 r3 r4 joint h1 h2 h3 h4 hcheck hja hjoint] at ha
    cases rf with
    | WORLD =>
      simp only [Outcome.returned.injEq, Prod.mk.injEq] at hv ha
      rw [← hv.1, ← ha.1]
    | other raw =>
      simp only [Outcome.returned.injEq, Prod.mk.injEq] at hv ha
      rw [← hv.1, ← ha.1]
    | LOCAL_WORLD_ALIGNED =>
      simp only [hoMi] at ha
      have e1 := ((forAncestors_two _ _ _ _ _ _ _ _).mp hv).1
      have e2 := ((forAncestors_four _ _ _ _ _ _ _ _ _ _ _ _).mp ha).1
      rw [e1] at e2
      simp only [Outcome.returned.injEq] at e2
      exact e2.symm
    | LOCAL =>
      have e1 := ((forAncestors_two _ _ _ _ _ _ _ _).mp hv).1
      have e2 := ((forAncestors_four _ _ _ _ _ _ _ _ _ _ _ _).mp ha).1
      rw [e1] at e2
      simp only [Outcome.returned.injEq] at e2
      exact e2.symm
  · intro oMi dq dv b1 b2 b3 b4 rq rv r2 r3 r4 hoMi hd hfuel hparents h1 h2 h3 h4 hcheck
      hjv hja hrq hrv hr2 hr3 hr4
    exact ⟨_, _, _, _, _,
      getFrameVelocityDerivatives_returned jv fuel model data joint_id placement
        rf dq dv rq rv joint oMi hjv hjoint hoMi hd hfuel hparents hrq hrv,
      getFrameAccelerationDerivatives_returned ja check fuel model data
        joint_id placement rf b1 b2 b3 b4 rq r2 r3 r4 joint oMi h1 h2 h3 h4 hcheck hja hjoint
        hoMi hd hfuel hparents hrq hr2 hr3 hr4⟩

/-- Witness for C6 on the sample chain in the `LOCAL` convention. -/
theorem acceleration_v_partial_dq_matches_velocity_witness :
    ∃ oq ov o2 o3 o4,
      getFrameVelocityDerivatives (fillVelocity (sampleRaw 1) (sampleRaw 4)) 2
        sampleModel sampleData 2 samplePlacement .LOCAL (sampleRaw 0) (sampleRaw 0)
        = .returned (oq, ov) ∧
      getFrameAccelerationDerivatives
        (fillAcceleration (sampleRaw 1) (sampleRaw 4) (sampleRaw 7) (sampleRaw 10)) noCheck 2
        sampleModel sampleData 2 samplePlacement .LOCAL
        (sampleRaw 0) (sampleRaw 0) (sampleRaw 0) (sampleRaw 0) = .returned (oq, o2, o3, o4) :=
  (acceleration_v_partial_dq_matches_velocity (fillVelocity (sampleRaw 1) (sampleRaw 4))
    (fillAcceleration (sampleRaw 1) (sampleRaw 4) (sampleRaw 7) (sampleRaw 10)) noCheck 2
    sampleModel sampleData 2 samplePlacement .LOCAL ⟨1, 1⟩ rfl).2 ⟨quarterTurnX, ⟨1, 0, 0⟩⟩
    (sampleRaw 0) (sampleRaw 0) (sampleRaw 0) (sampleRaw 0) (sampleRaw 0) (sampleRaw 0)
    _ _ _ _ _ rfl (by decide) (by decide) (by decide) rfl rfl rfl rfl rfl rfl rfl
    (by decide) (by decide) (by decide) (by decide) (by decide)

/-- C7: `getFrameAccelerationDerivatives` fails its size check as soon as one
of the four matrices has a column count different from `model.nv`; whatever
the joint algorithm and the consistency check would do, the outcome is the
failed check with the four matrices exactly as they were passed. -/
theorem acceleration_size_mismatch_fails_first
    (ja : JointAccelerationAlgorithm α) (check : Model → Data α → Bool) (fuel : Nat)
    (model : Model) (data : Data α) (joint_id : Nat) (placement : SE3 α) (rf : ReferenceFrame)
    (v_partial_dq a_partial_dq a_partial_dv a_partial_da : Matrix6x α)
    (hsize : v_partial_dq.cols ≠ model.nv ∨ a_partial_dq.cols ≠ model.nv ∨
      a_partial_dv.cols ≠ model.nv ∨ a_partial_da.cols ≠ model.nv) :
    getFrameAccelerationDerivatives ja check fuel model data joint_id placement rf
        v_partial_dq a_partial_dq a_partial_dv a_partial_da
      = .invalidArgument (v_partial_dq, a_partial_dq, a_partial_dv, a_partial_da) := by
  unfold getFrameAccelerationDerivatives
  by_cases h1 : v_partial_dq.cols = model.nv
  · by_cases h2 : a_partial_dq.cols = model.nv
    · by_cases h3 : a_partial_dv.cols = model.nv
      · by_cases h4 : a_partial_da.cols = model.nv
        · rcases hsize with h | h | h | h <;> contradiction
        · simp [checkArgumentSize, h1, h2, h3, h4]
      · simp [checkArgumentSize, h1, h2, h3]
    · simp [checkArgumentSize, h1, h2]
  · simp [checkArgumentSize, h1]

/-- Witness for C7: the third matrix has two columns where `model.nv = 3`. -/
theorem acceleration_size_mismatch_fails_first_witness :
    getFrameAccelerationDerivatives
        (fillAcceleration (sampleRaw 1) (sampleRaw 4) (sampleRaw 7) (sampleRaw 10)) noCheck 2
        sampleModel sampleData 2 samplePlacement .LOCAL
        (sampleRaw 0) (sampleRaw 0) [sampleColumn 0, sampleColumn 1] (sampleRaw 0)
      = .invalidArgument
          (sampleRaw 0, sampleRaw 0, [sampleColumn 0, sampleColumn 1], sampleRaw 0) :=
  acceleration_size_mismatch_fails_first
    (fillAcceleration (sampleRaw 1) (sampleRaw 4) (sampleRaw 7) (sampleRaw 10)) noCheck 2
    sampleModel sampleData 2 samplePlacement .LOCAL
    (sampleRaw 0) (sampleRaw 0) [sampleColumn 0, sampleColumn 1] (sampleRaw 0)
    (Or.inr (Or.inr (Or.inl (by decide))))

/-- C9: for a reference-convention value that is none of `WORLD`, `LOCAL` and
`LOCAL_WORLD_ALIGNED`, the correction pass of both transformers does nothing
and raises no error: the transformers return the matrices as the joint
algorithm left them. -/
theorem unknown_convention_is_noop
    (jv : JointVelocityAlgorithm α) (ja : JointAccelerationAlgorithm α)
    (check : Model → Data α → Bool) (fuel : Nat)
    (model : Model) (data : Data α) (joint_id : Nat) (placement : SE3 α) (raw : Int)
    (joint : JointModel) (hjoint : model.joints[joint_id]? = some joint) :
    (∀ (oMi : SE3 α) (dq dv rq rv : Matrix6x α),
      data.oMi[joint_id]? = some oMi →
      jv model data joint_id (.other raw) (dq, dv) = .returned (rq, rv) →
      getFrameVelocityDerivatives jv fuel model data joint_id placement (.other raw) dq dv
        = .returned (rq, rv)) ∧
    (∀ (b1 b2 b3 b4 r1 r2 r3 r4 : Matrix6x α),
      b1.cols = model.nv → b2.cols = model.nv → b3.cols = model.nv → b4.cols = model.nv →
      check model data = true →
      ja model data joint_id (.other raw) (b1, b2, b3, b4) = .returned (r1, r2, r3, r4) →
      getFrameAccelerationDerivatives ja check fuel model data joint_id placement (.other raw)
        b1 b2 b3 b4 = .returned (r1, r2, r3, r4)) := by
  constructor
  · intro oMi dq dv rq rv hoMi hj
    rw [getFrameVelocityDerivatives_eq jv fuel model data joint_id placement _ dq dv rq rv
      joint oMi hj hjoint hoMi]
  · intro b1 b2 b3 b4 r1 r2 r3 r4 h1 h2 h3 h4 hcheck hj
    rw [getFrameAccelerationDerivatives_eq ja check fuel model data joint_id placement _
      b1 b2 b3 b4 r1 r2 r3 r4 joint h1 h2 h3 h4 hcheck hj hjoint]

/-- Witness for C9 with the raw value 7 and no iterations allowed. -/
theorem unknown_convention_is_noop_witness :
    getFrameVelocityDerivatives (fillVelocity (sampleRaw 1) (sampleRaw 4)) 0
        sampleModel sampleData 2 samplePlacement (.other 7) (sampleRaw 0) (sampleRaw 0)
      = .returned (sampleRaw 1, sampleRaw 4) ∧
    getFrameAccelerationDerivatives
        (fillAcceleration (sampleRaw 1) (sampleRaw 4) (sampleRaw 7) (sampleRaw 10)) noCheck 0
        sampleModel sampleData 2 samplePlacement (.other 7)
        (sampleRaw 0) (sampleRaw 0) (sampleRaw 0) (sampleRaw 0)
      = .returned (sampleRaw 1, sampleRaw 4, sampleRaw 7, sampleRaw 10) :=
  ⟨(unknown_convention_is_noop (fillVelocity (sampleRaw 1) (sampleRaw 4))
      (fillAcceleration (sampleRaw 1) (sampleRaw 4) (sampleRaw 7) (sampleRaw 10)) noCheck 0
      sampleModel sampleData 2 samplePlacement 7 ⟨1, 1⟩ rfl).1
      ⟨quarterTurnX, ⟨1, 0, 0⟩⟩ (sampleRaw 0) (sampleRaw 0) _ _ rfl rfl,
   (unknown_convention_is_noop (fillVelocity (sampleRaw 1) (sampleRaw 4))
      (fillAcceleration (sampleRaw 1) (sampleRaw 4) (sampleRaw 7) (sampleRaw 10)) noCheck 0
      sampleModel sampleData 2 samplePlacement 7 ⟨1, 1⟩ rfl).2
      (sampleRaw 0) (sampleRaw 0) (sampleRaw 0) (sampleRaw 0) _ _ _ _
      rfl rfl rfl rfl rfl rfl⟩

/-- C10, as amended: in the two-joint chain (joint `A` at the origin, joint
`B` offset by `(1,0,0)`, frame `F` offset by `(0,0,1)` from `B`, target joint
`B`, convention `LOCAL_WORLD_ALIGNED`), `getFrameVelocityDerivatives` returns
after two iterations; the column of `B` and the column of `A` both have
`(R_B * (0,0,1)) × angular` subtracted from their linear part, with the same
vector `R_B * (0,0,1)`, and every further column is untouched. -/
theorem chain_example_shifts_both_columns_alike
    (jv : JointVelocityAlgorithm α) (fuel : Nat) (nv : Int) (more : List JointModel)
    (R_A R_B R_F : Matrix3 α) (moreOMi : List (SE3 α)) (moreParents : List Int)
    (dq dv : Matrix6x α) (q0 q1 v0 v1 : Motion α) (qs vs : Matrix6x α)
    (hj : jv (chainModel nv more) (chainData R_A R_B moreOMi moreParents) 2
      .LOCAL_WORLD_ALIGNED (dq, dv) = .returned (q0 :: q1 :: qs, v0 :: v1 :: vs)) :
    getFrameVelocityDerivatives jv (fuel + 2) (chainModel nv more)
        (chainData R_A R_B moreOMi moreParents) 2 (framePlacement R_F)
        .LOCAL_WORLD_ALIGNED dq dv
      = .returned
          (⟨q0.linear.sub ((R_B.mulVec ⟨0, 0, 1⟩).cross q0.angular), q0.angular⟩ ::
            ⟨q1.linear.sub ((R_B.mulVec ⟨0, 0, 1⟩).cross q1.angular), q1.angular⟩ :: qs,
           ⟨v0.linear.sub ((R_B.mulVec ⟨0, 0, 1⟩).cross v0.angular), v0.angular⟩ ::
            ⟨v1.linear.sub ((R_B.mulVec ⟨0, 0, 1⟩).cross v1.angular), v1.angular⟩ :: vs) := by
  rw [getFrameVelocityDerivatives_eq jv (fuel + 2) (chainModel nv more)
    (chainData R_A R_B moreOMi moreParents) 2 (framePlacement R_F) _ dq dv _ _
    ⟨1, 1⟩ ⟨R_B, ⟨1, 0, 0⟩⟩ hj (by simp [chainModel]) (by simp [chainData])]
  simp [forAncestors, parBody, columnBody, shiftLinear, chainData, framePlacement]
  exact forAncestors_neg _ _ _ _ _ (by decide)

/-- Witness for the amended C10 on the sample chain. -/
theorem chain_example_shifts_both_columns_alike_witness :
    getFrameVelocityDerivatives (fillVelocity (sampleRaw 1) (sampleRaw 4)) 2
        sampleModel sampleData 2 samplePlacement .LOCAL_WORLD_ALIGNED (sampleRaw 0) (sampleRaw 0)
      = .returned
          ([⟨⟨3, 2, 2⟩, ⟨1, 1, 2⟩⟩, ⟨⟨4, 2, 2⟩, ⟨1, 2, 2⟩⟩, sampleColumn 3],
           [⟨⟨6, 2, 2⟩, ⟨1, 4, 2⟩⟩, ⟨⟨7, 2, 2⟩, ⟨1, 5, 2⟩⟩, sampleColumn 6]) :=
  chain_example_shifts_both_columns_alike (fillVelocity (sampleRaw 1) (sampleRaw 4)) 0 3
    [⟨1, 2⟩] quarterTurn quarterTurnX quarterTurn [⟨Matrix3.identity, ⟨1, 1, 0⟩⟩] [1]
    (sampleRaw 0) (sampleRaw 0) (sampleColumn 1) (sampleColumn 2) (sampleColumn 4)
    (sampleColumn 5) [sampleColumn 3] [sampleColumn 6] rfl

/-- C10 as stated fails: on the planar two-joint chain at its zero
configuration (`R_B` the identity, so `R_B * (0,0,1) = (0,0,1)` and the lever
arm from `A` to `F` is `(1,0,1)`), the code leaves the column
`((0,1,0), (0,0,1))` of `A` in `v_partial_dv` as it is, which is that column
shifted by `(0,0,1) × angular = 0`; the raw column with
`lever arm × angular` subtracted would have the linear part `(0,2,0)`. -/
theorem chain_example_full_lever_arm_fails :
    leverArmAF (Matrix3.identity : Matrix3 Int) = ⟨1, 0, 1⟩ ∧
    getFrameVelocityDerivatives (fillVelocity planarRawDq planarRawDv) 2
        (chainModel 2 []) planarData 2 (framePlacement Matrix3.identity)
        .LOCAL_WORLD_ALIGNED planarRawDq planarRawDq
      = .returned (planarRawDq, planarRawDv) ∧
    ShiftedColumn ⟨0, 0, 1⟩ planarRawDv planarRawDv 0 ∧
    ¬ ShiftedColumn (leverArmAF Matrix3.identity) planarRawDv planarRawDv 0 := by
  refine ⟨by decide, by decide, ⟨_, _, rfl, rfl, by decide, by decide⟩, ?_⟩
  rintro ⟨m, o, hm, ho, hl, -⟩
  have hm1 : m = ⟨⟨0, 1, 0⟩, ⟨0, 0, 1⟩⟩ := by
    have e : planarRawDv[0]? = some ⟨⟨0, 1, 0⟩, ⟨0, 0, 1⟩⟩ := rfl
    exact (Option.some.inj (e.symm.trans hm)).symm
  have ho1 : o = ⟨⟨0, 1, 0⟩, ⟨0, 0, 1⟩⟩ := by
    have e : planarRawDv[0]? = some ⟨⟨0, 1, 0⟩, ⟨0, 0, 1⟩⟩ := rfl
    exact (Option.some.inj (e.symm.trans ho)).symm
  subst hm1 ho1
  revert hl
  decide

/-- C11: termination of the ancestor walk. With a strictly decreasing
`parents_fromRow` and a start column `colRef` below the length of the table,
the loop of both transformers ends within `colRef + 1` iterations, whatever
its body (hence within `nv`, the length of the table), the chain has at most
`colRef + 1` columns, and a negative `colRef` needs no iteration at all. With
raw matrices that contain column `colRef`, both transformers return when
allowed `colRef + 1` iterations, for every convention. -/
theorem ancestor_walk_terminates
    (jv : JointVelocityAlgorithm α) (ja : JointAccelerationAlgorithm α)
    (check : Model → Data α → Bool)
    (model : Model) (data : Data α) (joint_id : Nat) (placement : SE3 α) (rf : ReferenceFrame)
    (joint : JointModel) (oMi : SE3 α)
    (hjoint : model.joints[joint_id]? = some joint)
    (hoMi : data.oMi[joint_id]? = some oMi)
    (hd : Descending data.parents_fromRow)
    (hparents : joint.nv + joint.idx_v - 1 < (data.parents_fromRow.length : Int)) :
    (∀ (σ : Type) (body : Nat → σ → Option σ) (s : σ),
      forAncestors data.parents_fromRow body (joint.nv + joint.idx_v - 1 + 1).toNat
        (joint.nv + joint.idx_v - 1) s ≠ .outOfFuel) ∧
    (∀ (σ : Type) (body : Nat → σ → Option σ) (s : σ),
      joint.nv + joint.idx_v - 1 < 0 →
      forAncestors data.parents_fromRow body 0 (joint.nv + joint.idx_v - 1) s = .returned s) ∧
    (joint.nv + joint.idx_v - 1 + 1).toNat ≤ data.parents_fromRow.length ∧
    (∀ fuel : Nat,
      (ancestorChain data.parents_fromRow fuel (joint.nv + joint.idx_v - 1)).length
        ≤ (joint.nv + joint.idx_v - 1 + 1).toNat) ∧
    (∀ (dq dv rq rv : Matrix6x α),
      jv model data joint_id rf (dq, dv) = .returned (rq, rv) →
      joint.nv + joint.idx_v - 1 < (rq.length : Int) →
      joint.nv + joint.idx_v - 1 < (rv.length : Int) →
      ∃ oq ov,
        getFrameVelocityDerivatives jv (joint.nv + joint.idx_v - 1 + 1).toNat model data
          joint_id placement rf dq dv = .returned (oq, ov)) ∧
    (∀ (b1 b2 b3 b4 r1 r2 r3 r4 : Matrix6x α),
      b1.cols = model.nv → b2.cols = model.nv → b3.cols = model.nv → b4.cols = model.nv →
      check model data = true →
      ja model data joint_id rf (b1, b2, b3, b4) = .returned (r1, r2, r3, r4) →
      joint.nv + joint.idx_v - 1 < (r1.length : Int) →
      joint.nv + joint.idx_v - 1 < (r2.length : Int) →
      joint.nv + joint.idx_v - 1 < (r3.length : Int) →
      joint.nv + joint.idx_v - 1 < (r4.length : Int) →
      ∃ o1 o2 o3 o4,
        getFrameAccelerationDerivatives ja check (joint.nv + joint.idx_v - 1 + 1).toNat
          model data joint_id placement rf b1 b2 b3 b4 = .returned (o1, o2, o3, o4)) := by
  have hfuel : joint.nv + joint.idx_v - 1
      < (((joint.nv + joint.idx_v - 1 + 1).toNat : Nat) : Int) := by omega
  refine ⟨?_, ?_, by omega, ?_, ?_, ?_⟩
  · intro σ body s
    exact forAncestors_ne_outOfFuel hd body _ _ s hfuel
  · intro σ body s hneg
    exact forAncestors_neg _ body 0 _ s hneg
  · intro fuel
    exact ancestorChain_length_le hd fuel _
  · intro dq dv rq rv hj hrq hrv
    exact ⟨_, _, getFrameVelocityDerivatives_returned jv _ model data joint_id placement
      rf dq dv rq rv joint oMi hj hjoint hoMi hd hfuel hparents hrq hrv⟩
  · intro b1 b2 b3 b4 r1 r2 r3 r4 h1 h2 h3 h4 hcheck hj hr1 hr2 hr3 hr4
    exact ⟨_, _, _, _, getFrameAccelerationDerivatives_returned ja check _ model data
      joint_id placement rf b1 b2 b3 b4 r1 r2 r3 r4 joint oMi h1 h2 h3 h4 hcheck hj hjoint
      hoMi hd hfuel hparents hr1 hr2 hr3 hr4⟩

/-- Witness for C11 on the sample chain, target joint `B` (`colRef = 1`): two
iterations are enough for both transformers, and one is not. -/
theorem ancestor_walk_terminates_witness :
    (∃ oq ov,
      getFrameVelocityDerivatives (fillVelocity (sampleRaw 1) (sampleRaw 4)) 2
        sampleModel sampleData 2 samplePlacement .LOCAL (sampleRaw 0) (sampleRaw 0)
        = .returned (oq, ov)) ∧
    (∃ o1 o2 o3 o4,
      getFrameAccelerationDerivatives
        (fillAcceleration (sampleRaw 1) (sampleRaw 4) (sampleRaw 7) (sampleRaw 10)) noCheck 2
        sampleModel sampleData 2 samplePlacement .LOCAL
        (sampleRaw 0) (sampleRaw 0) (sampleRaw 0) (sampleRaw 0)
        = .returned (o1, o2, o3, o4)) ∧
    getFrameVelocityDerivatives (fillVelocity (sampleRaw 1) (sampleRaw 4)) 1
        sampleModel sampleData 2 samplePlacement .LOCAL (sampleRaw 0) (sampleRaw 0)
      = .outOfFuel :=
  ⟨(ancestor_walk_terminates (fillVelocity (sampleRaw 1) (sampleRaw 4))
      (fillAcceleration (sampleRaw 1) (sampleRaw 4) (sampleRaw 7) (sampleRaw 10)) noCheck
      sampleModel sampleData 2 samplePlacement .LOCAL ⟨1, 1⟩ ⟨quarterTurnX, ⟨1, 0, 0⟩⟩
      rfl rfl (by decide) (by decide)).2.2.2.2.1
      (sampleRaw 0) (sampleRaw 0) _ _ rfl (by decide) (by decide),
   (ancestor_walk_terminates (fillVelocity (sampleRaw 1) (sampleRaw 4))
      (fillAcceleration (sampleRaw 1) (sampleRaw 4) (sampleRaw 7) (sampleRaw 10)) noCheck
      sampleModel sampleData 2 samplePlacement .LOCAL ⟨1, 1⟩ ⟨quarterTurnX, ⟨1, 0, 0⟩⟩
      rfl rfl (by decide) (by decide)).2.2.2.2.2
      (sampleRaw 0) (sampleRaw 0) (sampleRaw 0) (sampleRaw 0) _ _ _ _
      rfl rfl rfl rfl rfl rfl (by decide) (by decide) (by decide) (by decide),
   by decide⟩

/-- C12: the columns visited by the correction loop. With a strictly
decreasing `parents_fromRow`, whenever the loop returns, the log of the
columns its body was run on is exactly `colRef, parents_fromRow[colRef], ...`
up to, and excluding, the first negative value; the log is strictly
decreasing, so no column occurs twice. With the start column inside the table
and the matrices and enough iterations, each of the four loops of the two
transformers returns, having applied its correction once to every logged
column and to no other. -/
theorem visited_columns_follow_the_table
    (parents_fromRow : List Int) (hd : Descending parents_fromRow) (fuel : Nat) (colRef : Int) :
    (∀ (σ : Type) (body : Nat → σ → Option σ) (s s1 : σ) (log : List Nat),
      forAncestors parents_fromRow (parBody body recordVisit) fuel colRef (s, [])
        = .returned (s1, log) →
      IsAncestorSequence parents_fromRow colRef log ∧
        log = ancestorChain parents_fromRow fuel colRef ∧
        List.Pairwise (fun a b => b < a) log ∧ log.Nodup) ∧
    (colRef < (fuel : Int) → colRef < (parents_fromRow.length : Int) →
      ∀ (trans : Vector3 α) (placement : SE3 α) (r1 r2 r3 r4 : Matrix6x α),
        colRef < (r1.length : Int) → colRef < (r2.length : Int) →
        colRef < (r3.length : Int) → colRef < (r4.length : Int) →
        forAncestors parents_fromRow (parBody (velocityBodyLWA trans) recordVisit) fuel colRef
            ((r1, r2), [])
          = .returned
              ((correctColumns (shiftLinear trans) (ancestorChain parents_fromRow fuel colRef) r1,
                correctColumns (shiftLinear trans) (ancestorChain parents_fromRow fuel colRef) r2),
               ancestorChain parents_fromRow fuel colRef) ∧
        forAncestors parents_fromRow (parBody (velocityBodyLOCAL placement) recordVisit) fuel
            colRef ((r1, r2), [])
          = .returned
              ((correctColumns placement.actInv (ancestorChain parents_fromRow fuel colRef) r1,
                correctColumns placement.actInv (ancestorChain parents_fromRow fuel colRef) r2),
               ancestorChain parents_fromRow fuel colRef) ∧
        forAncestors parents_fromRow (parBody (accelerationBodyLWA trans) recordVisit) fuel
            colRef ((r1, r2, r3, r4), [])
          = .returned
              ((correctColumns (shiftLinear trans) (ancestorChain parents_fromRow fuel colRef) r1,
                correctColumns (shiftLinear trans) (ancestorChain parents_fromRow fuel colRef) r2,
                correctColumns (shiftLinear trans) (ancestorChain parents_fromRow fuel colRef) r3,
                correctColumns (shiftLinear trans) (ancestorChain parents_fromRow fuel colRef) r4),
               ancestorChain parents_fromRow fuel colRef) ∧
        forAncestors parents_fromRow (parBody (accelerationBodyLOCAL placement) recordVisit)
            fuel colRef ((r1, r2, r3, r4), [])
          = .returned
              ((correctColumns placement.actInv (ancestorChain parents_fromRow fuel colRef) r1,
                correctColumns placement.actInv (ancestorChain parents_fromRow fuel colRef) r2,
                correctColumns placement.actInv (ancestorChain parents_fromRow fuel colRef) r3,
                correctColumns placement.actInv (ancestorChain parents_fromRow fuel colRef) r4),
               ancestorChain parents_fromRow fuel colRef)) := by
  constructor
  · intro σ body s s1 log h
    obtain ⟨_, hlog⟩ := (forAncestors_parBody _ _ _ _ _ _ _ _ _).mp h
    obtain ⟨e, hseq⟩ := forAncestors_recordVisit _ _ _ _ _ hlog
    have e1 : log = ancestorChain parents_fromRow fuel colRef := by simpa using e
    rw [e1]
    exact ⟨hseq, rfl, ancestorChain_pairwise hd fuel colRef,
      nodup_of_pairwise_gt (ancestorChain_pairwise hd fuel colRef)⟩
  · intro hfuel hparents trans placement r1 r2 r3 r4 h1 h2 h3 h4
    have hlog := forAncestors_recordVisit_returned hd fuel colRef [] hfuel hparents
    simp only [List.nil_append] at hlog
    refine ⟨?_, ?_, ?_, ?_⟩
    · rw [forAncestors_parBody, velocityBodyLWA_eq]
      exact ⟨forAncestors_two_returned _ hd fuel colRef r1 r2 hfuel hparents h1 h2, hlog⟩
    · rw [forAncestors_parBody, velocityBodyLOCAL_eq]
      exact ⟨forAncestors_two_returned _ hd fuel colRef r1 r2 hfuel hparents h1 h2, hlog⟩
    · rw [forAncestors_parBody, accelerationBodyLWA_eq]
      exact ⟨forAncestors_four_returned _ hd fuel colRef r1 r2 r3 r4 hfuel hparents
        h1 h2 h3 h4, hlog⟩
    · rw [forAncestors_parBody, accelerationBodyLOCAL_eq]
      exact ⟨forAncestors_four_returned _ hd fuel colRef r1 r2 r3 r4 hfuel hparents
        h1 h2 h3 h4, hlog⟩

/-- Witness for C12 on the table `[-1, 0, 1]` of the sample chain, from
column 2: the `LOCAL` loop of the velocity transformer logs `2, 1, 0`. -/
theorem visited_columns_follow_the_table_witness :
    forAncestors sampleData.parents_fromRow
        (parBody (velocityBodyLOCAL samplePlacement) recordVisit) 3 2
        ((sampleRaw 1, sampleRaw 4), [])
      = .returned
          ((correctColumns samplePlacement.actInv [2, 1, 0] (sampleRaw 1),
            correctColumns samplePlacement.actInv [2, 1, 0] (sampleRaw 4)), [2, 1, 0]) ∧
    IsAncestorSequence sampleData.parents_fromRow 2 [2, 1, 0] ∧
    List.Pairwise (fun a b => b < a) [2, 1, 0] :=
  have T := visited_columns_follow_the_table (α := Int) sampleData.parents_fromRow
    (by decide) 3 2
  have h := (T.2 (by decide) (by decide) ⟨0, 0, 0⟩ samplePlacement
    (sampleRaw 1) (sampleRaw 4) (sampleRaw 1) (sampleRaw 4)
    (by decide) (by decide) (by decide) (by decide)).2.1
  ⟨h, (T.1 _ _ _ _ _ h).1, (T.1 _ _ _ _ _ h).2.2.1⟩

/-- C13: the start column of the walk. After the joint algorithm has
returned, both transformers start their loop, in the `LOCAL_WORLD_ALIGNED` and
in the `LOCAL` case alike, at `colRef = idx_v(joint) + nv(joint) - 1`; for a
joint with `nv(joint) ≥ 1` this column is owned by the joint and is the
largest of the range `[idx_v(joint), idx_v(joint) + nv(joint))`. -/
theorem colRef_is_last_owned_column
    (jv : JointVelocityAlgorithm α) (ja : JointAccelerationAlgorithm α)
    (check : Model → Data α → Bool) (fuel : Nat)
    (model : Model) (data : Data α) (joint_id : Nat) (placement : SE3 α)
    (joint : JointModel) (oMi : SE3 α)
    (hjoint : model.joints[joint_id]? = some joint)
    (hoMi : data.oMi[joint_id]? = some oMi) :
    (∀ (dq dv rq rv : Matrix6x α),
      jv model data joint_id .LOCAL_WORLD_ALIGNED (dq, dv) = .returned (rq, rv) →
      getFrameVelocityDerivatives jv fuel model data joint_id placement
          .LOCAL_WORLD_ALIGNED dq dv
        = forAncestors data.parents_fromRow
            (velocityBodyLWA (oMi.rotation.mulVec placement.translation)) fuel
            (joint.idx_v + joint.nv - 1) (rq, rv)) ∧
    (∀ (dq dv rq rv : Matrix6x α),
      jv model data joint_id .LOCAL (dq, dv) = .returned (rq, rv) →
      getFrameVelocityDerivatives jv fuel model data joint_id placement .LOCAL dq dv
        = forAncestors data.parents_fromRow (velocityBodyLOCAL placement) fuel
            (joint.idx_v + joint.nv - 1) (rq, rv)) ∧
    (∀ (b1 b2 b3 b4 r1 r2 r3 r4 : Matrix6x α),
      b1.cols = model.nv → b2.cols = model.nv → b3.cols = model.nv → b4.cols = model.nv →
      check model data = true →
      ja model data joint_id .LOCAL_WORLD_ALIGNED (b1, b2, b3, b4)
        = .returned (r1, r2, r3, r4) →
      getFrameAccelerationDerivatives ja check fuel model data joint_id placement
          .LOCAL_WORLD_ALIGNED b1 b2 b3 b4
        = forAncestors data.parents_fromRow
            (accelerationBodyLWA (oMi.rotation.mulVec placement.translation)) fuel
            (joint.idx_v + joint.nv - 1) (r1, r2, r3, r4)) ∧
    (∀ (b1 b2 b3 b4 r1 r2 r3 r4 : Matrix6x α),
      b1.cols = model.nv → b2.cols = model.nv → b3.cols = model.nv → b4.cols = model.nv →
      check model data = true →
      ja model data joint_id .LOCAL (b1, b2, b3, b4) = .returned (r1, r2, r3, r4) →
      getFrameAccelerationDerivatives ja check fuel model data joint_id placement .LOCAL
          b1 b2 b3 b4
        = forAncestors data.parents_fromRow (accelerationBodyLOCAL placement) fuel
            (joint.idx_v + joint.nv - 1) (r1, r2, r3, r4)) ∧
    (1 ≤ joint.nv →
      OwnsColumn joint (joint.idx_v + joint.nv - 1) ∧
      ∀ c : Int, OwnsColumn joint c → c ≤ joint.idx_v + joint.nv - 1) := by
  have hcol : joint.nv + joint.idx_v - 1 = joint.idx_v + joint.nv - 1 := by omega
  refine ⟨?_, ?_, ?_, ?_, ?_⟩
  · intro dq dv rq rv hj
    rw [getFrameVelocityDerivatives_eq jv fuel model data joint_id placement _ dq dv rq rv
      joint oMi hj hjoint hoMi, velocityBodyLWA_eq, hcol]
  · intro dq dv rq rv hj
    rw [getFrameVelocityDerivatives_eq jv fuel model data joint_id placement _ dq dv rq rv
      joint oMi hj hjoint hoMi, velocityBodyLOCAL_eq, hcol]
  · intro b1 b2 b3 b4 r1 r2 r3 r4 h1 h2 h3 h4 hcheck hj
    rw [getFrameAccelerationDerivatives_eq ja check fuel model data joint_id placement _
      b1 b2 b3 b4 r1 r2 r3 r4 joint h1 h2 h3 h4 hcheck hj hjoint, accelerationBodyLWA_eq, hcol]
    simp only [hoMi]
  · intro b1 b2 b3 b4 r1 r2 r3 r4 h1 h2 h3 h4 hcheck hj
    rw [getFrameAccelerationDerivatives_eq ja check fuel model data joint_id placement _
      b1 b2 b3 b4 r1 r2 r3 r4 joint h1 h2 h3 h4 hcheck hj hjoint, accelerationBodyLOCAL_eq, hcol]
  · intro hnv
    refine ⟨⟨by omega, by omega⟩, ?_⟩
    intro c hc
    have := hc.2
    omega

/-- Witness for C13 on a joint with three columns starting at column 4: its
last column is `4 + 3 - 1 = 6`, which is where both walks start. -/
theorem colRef_is_last_owned_column_witness :
    OwnsColumn ⟨3, 4⟩ 6 ∧ (∀ c : Int, OwnsColumn ⟨3, 4⟩ c → c ≤ 6) ∧
    getFrameVelocityDerivatives
        (fillVelocity (List.replicate 7 (sampleColumn 1)) (List.replicate 7 (sampleColumn 4))) 7
        ⟨7, [⟨0, 0⟩, ⟨3, 4⟩]⟩ (⟨[SE3.identity, SE3.identity], [-1, 0, 1, 2, 3, 4, 5]⟩ : Data Int)
        1 samplePlacement .LOCAL [] []
      = forAncestors [-1, 0, 1, 2, 3, 4, 5] (velocityBodyLOCAL samplePlacement) 7 6
          (List.replicate 7 (sampleColumn 1), List.replicate 7 (sampleColumn 4)) :=
  have T := colRef_is_last_owned_column
    (fillVelocity (List.replicate 7 (sampleColumn 1)) (List.replicate 7 (sampleColumn 4)))
    (fillAcceleration (sampleRaw 1) (sampleRaw 4) (sampleRaw 7) (sampleRaw 10)) noCheck 7
    ⟨7, [⟨0, 0⟩, ⟨3, 4⟩]⟩ (⟨[SE3.identity, SE3.identity], [-1, 0, 1, 2, 3, 4, 5]⟩ : Data Int)
    1 samplePlacement ⟨3, 4⟩ SE3.identity rfl rfl
  ⟨(T.2.2.2.2 (by decide)).1, (T.2.2.2.2 (by decide)).2, T.2.1 [] [] _ _ rfl⟩

/-- C14: the correction is applied identically and independently to every
matrix. For each convention, a transformer returns given outputs exactly when
one and the same single-matrix pass, which depends only on the convention,
the placement, the rotation of `oMi[joint_id]`, the table and `colRef`,
returns each output from that matrix's own raw values; and with a strictly
decreasing table, `colRef` inside the table and the matrix, and enough
iterations, that pass returns the raw matrix with the column correction
applied on the chain, whatever the translation of `oMi[joint_id]`. -/
theorem outputs_are_single_matrix_passes
    (jv : JointVelocityAlgorithm α) (ja : JointAccelerationAlgorithm α)
    (check : Model → Data α → Bool) (fuel : Nat)
    (model : Model) (data : Data α) (joint_id : Nat) (placement : SE3 α) (rf : ReferenceFrame)
    (joint : JointModel) (oMi : SE3 α)
    (hjoint : model.joints[joint_id]? = some joint)
    (hoMi : data.oMi[joint_id]? = some oMi) :
    (∀ (dq dv rq rv oq ov : Matrix6x α),
      jv model data joint_id rf (dq, dv) = .returned (rq, rv) →
      (getFrameVelocityDerivatives jv fuel model data joint_id placement rf dq dv
          = .returned (oq, ov) ↔
        singleMatrixPass rf placement oMi.rotation data.parents_fromRow fuel
            (joint.nv + joint.idx_v - 1) rq = .returned oq ∧
        singleMatrixPass rf placement oMi.rotation data.parents_fromRow fuel
            (joint.nv + joint.idx_v - 1) rv = .returned ov)) ∧
    (∀ (b1 b2 b3 b4 r1 r2 r3 r4 o1 o2 o3 o4 : Matrix6x α),
      b1.cols = model.nv → b2.cols = model.nv → b3.cols = model.nv → b4.cols = model.nv →
      check model data = true →
      ja model data joint_id rf (b1, b2, b3, b4) = .returned (r1, r2, r3, r4) →
      (getFrameAccelerationDerivatives ja check fuel model data joint_id placement rf
          b1 b2 b3 b4 = .returned (o1, o2, o3, o4) ↔
        singleMatrixPass rf placement oMi.rotation data.parents_fromRow fuel
            (joint.nv + joint.idx_v - 1) r1 = .returned o1 ∧
        singleMatrixPass rf placement oMi.rotation data.parents_fromRow fuel
            (joint.nv + joint.idx_v - 1) r2 = .returned o2 ∧
        singleMatrixPass rf placement oMi.rotation data.parents_fromRow fuel
            (joint.nv + joint.idx_v - 1) r3 = .returned o3 ∧
        singleMatrixPass rf placement oMi.rotation data.parents_fromRow fuel
            (joint.nv + joint.idx_v - 1) r4 = .returned o4)) ∧
    (Descending data.parents_fromRow →
      joint.nv + joint.idx_v - 1 < (fuel : Int) →
      joint.nv + joint.idx_v - 1 < (data.parents_fromRow.length : Int) →
      ∀ (raw : Matrix6x α) (anyTranslation : Vector3 α),
        joint.nv + joint.idx_v - 1 < (raw.length : Int) →
        singleMatrixPass rf placement oMi.rotation data.parents_fromRow fuel
            (joint.nv + joint.idx_v - 1) raw
          = .returned (correctionPass rf placement ⟨oMi.rotation, anyTranslation⟩
              data.parents_fromRow fuel (joint.nv + joint.idx_v - 1) raw)) := by
  refine ⟨?_, ?_, ?_⟩
  · intro dq dv rq rv oq ov hj
    rw [getFrameVelocityDerivatives_eq jv fuel model data joint_id placement rf dq dv rq rv
      joint oMi hj hjoint hoMi]
    cases rf with
    | WORLD => simp [singleMatrixPass]
    | other raw => simp [singleMatrixPass]
    | LOCAL_WORLD_ALIGNED => exact forAncestors_two _ _ _ _ _ _ _ _
    | LOCAL => exact forAncestors_two _ _ _ _ _ _ _ _
  · intro b1 b2 b3 b4 r1 r2 r3 r4 o1 o2 o3 o4 h1 h2 h3 h4 hcheck hj
    rw [getFrameAccelerationDerivatives_eq ja check fuel model data joint_id placement rf
      b1 b2 b3 b4 r1 r2 r3 r4 joint h1 h2 h3 h4 hcheck hj hjoint]
    cases rf with
    | WORLD => simp [singleMatrixPass]
    | other raw => simp [singleMatrixPass]
    | LOCAL_WORLD_ALIGNED =>
      simp only [hoMi]
      exact forAncestors_four _ _ _ _ _ _ _ _ _ _ _ _
    | LOCAL => exact forAncestors_four _ _ _ _ _ _ _ _ _ _ _ _
  · intro hd hfuel hparents raw t hraw
    cases rf with
    | WORLD => simp [singleMatrixPass, correctionPass, columnCorrection, correctColumns_id]
    | other raw => simp [singleMatrixPass, correctionPass, columnCorrection, correctColumns_id]
    | LOCAL_WORLD_ALIGNED =>
      exact forAncestors_columnBody _ hd fuel _ raw hfuel hraw hparents
    | LOCAL =>
      exact forAncestors_columnBody _ hd fuel _ raw hfuel hraw hparents

/-- Witness for C14 on the sample chain in the `LOCAL_WORLD_ALIGNED`
convention: the output for the raw matrix `sampleRaw 1` is the same in the
velocity transformer, next to `sampleRaw 4`, and in the single-matrix pass. -/
theorem outputs_are_single_matrix_passes_witness :
    singleMatrixPass .LOCAL_WORLD_ALIGNED samplePlacement quarterTurnX
        sampleData.parents_fromRow 2 1 (sampleRaw 1)
      = .returned [⟨⟨3, 2, 2⟩, ⟨1, 1, 2⟩⟩, ⟨⟨4, 2, 2⟩, ⟨1, 2, 2⟩⟩, sampleColumn 3] ∧
    singleMatrixPass .LOCAL_WORLD_ALIGNED samplePlacement quarterTurnX
        sampleData.parents_fromRow 2 1 (sampleRaw 4)
      = .returned [⟨⟨6, 2, 2⟩, ⟨1, 4, 2⟩⟩, ⟨⟨7, 2, 2⟩, ⟨1, 5, 2⟩⟩, sampleColumn 6] :=
  ((outputs_are_single_matrix_passes (fillVelocity (sampleRaw 1) (sampleRaw 4))
    (fillAcceleration (sampleRaw 1) (sampleRaw 4) (sampleRaw 7) (sampleRaw 10)) noCheck 2
    sampleModel sampleData 2 samplePlacement .LOCAL_WORLD_ALIGNED ⟨1, 1⟩
    ⟨quarterTurnX, ⟨1, 0, 0⟩⟩ rfl rfl).1 (sampleRaw 0) (sampleRaw 0) _ _ _ _ rfl).mp (by decide)

/-- C15: index safety of the walk. When `parents_fromRow` has length `nv`
and is strictly decreasing and `colRef < nv`, every column the loop body is
run on is below `nv`, for any number of iterations; and when the raw matrices
have `nv` columns too, neither transformer ever indexes outside a matrix or
outside the table, for any number of iterations and every convention. -/
theorem walk_indices_in_range
    (jv : JointVelocityAlgorithm α) (ja : JointAccelerationAlgorithm α)
    (check : Model → Data α → Bool) (fuel : Nat)
    (model : Model) (data : Data α) (joint_id : Nat) (placement : SE3 α) (rf : ReferenceFrame)
    (joint : JointModel) (oMi : SE3 α) (nv : Nat)
    (hjoint : model.joints[joint_id]? = some joint)
    (hoMi : data.oMi[joint_id]? = some oMi)
    (hd : Descending data.parents_fromRow)
    (hlen : data.parents_fromRow.length = nv)
    (hcol : joint.nv + joint.idx_v - 1 < (nv : Int)) :
    (∀ c ∈ ancestorChain data.parents_fromRow fuel (joint.nv + joint.idx_v - 1),
      c < nv ∧ ∃ parent, data.parents_fromRow[c]? = some parent) ∧
    (∀ (σ : Type) (body : Nat → σ → Option σ) (s s1 : σ) (log : List Nat),
      forAncestors data.parents_fromRow (parBody body recordVisit) fuel
          (joint.nv + joint.idx_v - 1) (s, []) = .returned (s1, log) →
      ∀ c ∈ log, c < nv) ∧
    (∀ (dq dv rq rv : Matrix6x α),
      jv model data joint_id rf (dq, dv) = .returned (rq, rv) →
      rq.length = nv → rv.length = nv →
      getFrameVelocityDerivatives jv fuel model data joint_id placement rf dq dv
        ≠ .outOfRange) ∧
    (∀ (b1 b2 b3 b4 r1 r2 r3 r4 : Matrix6x α),
      b1.cols = model.nv → b2.cols = model.nv → b3.cols = model.nv → b4.cols = model.nv →
      check model data = true →
      ja model data joint_id rf (b1, b2, b3, b4) = .returned (r1, r2, r3, r4) →
      r1.length = nv → r2.length = nv → r3.length = nv → r4.length = nv →
      getFrameAccelerationDerivatives ja check fuel model data joint_id placement rf
        b1 b2 b3 b4 ≠ .outOfRange) := by
  have hP : joint.nv + joint.idx_v - 1 < (data.parents_fromRow.length : Int) := by
    rw [hlen]; exact hcol
  refine ⟨?_, ?_, ?_, ?_⟩
  · intro c hc
    have hlt := ancestorChain_lt hd fuel _ nv hcol hc
    exact ⟨hlt, data.parents_fromRow[c], List.getElem?_eq_getElem (by omega)⟩
  · intro σ body s s1 log h c hc
    obtain ⟨_, hlog⟩ := (forAncestors_parBody _ _ _ _ _ _ _ _ _).mp h
    obtain ⟨e, _⟩ := forAncestors_recordVisit _ _ _ _ _ hlog
    have e1 : log = ancestorChain data.parents_fromRow fuel (joint.nv + joint.idx_v - 1) := by
      simpa using e
    rw [e1] at hc
    exact ancestorChain_lt hd fuel _ nv hcol hc
  · intro dq dv rq rv hj hrq hrv
    rw [getFrameVelocityDerivatives_eq jv fuel model data joint_id placement rf dq dv rq rv
      joint oMi hj hjoint hoMi]
    cases rf with
    | WORLD => simp
    | other raw => simp
    | LOCAL_WORLD_ALIGNED =>
      exact forAncestors_parBody_inRange _ _ _ _ _ _ _
        (forAncestors_columnBody_inRange _ hd fuel _ rq (by omega) hP)
        (forAncestors_columnBody_inRange _ hd fuel _ rv (by omega) hP)
    | LOCAL =>
      exact forAncestors_parBody_inRange _ _ _ _ _ _ _
        (forAncestors_columnBody_inRange _ hd fuel _ rq (by omega) hP)
        (forAncestors_columnBody_inRange _ hd fuel _ rv (by omega) hP)
  · intro b1 b2 b3 b4 r1 r2 r3 r4 h1 h2 h3 h4 hcheck hj hr1 hr2 hr3 hr4
    rw [getFrameAccelerationDerivatives_eq ja check fuel model data joint_id placement rf
      b1 b2 b3 b4 r1 r2 r3 r4 joint h1 h2 h3 h4 hcheck hj hjoint]
    cases rf with
    | WORLD => simp
    | other raw => simp
    | LOCAL_WORLD_ALIGNED =>
      simp only [hoMi]
      exact forAncestors_parBody_inRange _ _ _ _ _ _ _
        (forAncestors_columnBody_inRange _ hd fuel _ r1 (by omega) hP)
        (forAncestors_parBody_inRange _ _ _ _ _ _ _
          (forAncestors_columnBody_inRange _ hd fuel _ r2 (by omega) hP)
          (forAncestors_parBody_inRange _ _ _ _ _ _ _
            (forAncestors_columnBody_inRange _ hd fuel _ r3 (by omega) hP)
            (forAncestors_columnBody_inRange _ hd fuel _ r4 (by omega) hP)))
    | LOCAL =>
      exact forAncestors_parBody_inRange _ _ _ _ _ _ _
        (forAncestors_columnBody_inRange _ hd fuel _ r1 (by omega) hP)
        (forAncestors_parBody_inRange _ _ _ _ _ _ _
          (forAncestors_columnBody_inRange _ hd fuel _ r2 (by omega) hP)
          (forAncestors_parBody_inRange _ _ _ _ _ _ _
            (forAncestors_columnBody_inRange _ hd fuel _ r3 (by omega) hP)
            (forAncestors_columnBody_inRange _ hd fuel _ r4 (by omega) hP)))

/-- Witness for C15 on the sample chain with `nv = 3`, target joint `C`
(`colRef = 2`), with one iteration allowed: the call is cut short, and not
because of an index. -/
theorem walk_indices_in_range_witness :
    (∀ c ∈ ancestorChain sampleData.parents_fromRow 1 2,
      c < 3 ∧ ∃ parent, sampleData.parents_fromRow[c]? = some parent) ∧
    getFrameVelocityDerivatives (fillVelocity (sampleRaw 1) (sampleRaw 4)) 1
        sampleModel sampleData 3 samplePlacement .LOCAL (sampleRaw 0) (sampleRaw 0)
      ≠ .outOfRange ∧
    getFrameAccelerationDerivatives
        (fillAcceleration (sampleRaw 1) (sampleRaw 4) (sampleRaw 7) (sampleRaw 10)) noCheck 1
        sampleModel sampleData 3 samplePlacement .LOCAL
        (sampleRaw 0) (sampleRaw 0) (sampleRaw 0) (sampleRaw 0)
      ≠ .outOfRange :=
  have T := walk_indices_in_range (fillVelocity (sampleRaw 1) (sampleRaw 4))
    (fillAcceleration (sampleRaw 1) (sampleRaw 4) (sampleRaw 7) (sampleRaw 10)) noCheck 1
    sampleModel sampleData 3 samplePlacement .LOCAL ⟨1, 2⟩ ⟨Matrix3.identity, ⟨1, 1, 0⟩⟩ 3
    rfl rfl (by decide) rfl (by decide)
  ⟨T.1, T.2.2.1 (sampleRaw 0) (sampleRaw 0) _ _ rfl rfl rfl,
    T.2.2.2 (sampleRaw 0) (sampleRaw 0) (sampleRaw 0) (sampleRaw 0) _ _ _ _
      rfl rfl rfl rfl rfl rfl rfl rfl rfl rfl⟩

/-- C16: the `LOCAL_WORLD_ALIGNED` correction is the `LOCAL` correction with
the placement (identity rotation, translation `R_o * p`), where `R_o` is the
rotation of `oMi[joint_id]` and `p` the translation of the frame placement:
on the same raw matrices the two calls of a transformer end the same way with
the same outputs. In particular the two conventions coincide when the
placement rotation and `R_o` are the identity, and `LOCAL_WORLD_ALIGNED` with
`p = 0` returns the raw matrices unchanged. -/
theorem local_world_aligned_is_local_with_world_offset
    (jv : JointVelocityAlgorithm α) (ja : JointAccelerationAlgorithm α)
    (check : Model → Data α → Bool) (fuel : Nat)
    (model : Model) (data : Data α) (joint_id : Nat) (placement : SE3 α)
    (joint : JointModel) (oMi : SE3 α)
    (hjoint : model.joints[joint_id]? = some joint)
    (hoMi : data.oMi[joint_id]? = some oMi) :
    (∀ (dq dv rq rv : Matrix6x α),
      jv model data joint_id .LOCAL_WORLD_ALIGNED (dq, dv) = .returned (rq, rv) →
      jv model data joint_id .LOCAL (dq, dv) = .returned (rq, rv) →
      getFrameVelocityDerivatives jv fuel model data joint_id placement
          .LOCAL_WORLD_ALIGNED dq dv
        = getFrameVelocityDerivatives jv fuel model data joint_id
            ⟨Matrix3.identity, oMi.rotation.mulVec placement.translation⟩ .LOCAL dq dv) ∧
    (∀ (b1 b2 b3 b4 r1 r2 r3 r4 : Matrix6x α),
      b1.cols = model.nv → b2.cols = model.nv → b3.cols = model.nv → b4.cols = model.nv →
      check model data = true →
      ja model data joint_id .LOCAL_WORLD_ALIGNED (b1, b2, b3, b4)
        = .returned (r1, r2, r3, r4) →
      ja model data joint_id .LOCAL (b1, b2, b3, b4) = .returned (r1, r2, r3, r4) →
      getFrameAccelerationDerivatives ja check fuel model data joint_id placement
          .LOCAL_WORLD_ALIGNED b1 b2 b3 b4
        = getFrameAccelerationDerivatives ja check fuel model data joint_id
            ⟨Matrix3.identity, oMi.rotation.mulVec placement.translation⟩ .LOCAL
            b1 b2 b3 b4) ∧
    (placement.rotation = Matrix3.identity → oMi.rotation = Matrix3.identity →
      (∀ (dq dv rq rv : Matrix6x α),
        jv model data joint_id .LOCAL_WORLD_ALIGNED (dq, dv) = .returned (rq, rv) →
        jv model data joint_id .LOCAL (dq, dv) = .returned (rq, rv) →
        getFrameVelocityDerivatives jv fuel model data joint_id placement
            .LOCAL_WORLD_ALIGNED dq dv
          = getFrameVelocityDerivatives jv fuel model data joint_id placement .LOCAL dq dv) ∧
      (∀ (b1 b2 b3 b4 r1 r2 r3 r4 : Matrix6x α),
        b1.cols = model.nv → b2.cols = model.nv → b3.cols = model.nv → b4.cols = model.nv →
        check model data = true →
        ja model data joint_id .LOCAL_WORLD_ALIGNED (b1, b2, b3, b4)
          = .returned (r1, r2, r3, r4) →
        ja model data joint_id .LOCAL (b1, b2, b3, b4) = .returned (r1, r2, r3, r4) →
        getFrameAccelerationDerivatives ja check fuel model data joint_id placement
            .LOCAL_WORLD_ALIGNED b1 b2 b3 b4
          = getFrameAccelerationDerivatives ja check fuel model data joint_id placement
              .LOCAL b1 b2 b3 b4)) ∧
    (placement.translation = Vector3.zero →
      (∀ (dq dv rq rv oq ov : Matrix6x α),
        jv model data joint_id .LOCAL_WORLD_ALIGNED (dq, dv) = .returned (rq, rv) →
        getFrameVelocityDerivatives jv fuel model data joint_id placement
            .LOCAL_WORLD_ALIGNED dq dv = .returned (oq, ov) →
        oq = rq ∧ ov = rv) ∧
      (∀ (b1 b2 b3 b4 r1 r2 r3 r4 o1 o2 o3 o4 : Matrix6x α),
        ja model data joint_id .LOCAL_WORLD_ALIGNED (b1, b2, b3, b4)
          = .returned (r1, r2, r3, r4) →
        getFrameAccelerationDerivatives ja check fuel model data joint_id placement
            .LOCAL_WORLD_ALIGNED b1 b2 b3 b4 = .returned (o1, o2, o3, o4) →
        o1 = r1 ∧ o2 = r2 ∧ o3 = r3 ∧ o4 = r4) ∧
      (Descending data.parents_fromRow →
        joint.nv + joint.idx_v - 1 < (fuel : Int) →
        joint.nv + joint.idx_v - 1 < (data.parents_fromRow.length : Int) →
        (∀ (dq dv rq rv : Matrix6x α),
          jv model data joint_id .LOCAL_WORLD_ALIGNED (dq, dv) = .returned (rq, rv) →
          joint.nv + joint.idx_v - 1 < (rq.length : Int) →
          joint.nv + joint.idx_v - 1 < (rv.length : Int) →
          getFrameVelocityDerivatives jv fuel model data joint_id placement
            .LOCAL_WORLD_ALIGNED dq dv = .returned (rq, rv)) ∧
        (∀ (b1 b2 b3 b4 r1 r2 r3 r4 : Matrix6x α),
          b1.cols = model.nv → b2.cols = model.nv → b3.cols = model.nv →
          b4.cols = model.nv → check model data = true →
          ja model data joint_id .LOCAL_WORLD_ALIGNED (b1, b2, b3, b4)
            = .returned (r1, r2, r3, r4) →
          joint.nv + joint.idx_v - 1 < (r1.length : Int) →
          joint.nv + joint.idx_v - 1 < (r2.length : Int) →
          joint.nv + joint.idx_v - 1 < (r3.length : Int) →
          joint.nv + joint.idx_v - 1 < (r4.length : Int) →
          getFrameAccelerationDerivatives ja check fuel model data joint_id placement
            .LOCAL_WORLD_ALIGNED b1 b2 b3 b4 = .returned (r1, r2, r3, r4)))) := by
  have e : shiftLinear (oMi.rotation.mulVec placement.translation)
      = (⟨Matrix3.identity, oMi.rotation.mulVec placement.translation⟩ : SE3 α).actInv :=
    funext (shiftLinear_eq_actInv _)
  have hvel : ∀ (dq dv rq rv : Matrix6x α),
      jv model data joint_id .LOCAL_WORLD_ALIGNED (dq, dv) = .returned (rq, rv) →
      jv model data joint_id .LOCAL (dq, dv) = .returned (rq, rv) →
      getFrameVelocityDerivatives jv fuel model data joint_id placement
          .LOCAL_WORLD_ALIGNED dq dv
        = getFrameVelocityDerivatives jv fuel model data joint_id
            ⟨Matrix3.identity, oMi.rotation.mulVec placement.translation⟩ .LOCAL dq dv := by
    intro dq dv rq rv hj1 hj2
    rw [getFrameVelocityDerivatives_eq jv fuel model data joint_id placement _ dq dv rq rv
      joint oMi hj1 hjoint hoMi,
      getFrameVelocityDerivatives_eq jv fuel model data joint_id _ _ dq dv rq rv
      joint oMi hj2 hjoint hoMi]
    simp only [e]
  have hacc : ∀ (b1 b2 b3 b4 r1 r2 r3 r4 : Matrix6x α),
      b1.cols = model.nv → b2.cols = model.nv → b3.cols = model.nv → b4.cols = model.nv →
      check model data = true →
      ja model data joint_id .LOCAL_WORLD_ALIGNED (b1, b2, b3, b4)
        = .returned (r1, r2, r3, r4) →
      ja model data joint_id .LOCAL (b1, b2, b3, b4) = .returned (r1, r2, r3, r4) →
      getFrameAccelerationDerivatives ja check fuel model data joint_id placement
          .LOCAL_WORLD_ALIGNED b1 b2 b3 b4
        = getFrameAccelerationDerivatives ja check fuel model data joint_id
            ⟨Matrix3.identity, oMi.rotation.mulVec placement.translation⟩ .LOCAL
            b1 b2 b3 b4 := by
    intro b1 b2 b3 b4 r1 r2 r3 r4 h1 h2 h3 h4 hcheck hj1 hj2
    rw [getFrameAccelerationDerivatives_eq ja check fuel model data joint_id placement _
      b1 b2 b3 b4 r1 r2 r3 r4 joint h1 h2 h3 h4 hcheck hj1 hjoint,
      getFrameAccelerationDerivatives_eq ja check fuel model data joint_id _ _
      b1 b2 b3 b4 r1 r2 r3 r4 joint h1 h2 h3 h4 hcheck hj2 hjoint]
    simp only [hoMi, e]
  refine ⟨hvel, hacc, ?_, ?_⟩
  · intro hR hRo
    have hp : (⟨Matrix3.identity, oMi.rotation.mulVec placement.translation⟩ : SE3 α)
        = placement := by
      rw [hRo, mulVec_identity, ← hR]
    constructor
    · intro dq dv rq rv hj1 hj2
      have := hvel dq dv rq rv hj1 hj2
      rwa [hp] at this
    · intro b1 b2 b3 b4 r1 r2 r3 r4 h1 h2 h3 h4 hcheck hj1 hj2
      have := hacc b1 b2 b3 b4 r1 r2 r3 r4 h1 h2 h3 h4 hcheck hj1 hj2
      rwa [hp] at this
  · intro hzero
    have hid : ∀ m : Motion α,
        shiftLinear (oMi.rotation.mulVec placement.translation) m = m := by
      intro m
      rw [hzero]
      exact shiftLinear_mulVec_zero _ m
    have hcc : ∀ m : Motion α,
        columnCorrection .LOCAL_WORLD_ALIGNED placement oMi m = m := hid
    refine ⟨?_, ?_, ?_⟩
    · intro dq dv rq rv oq ov hj h
      rw [getFrameVelocityDerivatives_eq jv fuel model data joint_id _ _ dq dv rq rv
        joint oMi hj hjoint hoMi] at h
      obtain ⟨ha, hb⟩ := (forAncestors_two _ _ _ _ _ _ _ _).mp h
      exact ⟨forAncestors_columnBody_id _ hid _ _ _ _ _ ha,
        forAncestors_columnBody_id _ hid _ _ _ _ _ hb⟩
    · intro b1 b2 b3 b4 r1 r2 r3 r4 o1 o2 o3 o4 hj h
      obtain ⟨h1, h2, h3, h4, hcheck⟩ := getFrameAccelerationDerivatives_checks ja check fuel
        model data joint_id _ _ b1 b2 b3 b4 _ h
      rw [getFrameAccelerationDerivatives_eq ja check fuel model data joint_id _ _
        b1 b2 b3 b4 r1 r2 r3 r4 joint h1 h2 h3 h4 hcheck hj hjoint] at h
      simp only [hoMi] at h
      obtain ⟨ha, hb, hc, hd4⟩ := (forAncestors_four _ _ _ _ _ _ _ _ _ _ _ _).mp h
      exact ⟨forAncestors_columnBody_id _ hid _ _ _ _ _ ha,
        forAncestors_columnBody_id _ hid _ _ _ _ _ hb,
        forAncestors_columnBody_id _ hid _ _ _ _ _ hc,
        forAncestors_columnBody_id _ hid _ _ _ _ _ hd4⟩
    · intro hd hfuel hparents
      constructor
      · intro dq dv rq rv hj hrq hrv
        rw [getFrameVelocityDerivatives_returned jv fuel model data joint_id _
          _ dq dv rq rv joint oMi hj hjoint hoMi hd hfuel hparents hrq hrv]
        simp only [correctionPass, correctColumns_id _ hcc]
      · intro b1 b2 b3 b4 r1 r2 r3 r4 h1 h2 h3 h4 hcheck hj hr1 hr2 hr3 hr4
        rw [getFrameAccelerationDerivatives_returned ja check fuel model data
          joint_id _ _ b1 b2 b3 b4 r1 r2 r3 r4 joint oMi h1 h2 h3 h4 hcheck hj hjoint
          hoMi hd hfuel hparents hr1 hr2 hr3 hr4]
        simp only [correctionPass, correctColumns_id _ hcc]

/-- Witness for C16 on the sample chain, target joint `B`, where
`R_o * p = (0,-1,0)`: both calls return the same matrices. -/
theorem local_world_aligned_is_local_with_world_offset_witness :
    getFrameVelocityDerivatives (fillVelocity (sampleRaw 1) (sampleRaw 4)) 2
        sampleModel sampleData 2 samplePlacement .LOCAL_WORLD_ALIGNED (sampleRaw 0) (sampleRaw 0)
      = getFrameVelocityDerivatives (fillVelocity (sampleRaw 1) (sampleRaw 4)) 2
          sampleModel sampleData 2 ⟨Matrix3.identity, ⟨0, -1, 0⟩⟩ .LOCAL
          (sampleRaw 0) (sampleRaw 0) ∧
    getFrameVelocityDerivatives (fillVelocity (sampleRaw 1) (sampleRaw 4)) 2
        sampleModel sampleData 2 ⟨Matrix3.identity, ⟨0, -1, 0⟩⟩ .LOCAL
        (sampleRaw 0) (sampleRaw 0)
      = .returned
          ([⟨⟨3, 2, 2⟩, ⟨1, 1, 2⟩⟩, ⟨⟨4, 2, 2⟩, ⟨1, 2, 2⟩⟩, sampleColumn 3],
           [⟨⟨6, 2, 2⟩, ⟨1, 4, 2⟩⟩, ⟨⟨7, 2, 2⟩, ⟨1, 5, 2⟩⟩, sampleColumn 6]) :=
  ⟨(local_world_aligned_is_local_with_world_offset
      (fillVelocity (sampleRaw 1) (sampleRaw 4))
      (fillAcceleration (sampleRaw 1) (sampleRaw 4) (sampleRaw 7) (sampleRaw 10)) noCheck 2
      sampleModel sampleData 2 samplePlacement ⟨1, 1⟩ ⟨quarterTurnX, ⟨1, 0, 0⟩⟩ rfl rfl).1
      (sampleRaw 0) (sampleRaw 0) _ _ rfl rfl, by decide⟩

/-- C17: the `LOCAL` correction composes like rigid placements. On a strictly
decreasing table, with `colRef` inside the table and the matrices and enough
iterations, the `LOCAL` loop of either transformer run with `M1` and then
with `M2` returns what it returns when run once with
`M1 * M2 = (R1 R2, p1 + R1 p2)`, provided `R1` is an orthonormal rotation
(`R1 R1ᵀ = 1`, `det R1 = 1`; nothing is asked of `R2`); and run with `M1` and
then with the inverse placement `(R1ᵀ, -R1ᵀ p1)` it returns the raw
matrices. -/
theorem local_correction_composes
    (parents_fromRow : List Int) (hd : Descending parents_fromRow) (fuel : Nat) (colRef : Int)
    (hfuel : colRef < (fuel : Int)) (hparents : colRef < (parents_fromRow.length : Int))
    (M1 M2 : SE3 α) (hrot : IsRotation M1.rotation) :
    (∀ (rq rv : Matrix6x α), colRef < (rq.length : Int) → colRef < (rv.length : Int) →
      ∃ mq mv oq ov,
        forAncestors parents_fromRow (velocityBodyLOCAL M1) fuel colRef (rq, rv)
          = .returned (mq, mv) ∧
        forAncestors parents_fromRow (velocityBodyLOCAL M2) fuel colRef (mq, mv)
          = .returned (oq, ov) ∧
        forAncestors parents_fromRow (velocityBodyLOCAL (M1.mul M2)) fuel colRef (rq, rv)
          = .returned (oq, ov)) ∧
    (∀ (r1 r2 r3 r4 : Matrix6x α), colRef < (r1.length : Int) → colRef < (r2.length : Int) →
      colRef < (r3.length : Int) → colRef < (r4.length : Int) →
      ∃ m1 m2 m3 m4 o1 o2 o3 o4,
        forAncestors parents_fromRow (accelerationBodyLOCAL M1) fuel colRef (r1, r2, r3, r4)
          = .returned (m1, m2, m3, m4) ∧
        forAncestors parents_fromRow (accelerationBodyLOCAL M2) fuel colRef (m1, m2, m3, m4)
          = .returned (o1, o2, o3, o4) ∧
        forAncestors parents_fromRow (accelerationBodyLOCAL (M1.mul M2)) fuel colRef
            (r1, r2, r3, r4)
          = .returned (o1, o2, o3, o4)) ∧
    (∀ (rq rv : Matrix6x α), colRef < (rq.length : Int) → colRef < (rv.length : Int) →
      ∃ mq mv,
        forAncestors parents_fromRow (velocityBodyLOCAL M1) fuel colRef (rq, rv)
          = .returned (mq, mv) ∧
        forAncestors parents_fromRow (velocityBodyLOCAL M1.inverse) fuel colRef (mq, mv)
          = .returned (rq, rv)) ∧
    (∀ (r1 r2 r3 r4 : Matrix6x α), colRef < (r1.length : Int) → colRef < (r2.length : Int) →
      colRef < (r3.length : Int) → colRef < (r4.length : Int) →
      ∃ m1 m2 m3 m4,
        forAncestors parents_fromRow (accelerationBodyLOCAL M1) fuel colRef (r1, r2, r3, r4)
          = .returned (m1, m2, m3, m4) ∧
        forAncestors parents_fromRow (accelerationBodyLOCAL M1.inverse) fuel colRef
            (m1, m2, m3, m4)
          = .returned (r1, r2, r3, r4)) := by
  have hlen : ∀ (f : Motion α → Motion α) (raw : Matrix6x α), colRef < (raw.length : Int) →
      colRef < ((correctColumns f (ancestorChain parents_fromRow fuel colRef) raw).length
        : Int) := by
    intro f raw h
    rw [length_correctColumns]
    exact h
  have hcomp : ∀ raw : Matrix6x α,
      correctColumns M2.actInv (ancestorChain parents_fromRow fuel colRef)
          (correctColumns M1.actInv (ancestorChain parents_fromRow fuel colRef) raw)
        = correctColumns (M1.mul M2).actInv (ancestorChain parents_fromRow fuel colRef) raw :=
    fun raw => correctColumns_correctColumns _ _ _ (actInv_actInv M1 M2 hrot) _ raw
  have hinv : ∀ raw : Matrix6x α,
      correctColumns M1.inverse.actInv (ancestorChain parents_fromRow fuel colRef)
          (correctColumns M1.actInv (ancestorChain parents_fromRow fuel colRef) raw) = raw := by
    intro raw
    rw [correctColumns_correctColumns M1.actInv M1.inverse.actInv (fun m => m)
      (actInv_inverse M1 hrot) _ raw]
    exact correctColumns_id _ (fun _ => rfl) _ raw
  refine ⟨?_, ?_, ?_, ?_⟩
  · intro rq rv hrq hrv
    refine ⟨correctColumns M1.actInv (ancestorChain parents_fromRow fuel colRef) rq,
      correctColumns M1.actInv (ancestorChain parents_fromRow fuel colRef) rv,
      correctColumns (M1.mul M2).actInv (ancestorChain parents_fromRow fuel colRef) rq,
      correctColumns (M1.mul M2).actInv (ancestorChain parents_fromRow fuel colRef) rv,
      ?_, ?_, ?_⟩
    · rw [velocityBodyLOCAL_eq]
      exact forAncestors_two_returned _ hd fuel colRef rq rv hfuel hparents hrq hrv
    · have h := forAncestors_two_returned M2.actInv hd fuel colRef _ _ hfuel hparents
        (hlen M1.actInv rq hrq) (hlen M1.actInv rv hrv)
      rw [hcomp, hcomp] at h
      rw [velocityBodyLOCAL_eq]
      exact h
    · rw [velocityBodyLOCAL_eq]
      exact forAncestors_two_returned _ hd fuel colRef rq rv hfuel hparents hrq hrv
  · intro r1 r2 r3 r4 h1 h2 h3 h4
    refine ⟨correctColumns M1.actInv (ancestorChain parents_fromRow fuel colRef) r1,
      correctColumns M1.actInv (ancestorChain parents_fromRow fuel colRef) r2,
      correctColumns M1.actInv (ancestorChain parents_fromRow fuel colRef) r3,
      correctColumns M1.actInv (ancestorChain parents_fromRow fuel colRef) r4,
      correctColumns (M1.mul M2).actInv (ancestorChain parents_fromRow fuel colRef) r1,
      correctColumns (M1.mul M2).actInv (ancestorChain parents_fromRow fuel colRef) r2,
      correctColumns (M1.mul M2).actInv (ancestorChain parents_fromRow fuel colRef) r3,
      correctColumns (M1.mul M2).actInv (ancestorChain parents_fromRow fuel colRef) r4,
      ?_, ?_, ?_⟩
    · rw [accelerationBodyLOCAL_eq]
      exact forAncestors_four_returned _ hd fuel colRef r1 r2 r3 r4 hfuel hparents h1 h2 h3 h4
    · have h := forAncestors_four_returned M2.actInv hd fuel colRef _ _ _ _ hfuel hparents
        (hlen M1.actInv r1 h1) (hlen M1.actInv r2 h2) (hlen M1.actInv r3 h3)
        (hlen M1.actInv r4 h4)
      rw [hcomp, hcomp, hcomp, hcomp] at h
      rw [accelerationBodyLOCAL_eq]
      exact h
    · rw [accelerationBodyLOCAL_eq]
      exact forAncestors_four_returned _ hd fuel colRef r1 r2 r3 r4 hfuel hparents h1 h2 h3 h4
  · intro rq rv hrq hrv
    refine ⟨correctColumns M1.actInv (ancestorChain parents_fromRow fuel colRef) rq,
      correctColumns M1.actInv (ancestorChain parents_fromRow fuel colRef) rv, ?_, ?_⟩
    · rw [velocityBodyLOCAL_eq]
      exact forAncestors_two_returned _ hd fuel colRef rq rv hfuel hparents hrq hrv
    · have h := forAncestors_two_returned M1.inverse.actInv hd fuel colRef _ _ hfuel hparents
        (hlen M1.actInv rq hrq) (hlen M1.actInv rv hrv)
      rw [hinv, hinv] at h
      rw [velocityBodyLOCAL_eq]
      exact h
  · intro r1 r2 r3 r4 h1 h2 h3 h4
    refine ⟨correctColumns M1.actInv (ancestorChain parents_fromRow fuel colRef) r1,
      correctColumns M1.actInv (ancestorChain parents_fromRow fuel colRef) r2,
      correctColumns M1.actInv (ancestorChain parents_fromRow fuel colRef) r3,
      correctColumns M1.actInv (ancestorChain parents_fromRow fuel colRef) r4, ?_, ?_⟩
    · rw [accelerationBodyLOCAL_eq]
      exact forAncestors_four_returned _ hd fuel colRef r1 r2 r3 r4 hfuel hparents h1 h2 h3 h4
    · have h := forAncestors_four_returned M1.inverse.actInv hd fuel colRef _ _ _ _ hfuel
        hparents (hlen M1.actInv r1 h1) (hlen M1.actInv r2 h2) (hlen M1.actInv r3 h3)
        (hlen M1.actInv r4 h4)
      rw [hinv, hinv, hinv, hinv] at h
      rw [accelerationBodyLOCAL_eq]
      exact h

/-- Witness for C17 on the table of the sample chain from column 1, with
`M1` a quarter turn about z offset by `(1,2,3)` and `M2` the sample frame
placement. -/
theorem local_correction_composes_witness :
    (∃ mq mv oq ov,
      forAncestors sampleData.parents_fromRow
          (velocityBodyLOCAL (⟨quarterTurn, ⟨1, 2, 3⟩⟩ : SE3 Int)) 2 1
          (sampleRaw 1, sampleRaw 4) = .returned (mq, mv) ∧
      forAncestors sampleData.parents_fromRow (velocityBodyLOCAL samplePlacement) 2 1 (mq, mv)
        = .returned (oq, ov) ∧
      forAncestors sampleData.parents_fromRow
          (velocityBodyLOCAL ((⟨quarterTurn, ⟨1, 2, 3⟩⟩ : SE3 Int).mul samplePlacement)) 2 1
          (sampleRaw 1, sampleRaw 4) = .returned (oq, ov)) ∧
    (∃ mq mv,
      forAncestors sampleData.parents_fromRow
          (velocityBodyLOCAL (⟨quarterTurn, ⟨1, 2, 3⟩⟩ : SE3 Int)) 2 1
          (sampleRaw 1, sampleRaw 4) = .returned (mq, mv) ∧
      forAncestors sampleData.parents_fromRow
          (velocityBodyLOCAL (⟨quarterTurn, ⟨1, 2, 3⟩⟩ : SE3 Int).inverse) 2 1 (mq, mv)
        = .returned (sampleRaw 1, sampleRaw 4)) :=
  have T := local_correction_composes sampleData.parents_fromRow (by decide) 2 1
    (by decide) (by decide) (⟨quarterTurn, ⟨1, 2, 3⟩⟩ : SE3 Int) samplePlacement
    ⟨by decide, by decide⟩
  ⟨T.1 (sampleRaw 1) (sampleRaw 4) (by decide) (by decide),
    T.2.2.1 (sampleRaw 1) (sampleRaw 4) (by decide) (by decide)⟩

/-- C18: for a fixed convention, placement, joint placement and chain, the
correction of both transformers is linear in the raw matrices. On a strictly
decreasing table, with `colRef` inside the table and the matrices and enough
iterations: if the joint algorithm fills the buffers with `X`, with `Y`, and
with `a * X + b * Y`, the transformer returns in all three cases and the
third output is `a` times the first plus `b` times the second, matrix by
matrix; and a raw column that is zero is zero in the output, on the chain or
off it. -/
theorem correction_is_linear
    (check : Model → Data α → Bool) (fuel : Nat)
    (model : Model) (data : Data α) (joint_id : Nat) (placement : SE3 α) (rf : ReferenceFrame)
    (joint : JointModel) (oMi : SE3 α) (a b : α)
    (hjoint : model.joints[joint_id]? = some joint)
    (hoMi : data.oMi[joint_id]? = some oMi)
    (hd : Descending data.parents_fromRow)
    (hfuel : joint.nv + joint.idx_v - 1 < (fuel : Int))
    (hparents : joint.nv + joint.idx_v - 1 < (data.parents_fromRow.length : Int)) :
    (∀ (jvX jvY jvZ : JointVelocityAlgorithm α) (dq dv Xq Xv Yq Yv : Matrix6x α),
      jvX model data joint_id rf (dq, dv) = .returned (Xq, Xv) →
      jvY model data joint_id rf (dq, dv) = .returned (Yq, Yv) →
      jvZ model data joint_id rf (dq, dv)
        = .returned (Matrix6x.combine a Xq b Yq, Matrix6x.combine a Xv b Yv) →
      joint.nv + joint.idx_v - 1 < (Xq.length : Int) →
      joint.nv + joint.idx_v - 1 < (Xv.length : Int) →
      joint.nv + joint.idx_v - 1 < (Yq.length : Int) →
      joint.nv + joint.idx_v - 1 < (Yv.length : Int) →
      ∃ oXq oXv oYq oYv,
        getFrameVelocityDerivatives jvX fuel model data joint_id placement rf dq dv
          = .returned (oXq, oXv) ∧
        getFrameVelocityDerivatives jvY fuel model data joint_id placement rf dq dv
          = .returned (oYq, oYv) ∧
        getFrameVelocityDerivatives jvZ fuel model data joint_id placement rf dq dv
          = .returned (Matrix6x.combine a oXq b oYq, Matrix6x.combine a oXv b oYv)) ∧
    (∀ (jaX jaY jaZ : JointAccelerationAlgorithm α)
      (b1 b2 b3 b4 X1 X2 X3 X4 Y1 Y2 Y3 Y4 : Matrix6x α),
      b1.cols = model.nv → b2.cols = model.nv → b3.cols = model.nv → b4.cols = model.nv →
      check model data = true →
      jaX model data joint_id rf (b1, b2, b3, b4) = .returned (X1, X2, X3, X4) →
      jaY model data joint_id rf (b1, b2, b3, b4) = .returned (Y1, Y2, Y3, Y4) →
      jaZ model data joint_id rf (b1, b2, b3, b4)
        = .returned (Matrix6x.combine a X1 b Y1, Matrix6x.combine a X2 b Y2,
            Matrix6x.combine a X3 b Y3, Matrix6x.combine a X4 b Y4) →
      joint.nv + joint.idx_v - 1 < (X1.length : Int) →
      joint.nv + joint.idx_v - 1 < (X2.length : Int) →
      joint.nv + joint.idx_v - 1 < (X3.length : Int) →
      joint.nv + joint.idx_v - 1 < (X4.length : Int) →
      joint.nv + joint.idx_v - 1 < (Y1.length : Int) →
      joint.nv + joint.idx_v - 1 < (Y2.length : Int) →
      joint.nv + joint.idx_v - 1 < (Y3.length : Int) →
      joint.nv + joint.idx_v - 1 < (Y4.length : Int) →
      ∃ oX1 oX2 oX3 oX4 oY1 oY2 oY3 oY4,
        getFrameAccelerationDerivatives jaX check fuel model data joint_id placement rf
          b1 b2 b3 b4 = .returned (oX1, oX2, oX3, oX4) ∧
        getFrameAccelerationDerivatives jaY check fuel model data joint_id placement rf
          b1 b2 b3 b4 = .returned (oY1, oY2, oY3, oY4) ∧
        getFrameAccelerationDerivatives jaZ check fuel model data joint_id placement rf
          b1 b2 b3 b4
          = .returned (Matrix6x.combine a oX1 b oY1, Matrix6x.combine a oX2 b oY2,
              Matrix6x.combine a oX3 b oY3, Matrix6x.combine a oX4 b oY4)) ∧
    (∀ (jv : JointVelocityAlgorithm α) (dq dv rq rv : Matrix6x α),
      jv model data joint_id rf (dq, dv) = .returned (rq, rv) →
      joint.nv + joint.idx_v - 1 < (rq.length : Int) →
      joint.nv + joint.idx_v - 1 < (rv.length : Int) →
      ∃ oq ov,
        getFrameVelocityDerivatives jv fuel model data joint_id placement rf dq dv
          = .returned (oq, ov) ∧
        ∀ c : Nat,
          (rq[c]? = some Motion.zero → oq[c]? = some Motion.zero) ∧
          (rv[c]? = some Motion.zero → ov[c]? = some Motion.zero)) ∧
    (∀ (ja : JointAccelerationAlgorithm α) (b1 b2 b3 b4 r1 r2 r3 r4 : Matrix6x α),
      b1.cols = model.nv → b2.cols = model.nv → b3.cols = model.nv → b4.cols = model.nv →
      check model data = true →
      ja model data joint_id rf (b1, b2, b3, b4) = .returned (r1, r2, r3, r4) →
      joint.nv + joint.idx_v - 1 < (r1.length : Int) →
      joint.nv + joint.idx_v - 1 < (r2.length : Int) →
      joint.nv + joint.idx_v - 1 < (r3.length : Int) →
      joint.nv + joint.idx_v - 1 < (r4.length : Int) →
      ∃ o1 o2 o3 o4,
        getFrameAccelerationDerivatives ja check fuel model data joint_id placement rf
          b1 b2 b3 b4 = .returned (o1, o2, o3, o4) ∧
        ∀ c : Nat,
          (r1[c]? = some Motion.zero → o1[c]? = some Motion.zero) ∧
          (r2[c]? = some Motion.zero → o2[c]? = some Motion.zero) ∧
          (r3[c]? = some Motion.zero → o3[c]? = some Motion.zero) ∧
          (r4[c]? = some Motion.zero → o4[c]? = some Motion.zero)) := by
  refine ⟨?_, ?_, ?_, ?_⟩
  · intro jvX jvY jvZ dq dv Xq Xv Yq Yv hX hY hZ hXq hXv hYq hYv
    refine ⟨_, _, _, _,
      getFrameVelocityDerivatives_returned jvX fuel model data joint_id placement
        rf dq dv Xq Xv joint oMi hX hjoint hoMi hd hfuel hparents hXq hXv,
      getFrameVelocityDerivatives_returned jvY fuel model data joint_id placement
        rf dq dv Yq Yv joint oMi hY hjoint hoMi hd hfuel hparents hYq hYv, ?_⟩
    rw [getFrameVelocityDerivatives_returned jvZ fuel model data joint_id placement
      rf dq dv _ _ joint oMi hZ hjoint hoMi hd hfuel hparents
      (lt_length_combine a b Xq Yq _ hXq hYq) (lt_length_combine a b Xv Yv _ hXv hYv),
      correctionPass_combine, correctionPass_combine]
  · intro jaX jaY jaZ b1 b2 b3 b4 X1 X2 X3 X4 Y1 Y2 Y3 Y4 h1 h2 h3 h4 hcheck hX hY hZ
      hX1 hX2 hX3 hX4 hY1 hY2 hY3 hY4
    refine ⟨_, _, _, _, _, _, _, _,
      getFrameAccelerationDerivatives_returned jaX check fuel model data joint_id placement
        rf b1 b2 b3 b4 X1 X2 X3 X4 joint oMi h1 h2 h3 h4 hcheck hX hjoint hoMi hd hfuel
        hparents hX1 hX2 hX3 hX4,
      getFrameAccelerationDerivatives_returned jaY check fuel model data joint_id placement
        rf b1 b2 b3 b4 Y1 Y2 Y3 Y4 joint oMi h1 h2 h3 h4 hcheck hY hjoint hoMi hd hfuel
        hparents hY1 hY2 hY3 hY4, ?_⟩
    rw [getFrameAccelerationDerivatives_returned jaZ check fuel model data joint_id placement
      rf b1 b2 b3 b4 _ _ _ _ joint oMi h1 h2 h3 h4 hcheck hZ hjoint hoMi hd hfuel hparents
      (lt_length_combine a b X1 Y1 _ hX1 hY1) (lt_length_combine a b X2 Y2 _ hX2 hY2)
      (lt_length_combine a b X3 Y3 _ hX3 hY3) (lt_length_combine a b X4 Y4 _ hX4 hY4),
      correctionPass_combine, correctionPass_combine, correctionPass_combine,
      correctionPass_combine]
  · intro jv dq dv rq rv hj hrq hrv
    refine ⟨_, _, getFrameVelocityDerivatives_returned jv fuel model data joint_id placement
      rf dq dv rq rv joint oMi hj hjoint hoMi hd hfuel hparents hrq hrv, ?_⟩
    intro c
    exact ⟨correctionPass_zero rf placement oMi _ fuel _ rq c,
      correctionPass_zero rf placement oMi _ fuel _ rv c⟩
  · intro ja b1 b2 b3 b4 r1 r2 r3 r4 h1 h2 h3 h4 hcheck hj hr1 hr2 hr3 hr4
    refine ⟨_, _, _, _, getFrameAccelerationDerivatives_returned ja check fuel model data
      joint_id placement rf b1 b2 b3 b4 r1 r2 r3 r4 joint oMi h1 h2 h3 h4 hcheck hj hjoint
      hoMi hd hfuel hparents hr1 hr2 hr3 hr4, ?_⟩
    intro c
    exact ⟨correctionPass_zero rf placement oMi _ fuel _ r1 c,
      correctionPass_zero rf placement oMi _ fuel _ r2 c,
      correctionPass_zero rf placement oMi _ fuel _ r3 c,
      correctionPass_zero rf placement oMi _ fuel _ r4 c⟩

/-- Witness for C18 on the sample chain in the `LOCAL` convention with
`a = 2` and `b = -3`. -/
theorem correction_is_linear_witness :
    ∃ oXq oXv oYq oYv,
      getFrameVelocityDerivatives (fillVelocity (sampleRaw 1) (sampleRaw 4)) 2
        sampleModel sampleData 2 samplePlacement .LOCAL (sampleRaw 0) (sampleRaw 0)
        = .returned (oXq, oXv) ∧
      getFrameVelocityDerivatives (fillVelocity (sampleRaw 7) (sampleRaw 10)) 2
        sampleModel sampleData 2 samplePlacement .LOCAL (sampleRaw 0) (sampleRaw 0)
        = .returned (oYq, oYv) ∧
      getFrameVelocityDerivatives
        (fillVelocity (Matrix6x.combine 2 (sampleRaw 1) (-3) (sampleRaw 7))
          (Matrix6x.combine 2 (sampleRaw 4) (-3) (sampleRaw 10))) 2
        sampleModel sampleData 2 samplePlacement .LOCAL (sampleRaw 0) (sampleRaw 0)
        = .returned (Matrix6x.combine 2 oXq (-3) oYq, Matrix6x.combine 2 oXv (-3) oYv) :=
  (correction_is_linear noCheck 2 sampleModel sampleData 2 samplePlacement .LOCAL
    ⟨1, 1⟩ ⟨quarterTurnX, ⟨1, 0, 0⟩⟩ 2 (-3) rfl rfl (by decide) (by decide) (by decide)).1
    (fillVelocity (sampleRaw 1) (sampleRaw 4)) (fillVelocity (sampleRaw 7) (sampleRaw 10))
    (fillVelocity (Matrix6x.combine 2 (sampleRaw 1) (-3) (sampleRaw 7))
      (Matrix6x.combine 2 (sampleRaw 4) (-3) (sampleRaw 10)))
    (sampleRaw 0) (sampleRaw 0) _ _ _ _ rfl rfl rfl
    (by decide) (by decide) (by decide) (by decide)

end Properties

end pinocchio
